import Mathlib

/-!
The monitor reconciliation engine of vmqfox-backend.

A shallow embedding of the Go sources under `internal/` that receive monitor
heartbeats and payment pushes, match a push to a pending order, and close
expired orders.

Conventions of the embedding

* A database table is the list of its rows, in primary-key order.  A GORM
  `First` returns the first row (in that order) that satisfies the condition and
  fails with `gorm.ErrRecordNotFound` when there is none; `Find` returns every
  matching row; `Update` / `Updates` rewrite the named columns of every matching
  row and succeed also when no row matches.  SQL `=` on strings is exact
  equality.  Store operations do not fail for any other reason.
* Go `uint` identifiers are `Nat`; Go `int` and `int64` are `Int`, with an
  explicit wrap to 64 bits where the source does arithmetic that can overflow.
* Go `float64` amounts are `Float64` values: a rational for every finite value,
  and the three non-finite values.  They are compared with `Float64.eq`.
* Go strings are Lean strings; `[]byte(s)` is the UTF-8 encoding of `s`.
* Each call of `time.Now()` in the source is a `Time` argument of the model, in
  the order in which the source reads the clock.
* `crypto/md5` is the digest of RFC 1321, `strconv.Atoi` / `strconv.FormatInt`
  are base-10 conversions; `strconv.ParseFloat` is an argument of the one
  function that calls it.
-/

namespace Vmqfox

/-! ## `crypto/md5` and `fmt.Sprintf("%x", ...)` -/

/-- Per-round left-rotation amounts of MD5 (RFC 1321, section 3.4). -/
def md5Shifts : List Nat :=
  [7, 12, 17, 22, 7, 12, 17, 22, 7, 12, 17, 22, 7, 12, 17, 22,
   5, 9, 14, 20, 5, 9, 14, 20, 5, 9, 14, 20, 5, 9, 14, 20,
   4, 11, 16, 23, 4, 11, 16, 23, 4, 11, 16, 23, 4, 11, 16, 23,
   6, 10, 15, 21, 6, 10, 15, 21, 6, 10, 15, 21, 6, 10, 15, 21]

/-- The sine-derived additive constants of MD5 (RFC 1321, section 3.4). -/
def md5Consts : List Nat :=
  [0xd76aa478, 0xe8c7b756, 0x242070db, 0xc1bdceee, 0xf57c0faf, 0x4787c62a, 0xa8304613, 0xfd469501,
   0x698098d8, 0x8b44f7af, 0xffff5bb1, 0x895cd7be, 0x6b901122, 0xfd987193, 0xa679438e, 0x49b40821,
   0xf61e2562, 0xc040b340, 0x265e5a51, 0xe9b6c7aa, 0xd62f105d, 0x02441453, 0xd8a1e681, 0xe7d3fbc8,
   0x21e1cde6, 0xc33707d6, 0xf4d50d87, 0x455a14ed, 0xa9e3e905, 0xfcefa3f8, 0x676f02d9, 0x8d2a4c8a,
   0xfffa3942, 0x8771f681, 0x6d9d6122, 0xfde5380c, 0xa4beea44, 0x4bdecfa9, 0xf6bb4b60, 0xbebfbc70,
   0x289b7ec6, 0xeaa127fa, 0xd4ef3085, 0x04881d05, 0xd9d4d039, 0xe6db99e5, 0x1fa27cf8, 0xc4ac5665,
   0xf4292244, 0x432aff97, 0xab9423a7, 0xfc93a039, 0x655b59c3, 0x8f0ccc92, 0xffeff47d, 0x85845dd1,
   0x6fa87e4f, 0xfe2ce6e0, 0xa3014314, 0x4e0811a1, 0xf7537e82, 0xbd3af235, 0x2ad7d2bb, 0xeb86d391]

/-- The modulus of 32-bit words, `2^32`. -/
def word32 : Nat := 4294967296

/-- Left rotation of a 32-bit word by `c` bits. -/
def rotl32 (x c : Nat) : Nat := ((x <<< c) ||| (x >>> (32 - c))) % word32

/-- Bitwise complement of a 32-bit word. -/
def not32 (x : Nat) : Nat := (word32 - 1) - x % word32

/-- The four chaining words of MD5. -/
structure Md5State where
  a : Nat
  b : Nat
  c : Nat
  d : Nat
deriving DecidableEq, Repr

/-- The initial chaining value of MD5. -/
def md5Init : Md5State := ⟨0x67452301, 0xefcdab89, 0x98badcfe, 0x10325476⟩

/-- Step `i` (0..63) of the MD5 compression function on the sixteen message words `m`. -/
def md5Round (m : List Nat) (st : Md5State) (i : Nat) : Md5State :=
  let f :=
    if i < 16 then (st.b &&& st.c) ||| (not32 st.b &&& st.d)
    else if i < 32 then (st.d &&& st.b) ||| (not32 st.d &&& st.c)
    else if i < 48 then st.b ^^^ st.c ^^^ st.d
    else st.c ^^^ (st.b ||| not32 st.d)
  let g :=
    if i < 16 then i
    else if i < 32 then (5 * i + 1) % 16
    else if i < 48 then (3 * i + 5) % 16
    else (7 * i) % 16
  let sum := (f + st.a + md5Consts.getD i 0 + m.getD g 0) % word32
  ⟨st.d, (st.b + rotl32 sum (md5Shifts.getD i 0)) % word32, st.b, st.c⟩

/-- The little-endian 32-bit word made of the first four bytes of `bs`. -/
def leWord (bs : List Nat) : Nat :=
  bs.getD 0 0 + 256 * bs.getD 1 0 + 65536 * bs.getD 2 0 + 16777216 * bs.getD 3 0

/-- The sixteen little-endian words of a 64-byte block. -/
def blockWords (block : List Nat) : List Nat :=
  (List.range 16).map (fun j => leWord (block.drop (4 * j)))

/-- The MD5 compression function: absorb one 64-byte block. -/
def md5Block (st : Md5State) (block : List Nat) : Md5State :=
  let r := (List.range 64).foldl (md5Round (blockWords block)) st
  ⟨(st.a + r.a) % word32, (st.b + r.b) % word32, (st.c + r.c) % word32, (st.d + r.d) % word32⟩

/-- The `n` low bytes of `x`, least significant first. -/
def leBytes : Nat → Nat → List Nat
  | 0, _ => []
  | n + 1, x => x % 256 :: leBytes n (x / 256)

/-- MD5 padding: a `0x80` byte, zeros up to 56 modulo 64, then the bit length on 8 bytes. -/
def md5Pad (msg : List Nat) : List Nat :=
  let l := msg.length
  msg ++ [128] ++ List.replicate ((119 - l % 64) % 64) 0 ++ leBytes 8 ((8 * l) % 18446744073709551616)

/-- Absorb `n` consecutive 64-byte blocks of `bs`. -/
def md5Blocks : Nat → Md5State → List Nat → Md5State
  | 0, st, _ => st
  | n + 1, st, bs => md5Blocks n (md5Block st (bs.take 64)) (bs.drop 64)

/-- Go `md5.Sum`: the 16-byte MD5 digest of a byte string. -/
def md5Sum (msg : List Nat) : List Nat :=
  let p := md5Pad msg
  let st := md5Blocks (p.length / 64) md5Init p
  leBytes 4 st.a ++ leBytes 4 st.b ++ leBytes 4 st.c ++ leBytes 4 st.d

/-- One lowercase hexadecimal digit. -/
def hexDigit (n : Nat) : Char :=
  if n < 10 then Char.ofNat (48 + n) else Char.ofNat (87 + n)

/-- Go `fmt.Sprintf("%x", bs)` on a byte array: two lowercase hex digits per byte. -/
def hexBytes (bs : List Nat) : String :=
  String.mk (bs.flatMap (fun b => [hexDigit (b / 16), hexDigit (b % 16)]))

/-- UTF-8 encoding of one code point. -/
def utf8EncodeChar (c : Nat) : List Nat :=
  if c < 128 then [c]
  else if c < 2048 then [192 + c / 64, 128 + c % 64]
  else if c < 65536 then [224 + c / 4096, 128 + c / 64 % 64, 128 + c % 64]
  else [240 + c / 262144, 128 + c / 4096 % 64, 128 + c / 64 % 64, 128 + c % 64]

/-- Go `[]byte(s)`: the bytes of a string. -/
def utf8Bytes (s : String) : List Nat :=
  s.data.flatMap (fun c => utf8EncodeChar c.toNat)

/-- The expression `fmt.Sprintf("%x", md5.Sum([]byte(s)))` of `service/setting.go`. -/
def md5hex (s : String) : String := hexBytes (md5Sum (utf8Bytes s))

/-! ## `strconv` and `time` -/

/-- Value of a decimal digit character, `none` for any other character. -/
def digitValue (c : Char) : Option Nat :=
  if 48 ≤ c.toNat ∧ c.toNat ≤ 57 then some (c.toNat - 48) else none

/-- One step of the digit loop of `strconv.ParseUint`: append a decimal digit to the
value read so far; any other character is a syntax error. -/
def parseStep (acc : Option Nat) (c : Char) : Option Nat :=
  match acc, digitValue c with
  | some n, some d => some (10 * n + d)
  | _, _ => none

/-- Go `strconv.ParseUint(s, 10, 64)` without the range check: the value of a
non-empty string of decimal digits. -/
def parseDigits : List Char → Option Nat
  | [] => none
  | cs => cs.foldl parseStep (some 0)

/-- Go `strconv.ParseInt(s, 10, 64)`: an optional sign, then decimal digits; `none`
when the function returns an error (syntax, or value outside the `int64` range). -/
def ParseInt (s : String) : Option Int :=
  match s.data with
  | [] => none
  | c :: cs =>
    if c = '-' then
      match parseDigits cs with
      | some n => if n ≤ 9223372036854775808 then some (-(n : Int)) else none
      | none => none
    else
      match parseDigits (if c = '+' then cs else c :: cs) with
      | some n => if n < 9223372036854775808 then some (n : Int) else none
      | none => none

/-- Go `strconv.Atoi` on a 64-bit platform: `ParseInt(s, 10, 0)`. -/
def Atoi (s : String) : Option Int := ParseInt s

/-- Go `strconv.FormatInt(i, 10)`. -/
def FormatInt (i : Int) : String :=
  match i with
  | Int.ofNat n => String.mk (Nat.toDigits 10 n)
  | Int.negSucc n => String.mk ('-' :: Nat.toDigits 10 (n + 1))

/-- A reading of `time.Now()`: wall-clock nanoseconds since the Unix epoch. -/
structure Time where
  nanos : Int
deriving DecidableEq, Repr

/-- Go `Time.Unix`: whole seconds since the epoch (rounded down). -/
def Time.Unix (t : Time) : Int := t.nanos / 1000000000

/-- Go `Time.Add`: shift by a duration in nanoseconds. -/
def Time.Add (t : Time) (d : Int) : Time := ⟨t.nanos + d⟩

/-- Two's-complement wrap of an integer to the `int64` range. -/
def wrapInt64 (x : Int) : Int :=
  (x + 9223372036854775808) % 18446744073709551616 - 9223372036854775808

/-- Go `time.Minute` as a `time.Duration` (nanoseconds). -/
def Minute : Int := 60000000000

/-- Go `float64` values up to the sign of zero. -/
inductive Float64 where
  | finite (v : ℚ)
  | posInf
  | negInf
  | nan
deriving DecidableEq, Repr

/-- Comparison `=` of two `float64` values: equality of values, false on NaN. -/
def Float64.eq (x y : Float64) : Bool :=
  match x, y with
  | Float64.nan, _ => false
  | _, Float64.nan => false
  | a, b => decide (a = b)

/-- A `strconv.ParseFloat` for plain decimal literals: an optional sign, digits,
and an optional fraction, with at least one digit.  The result is the decimal
value itself.  It instantiates the `ParseFloat` argument when a scenario is run. -/
def parseDecimal (s : String) : Option Float64 :=
  let neg := s.data.head? = some '-'
  let body := if s.data.head? = some '-' ∨ s.data.head? = some '+' then s.data.drop 1 else s.data
  let intPart := body.takeWhile (fun c => c ≠ '.')
  let fracPart := (body.dropWhile (fun c => c ≠ '.')).drop 1
  if intPart.length + fracPart.length = 0 then none
  else
    match parseDigits ('0' :: intPart), parseDigits ('0' :: fracPart) with
    | some i, some f =>
      let v : ℚ := mkRat ((i * 10 ^ fracPart.length + f : Nat) : Int) (10 ^ fracPart.length)
      some (Float64.finite (if neg then -v else v))
    | _, _ => none

/-! ## Data model (`internal/model`) -/

/-- Modelled from the spec: the type `model.Setting`, whose declaration is not among
the sources.  One persisted per-account setting (section 6: secret key, `lastheart`,
`lastpay`, `jkstate`), with the three fields the sources read and write. -/
structure Setting where
  User_id : Nat
  Vkey : String
  Vvalue : String
deriving DecidableEq, Repr

/-- Row of `merchant_mapping` (`model.MerchantMapping`, without its audit timestamps). -/
structure MerchantMapping where
  AppId : String
  UserId : Nat
  Status : Int
deriving DecidableEq, Repr

/-- Row of `pay_order` (`model.Order`, without the unloaded `User` association); the
Go field `Type` is `Type_`. -/
structure Order where
  Id : Nat
  User_id : Nat
  Order_id : String
  Type_ : Int
  Price : Float64
  Really_price : Float64
  State : Int
  Notify_url : String
  Return_url : String
  Pay_id : String
  Pay_url : String
  Param : String
  Is_auto : Int
  Create_date : Int
  Pay_date : Int
  Close_date : Int
deriving DecidableEq, Repr

/-- Row of `tmp_price` (`model.TmpPrice`): the amount/kind lock held by order `Oid`. -/
structure TmpPrice where
  Price : String
  Oid : String
deriving DecidableEq, Repr

/-- Constant `model.OrderStatusClosed`. -/
def OrderStatusClosed : Int := -1

/-- Constant `model.OrderStatusPending`. -/
def OrderStatusPending : Int := 0

/-- Constant `model.OrderStatusPaid`. -/
def OrderStatusPaid : Int := 1

/-- Constant `model.OrderStatusNotifyFailed`. -/
def OrderStatusNotifyFailed : Int := 2

/-- Modelled from the spec: the type `model.MonitorHeartRequest`, whose declaration is
not among the sources.  The heartbeat message of section 6 (`t`, `sign`, optional
`appid`), under the field names the handler and the service use. -/
structure MonitorHeartRequest where
  T : String
  Sign : String
  AppID : String
deriving DecidableEq, Repr

/-- Modelled from the spec: the type `model.MonitorPushRequest`, whose declaration is
not among the sources.  The payment push of section 6 (`t`, `sign`, optional `appid`,
`type`, `price`), under the field names the service uses; the Go field `Type` is
`Type_`. -/
structure MonitorPushRequest where
  T : String
  Sign : String
  AppID : String
  Type_ : String
  Price : String
deriving DecidableEq, Repr

/-- The database: the four tables the engine reads and writes. -/
structure Store where
  settings : List Setting
  merchants : List MerchantMapping
  orders : List Order
  tmpPrices : List TmpPrice
deriving DecidableEq, Repr

/-- The Go `error` values that the modelled functions return. -/
inductive Err where
  /-- The error `gorm.ErrRecordNotFound`. -/
  | recordNotFound
  /-- The error `service.ErrInvalidSign`. -/
  | invalidSign
  /-- The error `fmt.Errorf("invalid appid: %s", appid)`. -/
  | invalidAppid (appid : String)
  /-- The error `fmt.Errorf("invalid price: %s", price)`. -/
  | invalidPrice (price : String)
  /-- The error `fmt.Errorf("invalid type: %s", typ)`. -/
  | invalidType (typ : String)
deriving DecidableEq, Repr

/-! ## `repository/setting.go` and `repository/merchant.go` -/

/-- Go `settingRepository.GetSetting`: `Where("vkey = ? AND user_id = ?").First`. -/
def settingRepository.GetSetting (s : Store) (userID : Nat) (key : String) : Except Err Setting :=
  match s.settings.find? (fun r => decide (r.Vkey = key ∧ r.User_id = userID)) with
  | some r => Except.ok r
  | none => Except.error Err.recordNotFound

/-- Go `settingRepository.UpdateSetting`:
`Model(&Setting{}).Where("vkey = ? AND user_id = ?").Update("vvalue", value)`. -/
def settingRepository.UpdateSetting (s : Store) (userID : Nat) (key value : String) :
    Option Err × Store :=
  (none, { s with settings := s.settings.map (fun r =>
    if r.Vkey = key ∧ r.User_id = userID then { r with Vvalue := value } else r) })

/-- Go `merchantRepository.GetUserIDByAppID`: `Where("app_id = ? AND status = 1").First`. -/
def merchantRepository.GetUserIDByAppID (s : Store) (appId : String) : Except Err Nat :=
  match s.merchants.find? (fun m => decide (m.AppId = appId ∧ m.Status = 1)) with
  | some m => Except.ok m.UserId
  | none => Except.error Err.recordNotFound

/-! ## `repository/order.go` -/

/-- Of two rows, the one that `ORDER BY create_date DESC, id` lists first (`best`
on a tie of both columns). -/
def orderRepository.earlierInOrder (best x : Order) : Order :=
  if best.Create_date < x.Create_date ∨ (best.Create_date = x.Create_date ∧ x.Id < best.Id)
  then x else best

/-- The row `First` returns under `Order("create_date DESC")`: GORM orders by
`create_date DESC` and then by primary key, and takes the first row. -/
def orderRepository.firstByCreateDateDesc : List Order → Option Order
  | [] => none
  | o :: os => some (os.foldl orderRepository.earlierInOrder o)

/-- Go `orderRepository.GetRecentPendingOrderByPriceAndType`: the newest pending
order of the user and kind whose `really_price` is the amount, and failing that the
newest whose `price` is the amount. -/
def orderRepository.GetRecentPendingOrderByPriceAndType (s : Store) (userID : Nat)
    (price : Float64) (orderType : Int) : Except Err Order :=
  -- 先尝试匹配 really_price
  match orderRepository.firstByCreateDateDesc (s.orders.filter (fun o =>
      decide (o.User_id = userID) && Float64.eq o.Really_price price &&
      decide (o.Type_ = orderType) && decide (o.State = OrderStatusPending))) with
  | some order => Except.ok order
  | none =>
    -- 如果没找到，再尝试匹配 price
    match orderRepository.firstByCreateDateDesc (s.orders.filter (fun o =>
        decide (o.User_id = userID) && Float64.eq o.Price price &&
        decide (o.Type_ = orderType) && decide (o.State = OrderStatusPending))) with
    | some order => Except.ok order
    | none => Except.error Err.recordNotFound

/-- Insert a row at its place in primary-key order. -/
def orderRepository.insertOrder (o : Order) : List Order → List Order
  | [] => [o]
  | x :: xs => if o.Id < x.Id then o :: x :: xs else x :: orderRepository.insertOrder o xs

/-- Go `orderRepository.Update`: `db.Save(order)`.  With a zero primary key GORM
creates the row (the `BeforeCreate` hook stamps `Create_date` from the clock, the
key is the next auto-increment value); otherwise it writes every column of the
row with that key, and inserts the row when the table has no row with that key. -/
def orderRepository.Update (s : Store) (order : Order) (now : Time) : Option Err × Store :=
  if order.Id = 0 then
    (none, { s with orders := s.orders ++
      [{ order with Id := (s.orders.map Order.Id).foldl max 0 + 1, Create_date := now.Unix }] })
  else if s.orders.any (fun o => decide (o.Id = order.Id)) then
    (none, { s with orders := s.orders.map (fun o => if o.Id = order.Id then order else o) })
  else
    (none, { s with orders := orderRepository.insertOrder order s.orders })

/-- The cut-off of `CloseExpiredOrdersWithMinutes`:
`time.Now().Add(-time.Duration(expireMinutes) * time.Minute).Unix()`, the product
being an `int64` multiplication. -/
def orderRepository.expireTime (now : Time) (expireMinutes : Int) : Int :=
  (now.Add (wrapInt64 (wrapInt64 (-expireMinutes) * Minute))).Unix

/-- The `Where` conditions shared by the select and the update of
`CloseExpiredOrdersWithMinutes`: pending, created before the cut-off, and of the
given user when one is given. -/
def orderRepository.expiredCond (expireTime : Int) (userID : Option Nat) (o : Order) : Bool :=
  decide (o.State = OrderStatusPending) && decide (o.Create_date < expireTime) &&
  (match userID with
   | some u => decide (o.User_id = u)
   | none => true)

/-- The select of `CloseExpiredOrdersWithMinutes` (`query.Find(&ordersToClose)`):
the matching rows, the first `limit` of them when `limit > 0`. -/
def orderRepository.findOrdersToClose (s : Store) (expireTime : Int) (userID : Option Nat)
    (limit : Int) : List Order :=
  let rows := s.orders.filter (orderRepository.expiredCond expireTime userID)
  if limit > 0 then rows.take limit.toNat else rows

/-- The conditions of the batch update of `CloseExpiredOrdersWithMinutes`: the
shared conditions, and `id IN orderIDs` when `limit > 0`. -/
def orderRepository.closeCond (expireTime : Int) (userID : Option Nat) (limit : Int)
    (ordersToClose : List Order) (o : Order) : Bool :=
  orderRepository.expiredCond expireTime userID o &&
  (if limit > 0 then decide (o.Id ∈ ordersToClose.map Order.Id) else true)

/-- The batch update of `CloseExpiredOrdersWithMinutes` (`result.Updates(updates)`):
returns `RowsAffected` and the new table. -/
def orderRepository.closeUpdate (orders : List Order) (expireTime : Int) (userID : Option Nat)
    (limit : Int) (ordersToClose : List Order) (closeDate : Int) : Int × List Order :=
  (((orders.filter (orderRepository.closeCond expireTime userID limit ordersToClose)).length : Int),
   orders.map (fun o =>
     if orderRepository.closeCond expireTime userID limit ordersToClose o
     then { o with State := OrderStatusClosed, Close_date := closeDate } else o))

/-- Go `orderRepository.CloseExpiredOrdersWithMinutes`; `now` is the clock reading of
the cut-off, `closeNow` the one of `close_date`.  Returns `RowsAffected`, the
error, and the store. -/
def orderRepository.CloseExpiredOrdersWithMinutes (s : Store) (userID : Option Nat)
    (limit : Int) (expireMinutes : Int) (now closeNow : Time) : Int × Option Err × Store :=
  -- 计算过期时间点
  let expireTime := orderRepository.expireTime now expireMinutes
  let closeDate := closeNow.Unix
  -- 先获取要关闭的订单列表
  let ordersToClose := orderRepository.findOrdersToClose s expireTime userID limit
  if ordersToClose.length = 0 then (0, none, s)
  else
    -- 批量更新订单状态
    let updateResult := orderRepository.closeUpdate s.orders expireTime userID limit
      ordersToClose closeDate
    -- 清理tmp_price表中对应的记录
    let tmpPrices :=
      if updateResult.1 > 0 then
        s.tmpPrices.filter (fun t => !decide (t.Oid ∈ ordersToClose.map Order.Order_id))
      else s.tmpPrices
    (updateResult.1, none, { s with orders := updateResult.2, tmpPrices := tmpPrices })

/-- Go `orderRepository.CloseExpiredOrders`: the 5-minute default. -/
def orderRepository.CloseExpiredOrders (s : Store) (userID : Option Nat) (limit : Int)
    (now closeNow : Time) : Int × Option Err × Store :=
  orderRepository.CloseExpiredOrdersWithMinutes s userID limit 5 now closeNow

/-! ## `service/setting.go` -/

/-- Go `settingService.GetUserIDByAppID`. -/
def settingService.GetUserIDByAppID (s : Store) (appId : String) : Except Err Nat :=
  merchantRepository.GetUserIDByAppID s appId

/-- The account resolution that opens `ProcessMonitorHeart` and `ProcessMonitorPush`
(`userID := uint(1)`, replaced by the mapped user when `req.AppID != ""`). -/
def settingService.resolveUserID (s : Store) (appID : String) : Except Err Nat :=
  if appID ≠ "" then
    match settingService.GetUserIDByAppID s appID with
    | Except.error _ => Except.error (Err.invalidAppid appID)
    | Except.ok foundUserID => Except.ok foundUserID
  else Except.ok 1

/-- The body of `ProcessMonitorHeart` from the key lookup on, for the resolved `userID`. -/
def settingService.heartAs (s : Store) (userID : Nat) (req : MonitorHeartRequest)
    (now : Time) : Option Err × Store :=
  -- 获取密钥
  match settingRepository.GetSetting s userID "key" with
  | Except.error err => (some err, s)
  | Except.ok key =>
    -- 验证签名
    let expectedSign := md5hex (req.T ++ key.Vvalue)
    if req.Sign ≠ expectedSign then (some Err.invalidSign, s)
    else
      -- 更新心跳时间和监控状态
      let r := settingRepository.UpdateSetting s userID "lastheart" (FormatInt now.Unix)
      match r.1 with
      | some err => (some err, r.2)
      | none => settingRepository.UpdateSetting r.2 userID "jkstate" "1"

/-- Go `settingService.ProcessMonitorHeart`. -/
def settingService.ProcessMonitorHeart (s : Store) (req : MonitorHeartRequest)
    (now : Time) : Option Err × Store :=
  match settingService.resolveUserID s req.AppID with
  | Except.error err => (some err, s)
  | Except.ok userID => settingService.heartAs s userID req now

/-- The body of `ProcessMonitorPush` from the key lookup on, for the resolved `userID`.  The
clock is read for `Pay_date` (`payNow`), by the `BeforeCreate` hook when `Save`
creates a row (`saveNow`), and for `lastpay` (`markNow`). -/
def settingService.pushAs (ParseFloat : String → Option Float64) (s : Store) (userID : Nat)
    (req : MonitorPushRequest) (payNow saveNow markNow : Time) : Option Err × Store :=
  -- 获取密钥
  match settingRepository.GetSetting s userID "key" with
  | Except.error err => (some err, s)
  | Except.ok key =>
    -- 验证签名
    let signStr := req.Type_ ++ req.Price ++ req.T ++ key.Vvalue
    let expectedSign := md5hex signStr
    if req.Sign ≠ expectedSign then (some Err.invalidSign, s)
    else
      match ParseFloat req.Price with
      | none => (some (Err.invalidPrice req.Price), s)
      | some price =>
        match Atoi req.Type_ with
        | none => (some (Err.invalidType req.Type_), s)
        | some orderType =>
          -- 查找该用户最近创建的匹配订单
          let s1 :=
            match orderRepository.GetRecentPendingOrderByPriceAndType s userID price orderType with
            | Except.error _ => s
            | Except.ok order =>
              -- 更新订单状态为已支付
              (orderRepository.Update s
                { order with State := OrderStatusPaid, Pay_date := payNow.Unix } saveNow).2
          -- 更新最后支付时间
          settingRepository.UpdateSetting s1 userID "lastpay" (FormatInt markNow.Unix)

/-- Go `settingService.GetUserSettingValue`. -/
def settingService.GetUserSettingValue (s : Store) (userID : Nat) (key : String) :
    Except Err String :=
  match settingRepository.GetSetting s userID key with
  | Except.error err => Except.error err
  | Except.ok setting => Except.ok setting.Vvalue

/-- Go `settingService.ProcessMonitorPush`; `ParseFloat` is `strconv.ParseFloat(·, 64)`,
`none` when it returns an error. -/
def settingService.ProcessMonitorPush (ParseFloat : String → Option Float64) (s : Store)
    (req : MonitorPushRequest) (payNow saveNow markNow : Time) : Option Err × Store :=
  match settingService.resolveUserID s req.AppID with
  | Except.error err => (some err, s)
  | Except.ok userID => settingService.pushAs ParseFloat s userID req payNow saveNow markNow



/-- Go `settingRepository.GetAllSettingsByKey`: `Where("vkey = ?").Find`. -/
def settingRepository.GetAllSettingsByKey (s : Store) (key : String) :
    Except Err (List Setting) :=
  Except.ok (s.settings.filter (fun r => decide (r.Vkey = key)))

/-- The constant `heartbeatTimeout` of `CheckAndUpdateMonitorStatus` (seconds). -/
def heartbeatTimeout : Int := 180

/-- The loop body of `CheckAndUpdateMonitorStatus` for one `lastheart` row; the
difference `currentTime-heartTime` is an `int64` subtraction, and the result of
`UpdateSetting` is not looked at. -/
def settingService.checkMonitorRow (currentTime : Int) (s : Store) (setting : Setting) : Store :=
  let userID := setting.User_id
  let lastHeartStr := setting.Vvalue
  if lastHeartStr = "" then
    -- 没有心跳记录，设置为掉线状态
    (settingRepository.UpdateSetting s userID "jkstate" "0").2
  else
    match ParseInt lastHeartStr with
    | none =>
      -- 心跳时间格式错误，设置为掉线状态
      (settingRepository.UpdateSetting s userID "jkstate" "0").2
    | some heartTime =>
      if heartTime ≤ 0 then
        (settingRepository.UpdateSetting s userID "jkstate" "0").2
      else if wrapInt64 (currentTime - heartTime) ≥ heartbeatTimeout then
        -- 心跳超时，设置为掉线状态
        (settingRepository.UpdateSetting s userID "jkstate" "0").2
      else s

/-- Go `settingService.CheckAndUpdateMonitorStatus`: the rows are listed once, then
visited in turn. -/
def settingService.CheckAndUpdateMonitorStatus (s : Store) (now : Time) : Option Err × Store :=
  let currentTime := now.Unix
  match settingRepository.GetAllSettingsByKey s "lastheart" with
  | Except.error err => (some err, s)
  | Except.ok settings => (none, settings.foldl (settingService.checkMonitorRow currentTime) s)

/-- Whether the loop body of `CheckAndUpdateMonitorStatus` reaches one of its
`UpdateSetting(userID, "jkstate", "0")` calls for a `lastheart` value. -/
def settingService.marksOffline (currentTime : Int) (lastHeartStr : String) : Bool :=
  decide (lastHeartStr = "") ||
  (match ParseInt lastHeartStr with
   | none => true
   | some heartTime =>
     decide (heartTime ≤ 0) || decide (wrapInt64 (currentTime - heartTime) ≥ heartbeatTimeout))

/-! ## Successive calls -/

/-- The store after `k` successive calls of `CloseExpiredOrdersWithMinutes` with the
same arguments and the same clock readings. -/
def orderRepository.closeRepeatedly (userID : Option Nat) (limit expireMinutes : Int)
    (now closeNow : Time) : Nat → Store → Store
  | 0, s => s
  | k + 1, s =>
    orderRepository.closeRepeatedly userID limit expireMinutes now closeNow k
      (orderRepository.CloseExpiredOrdersWithMinutes s userID limit expireMinutes
        now closeNow).2.2

/-- One operation of the engine on the order table: a payment push, or a reclaim
batch, with the clock readings of the call. -/
inductive EngineOp where
  | push (req : MonitorPushRequest) (payNow saveNow markNow : Time)
  | reclaim (userID : Option Nat) (limit expireMinutes : Int) (now closeNow : Time)

/-- The store after one operation. -/
def EngineOp.run (ParseFloat : String → Option Float64) (s : Store) : EngineOp → Store
  | EngineOp.push req payNow saveNow markNow =>
    (settingService.ProcessMonitorPush ParseFloat s req payNow saveNow markNow).2
  | EngineOp.reclaim userID limit expireMinutes now closeNow =>
    (orderRepository.CloseExpiredOrdersWithMinutes s userID limit expireMinutes
      now closeNow).2.2

/-- The store after a sequence of operations, executed one after the other. -/
def runOps (ParseFloat : String → Option Float64) (ops : List EngineOp) (s : Store) : Store :=
  ops.foldl (EngineOp.run ParseFloat) s

/-! ## `scheduler/scheduler.go` -/

/-- Request type `model.CloseExpiredOrdersRequest`. -/
structure CloseExpiredOrdersRequest where
  User_id : Option Nat
  Limit : Int
deriving DecidableEq, Repr

/-- Go `Scheduler.closeExpiredOrders`, without its log lines.  The order service is
not among the sources: its `CloseExpiredOrders` is the first argument, acting on a
state `w`. -/
def Scheduler.closeExpiredOrders {σ : Type}
    (CloseExpiredOrders : CloseExpiredOrdersRequest → σ → (Int × Option Err) × σ) (w : σ) : σ :=
  let req : CloseExpiredOrdersRequest := { User_id := none, Limit := 100 }
  (CloseExpiredOrders req w).2

/-! ## `pkg/response/response.go` -/

/-- Go `response.Response`; `Data` is `none` for a nil payload. -/
structure Response where
  Code : Int
  Msg : String
  Data : Option String
deriving DecidableEq, Repr

/-- What `c.JSON(status, body)` sends: the HTTP status and the envelope. -/
structure HTTPResponse where
  Status : Int
  Body : Response
deriving DecidableEq, Repr

/-- Constant `response.CodeSuccess`. -/
def CodeSuccess : Int := 200

/-- Constant `response.CodeBadRequest`. -/
def CodeBadRequest : Int := 400

/-- Constant `response.CodeUnauthorized`. -/
def CodeUnauthorized : Int := 401

/-- Constant `response.CodeForbidden`. -/
def CodeForbidden : Int := 403

/-- Constant `response.CodeNotFound`. -/
def CodeNotFound : Int := 404

/-- Constant `response.CodeMethodNotAllowed`. -/
def CodeMethodNotAllowed : Int := 405

/-- Constant `response.CodeConflict`. -/
def CodeConflict : Int := 409

/-- Constant `response.CodeValidationFailed`. -/
def CodeValidationFailed : Int := 422

/-- Constant `response.CodeInternalError`. -/
def CodeInternalError : Int := 500

/-- Constant `response.CodeServiceUnavailable`. -/
def CodeServiceUnavailable : Int := 503

/-- Constant `response.CodeUserNotFound`. -/
def CodeUserNotFound : Int := 40001

/-- Constant `response.CodeUserExists`. -/
def CodeUserExists : Int := 40002

/-- Constant `response.CodeInvalidPassword`. -/
def CodeInvalidPassword : Int := 40003

/-- Constant `response.CodeUserDisabled`. -/
def CodeUserDisabled : Int := 40004

/-- Constant `response.CodePermissionDenied`. -/
def CodePermissionDenied : Int := 40005

/-- Constant `response.CodeTokenExpired`. -/
def CodeTokenExpired : Int := 40006

/-- Constant `response.CodeTokenInvalid`. -/
def CodeTokenInvalid : Int := 40007

/-- The map `response.errorMessages`. -/
def errorMessages : List (Int × String) :=
  [(CodeSuccess, "Success"), (CodeBadRequest, "Bad Request"), (CodeUnauthorized, "Unauthorized"),
   (CodeForbidden, "Forbidden"), (CodeNotFound, "Not Found"),
   (CodeMethodNotAllowed, "Method Not Allowed"), (CodeConflict, "Conflict"),
   (CodeValidationFailed, "Validation Failed"), (CodeInternalError, "Internal Server Error"),
   (CodeServiceUnavailable, "Service Unavailable"),
   (CodeUserNotFound, "User not found"), (CodeUserExists, "User already exists"),
   (CodeInvalidPassword, "Invalid password"), (CodeUserDisabled, "User is disabled"),
   (CodePermissionDenied, "Permission denied"), (CodeTokenExpired, "Token expired"),
   (CodeTokenInvalid, "Token invalid")]

/-- Go `response.getHTTPStatus`: the cases of the `switch` are tried in order. -/
def getHTTPStatus (code : Int) : Int :=
  if code = CodeSuccess then 200
  else if code ≥ 400 ∧ code < 500 then 400
  else if code ≥ 40001 ∧ code < 40100 then
    if code = CodeUnauthorized ∨ code = CodeTokenExpired ∨ code = CodeTokenInvalid then 401
    else if code = CodeForbidden ∨ code = CodePermissionDenied then 403
    else if code = CodeNotFound ∨ code = CodeUserNotFound then 404
    else if code = CodeConflict ∨ code = CodeUserExists then 409
    else if code = CodeValidationFailed then 422
    else 400
  else if code ≥ 500 then 500
  else 500

/-- Go `response.getErrorMessage`. -/
def getErrorMessage (code : Int) : String :=
  match errorMessages.lookup code with
  | some msg => msg
  | none => "Unknown error"

/-- Go `response.Error`; the variadic `message` is a list. -/
def response.Error (code : Int) (message : List String) : HTTPResponse :=
  let httpStatus := getHTTPStatus code
  let msg := getErrorMessage code
  let msg := if message.length > 0 ∧ message.head? ≠ some "" then message.headD msg else msg
  { Status := httpStatus, Body := { Code := code, Msg := msg, Data := none } }

/-- Go `response.Success`. -/
def response.Success (data : Option String) : HTTPResponse :=
  { Status := 200, Body := { Code := CodeSuccess, Msg := "Success", Data := data } }

/-- Go `response.ValidationFailed`. -/
def response.ValidationFailed (message : List String) : HTTPResponse :=
  response.Error CodeValidationFailed message

/-- Go `response.InternalError`. -/
def response.InternalError (message : List String) : HTTPResponse :=
  response.Error CodeInternalError message

/-! ## `handler/setting.go` -/

/-- The request that `MonitorHeart` hands to the service, or the response it sends
instead.  The query parameters `t`, `sign`, `appid` are read first; when `t` or
`sign` is empty gin's `c.ShouldBind(&req)` fills the request from the form (its
result, or the text of its error, is `ShouldBind req`); `t` and `sign` are required. -/
def SettingHandler.heartRequest (queryT querySign queryAppid : String)
    (ShouldBind : MonitorHeartRequest → Except String MonitorHeartRequest) :
    Except HTTPResponse MonitorHeartRequest :=
  let req : MonitorHeartRequest := { T := queryT, Sign := querySign, AppID := queryAppid }
  let bound : Except String MonitorHeartRequest :=
    if req.T = "" ∨ req.Sign = "" then ShouldBind req else Except.ok req
  match bound with
  | Except.error err => Except.error (response.ValidationFailed [err])
  | Except.ok req =>
    if req.T = "" ∨ req.Sign = "" then
      Except.error (response.ValidationFailed ["Missing required parameters: t and sign"])
    else Except.ok req

/-- Go `SettingHandler.MonitorHeart`: the response sent, and the store. -/
def SettingHandler.MonitorHeart (queryT querySign queryAppid : String)
    (ShouldBind : MonitorHeartRequest → Except String MonitorHeartRequest)
    (s : Store) (now : Time) : HTTPResponse × Store :=
  match SettingHandler.heartRequest queryT querySign queryAppid ShouldBind with
  | Except.error resp => (resp, s)
  | Except.ok req =>
    let r := settingService.ProcessMonitorHeart s req now
    match r.1 with
    | some err =>
      if err = Err.invalidSign then (response.Error CodeUnauthorized ["Invalid signature"], r.2)
      else (response.InternalError ["Failed to process monitor heart"], r.2)
    | none => (response.Success none, r.2)

/-- Go `SettingHandler.MonitorPush`: the response sent, and the store; `ShouldBind` is
the result of gin's `c.ShouldBind(&req)`, or the text of its error. -/
def SettingHandler.MonitorPush (ParseFloat : String → Option Float64)
    (ShouldBind : Except String MonitorPushRequest)
    (s : Store) (payNow saveNow markNow : Time) : HTTPResponse × Store :=
  match ShouldBind with
  | Except.error err => (response.ValidationFailed [err], s)
  | Except.ok req =>
    let r := settingService.ProcessMonitorPush ParseFloat s req payNow saveNow markNow
    match r.1 with
    | some err =>
      if err = Err.invalidSign then (response.Error CodeUnauthorized ["Invalid signature"], r.2)
      else (response.InternalError ["Failed to process monitor push"], r.2)
    | none => (response.Success none, r.2)

/-! ## Scenario data -/

/-- Order O1 of the scenarios: kind 1, requested 1.00, payable 1.01, pending,
created at `T0 = 1700000000` for account 1. -/
def orderO1 : Order :=
  { Id := 1, User_id := 1, Order_id := "O1", Type_ := 1,
    Price := Float64.finite 1, Really_price := Float64.finite (mkRat 101 100),
    State := OrderStatusPending, Notify_url := "", Return_url := "", Pay_id := "P1",
    Pay_url := "", Param := "", Is_auto := 0,
    Create_date := 1700000000, Pay_date := 0, Close_date := 0 }

/-- A store with the bootstrap account 1 (secret `abc`), a second account 2
(secret `k2`) mapped from the enabled appid `shopA`, a disabled mapping `shopB`,
and the pending order O1 holding its amount lock. -/
def scenarioStore : Store :=
  { settings :=
      [⟨1, "key", "abc"⟩, ⟨1, "lastheart", ""⟩, ⟨1, "lastpay", ""⟩, ⟨1, "jkstate", "0"⟩,
       ⟨2, "key", "k2"⟩, ⟨2, "lastheart", ""⟩, ⟨2, "lastpay", ""⟩, ⟨2, "jkstate", "0"⟩],
    merchants := [⟨"shopA", 2, 1⟩, ⟨"shopB", 3, 0⟩],
    orders := [orderO1],
    tmpPrices := [⟨"1-1.01", "O1"⟩] }

/-- Pending order A of account 1, kind 1: payable 1.01, created at 100. -/
def orderA : Order := { orderO1 with Id := 1, Order_id := "A", Create_date := 100 }

/-- Pending order B of account 1, kind 1: payable 1.01, created at 200. -/
def orderB : Order := { orderO1 with Id := 2, Order_id := "B", Create_date := 200 }

/-- Pending order C of account 1, kind 1: requested 1.01, payable 1.05, created at 300. -/
def orderC : Order :=
  { orderO1 with
      Id := 3, Order_id := "C", Create_date := 300,
      Price := Float64.finite (mkRat 101 100), Really_price := Float64.finite (mkRat 105 100) }

/-- Paid order D of account 1, kind 1: payable 1.01, created at 400, paid at 450. -/
def orderD : Order :=
  { orderO1 with
      Id := 4, Order_id := "D", Create_date := 400,
      State := OrderStatusPaid, Pay_date := 450 }

/-- The order table of the priority scenario. -/
def priorityOrders : List Order := [orderA, orderB, orderC, orderD]

/-- The scenario store with `priorityOrders` as its order table. -/
def priorityStore : Store := { scenarioStore with orders := priorityOrders }

/-- Scenario A: the push `type = 1, price = 1.01, t = 1700000120` for the bootstrap
account, signed with the digest of `11.011700000120abc`. -/
def pushA : MonitorPushRequest :=
  { T := "1700000120", Sign := "43f5cd1949e6a3a09f22256fd5b9e9e6", AppID := "",
    Type_ := "1", Price := "1.01" }

/-- The instant `T0 + 2m`, `T0 = 1700000000`. -/
def timeA : Time := ⟨1700000120000000000⟩

/-- The instant `T0 + 5m30s` at which the expiry sweep of Scenario B runs. -/
def timeB : Time := ⟨1700000330000000000⟩

/-- Scenario B: the scenario store after the sweep at `T0 + 5m30s`. -/
def sweptStore : Store :=
  (orderRepository.CloseExpiredOrders scenarioStore none 100 timeB timeB).2.2

/-- The instant `T0 + 6m`. -/
def timeB6 : Time := ⟨1700000360000000000⟩

/-- Scenario B: the push `type = 1, price = 1.01, t = 1700000360` for the bootstrap
account, signed with the digest of `11.011700000360abc`. -/
def pushB : MonitorPushRequest :=
  { T := "1700000360", Sign := "9a6a4a137b13ce1a137ab2b05a03b969", AppID := "",
    Type_ := "1", Price := "1.01" }

/-- A push whose price is not a number, `type = 1, price = abc, t = 1700000360`,
signed for the bootstrap account with the digest of `1abc1700000360abc`. -/
def pushBadPrice : MonitorPushRequest :=
  { T := "1700000360", Sign := "529edb076d02f61767d12569564af131", AppID := "",
    Type_ := "1", Price := "abc" }

/-- The push of Scenario B with the type `x`, signed for the bootstrap account. -/
def pushBadType : MonitorPushRequest :=
  { T := "1700000360", Sign := md5hex ("x" ++ "1.01" ++ "1700000360" ++ "abc"), AppID := "",
    Type_ := "x", Price := "1.01" }

/-- Scenario C: the heartbeat `t = 1700000000` for the bootstrap account, signed
with the digest of `1700000000abc`. -/
def heartC : MonitorHeartRequest :=
  { T := "1700000000", Sign := "cd914fd8d6df064f1d57d60df13e34f3", AppID := "" }

/-- The instant `T0 + 1s`. -/
def timeY : Time := ⟨1700000001000000000⟩

/-- A backlog: the order table of the priority scenario (A, B, C pending and
created long ago, D paid) with the locks of A, B and C and of an order X that is not
in the table. -/
def backlogStore : Store :=
  { scenarioStore with
      orders := priorityOrders,
      tmpPrices := [⟨"1-1.03", "A"⟩, ⟨"1-1.01", "B"⟩, ⟨"1-1.05", "C"⟩, ⟨"1-1.02", "X"⟩] }

/-- A store with two monitored accounts, both marked online: account 1 with its last
heartbeat at `T0 + 2m`, account 2 with its last heartbeat at `T0`. -/
def onlineStore : Store :=
  { scenarioStore with
      settings :=
        [⟨1, "key", "abc"⟩, ⟨1, "lastheart", "1700000120"⟩, ⟨1, "lastpay", ""⟩,
         ⟨1, "jkstate", "1"⟩,
         ⟨2, "key", "k2"⟩, ⟨2, "lastheart", "1700000000"⟩, ⟨2, "lastpay", ""⟩,
         ⟨2, "jkstate", "1"⟩] }

/-- The instant `T0 + 3m20s` of a liveness sweep. -/
def timeS : Time := ⟨1700000200000000000⟩

/-- What a run of engine operations may have done to one order row: nothing, or,
the row being pending, the move to paid with a non-zero `pay_date`, or the move to
closed with a non-zero `close_date`. -/
def Order.lifecycleMove (o o' : Order) : Prop :=
  o' = o ∨
  (o.State = OrderStatusPending ∧
    ((∃ t : Int, t ≠ 0 ∧ o' = { o with State := OrderStatusPaid, Pay_date := t }) ∨
     (∃ t : Int, t ≠ 0 ∧ o' = { o with State := OrderStatusClosed, Close_date := t })))

/-- A run on the backlog: the push of Scenario A at `T0 + 2m`, a reclaim batch of at
most one order at `T0 + 5m30s`, and the push of Scenario B at `T0 + 6m`. -/
def lifecycleOps : List EngineOp :=
  [EngineOp.push pushA timeA timeA timeA,
   EngineOp.reclaim none 1 5 timeB timeB,
   EngineOp.push pushB timeB6 timeB6 timeB6]

/-- The push of Scenario A with its signature replaced by `bad`. -/
def pushBadSign : MonitorPushRequest := { pushA with Sign := "bad" }

/-! ## The sweep over a repository whose statements can fail -/

/-- The methods of the interface `repository.SettingRepository` that
`CheckAndUpdateMonitorStatus` calls through the field `settingRepo`. -/
structure SettingRepository where
  GetAllSettingsByKey : Store → String → Except Err (List Setting)
  UpdateSetting : Store → Nat → String → String → Option Err × Store

/-- Go `NewSettingRepository`: the implementation `settingRepository`. -/
def NewSettingRepository : SettingRepository :=
  { GetAllSettingsByKey := settingRepository.GetAllSettingsByKey,
    UpdateSetting := settingRepository.UpdateSetting }

/-- The implementation `settingRepository` on a database whose statements can fail:
the listing returns `listErr` when there is one; an `UPDATE` for which `fails`
holds returns `writeErr` and changes no row. -/
def failingSettingRepository (listErr : Option Err)
    (fails : Store → Nat → String → String → Bool) (writeErr : Err) : SettingRepository :=
  { GetAllSettingsByKey := fun s key =>
      match listErr with
      | some err => Except.error err
      | none => settingRepository.GetAllSettingsByKey s key,
    UpdateSetting := fun s userID key value =>
      if fails s userID key value then (some writeErr, s)
      else settingRepository.UpdateSetting s userID key value }

/-- The loop body of `CheckAndUpdateMonitorStatus` over the repository `repo`; the
result of `UpdateSetting` is not looked at. -/
def settingService.checkMonitorRowOn (repo : SettingRepository) (currentTime : Int)
    (s : Store) (setting : Setting) : Store :=
  let userID := setting.User_id
  let lastHeartStr := setting.Vvalue
  if lastHeartStr = "" then
    (repo.UpdateSetting s userID "jkstate" "0").2
  else
    match ParseInt lastHeartStr with
    | none => (repo.UpdateSetting s userID "jkstate" "0").2
    | some heartTime =>
      if heartTime ≤ 0 then
        (repo.UpdateSetting s userID "jkstate" "0").2
      else if wrapInt64 (currentTime - heartTime) ≥ heartbeatTimeout then
        (repo.UpdateSetting s userID "jkstate" "0").2
      else s

/-- Go `settingService.CheckAndUpdateMonitorStatus` over the repository `repo`. -/
def settingService.CheckAndUpdateMonitorStatusOn (repo : SettingRepository) (s : Store)
    (now : Time) : Option Err × Store :=
  let currentTime := now.Unix
  match repo.GetAllSettingsByKey s "lastheart" with
  | Except.error err => (some err, s)
  | Except.ok settings =>
    (none, settings.foldl (settingService.checkMonitorRowOn repo currentTime) s)

/-- The account-2 `jkstate` write fails. -/
def failsForAccount2 : Store → Nat → String → String → Bool :=
  fun _ userID _ _ => decide (userID = 2)

/-- A store in which both accounts have stale heartbeats (`T0` and `T0 + 10s`) and
read `jkstate = 1`; the rows of account 2 come first. -/
def staleStore : Store :=
  { scenarioStore with settings :=
      [⟨2, "lastheart", "1700000000"⟩, ⟨2, "jkstate", "1"⟩,
       ⟨1, "lastheart", "1700000010"⟩, ⟨1, "jkstate", "1"⟩] }

/-! ## `repository/order.go`: the read of the expired orders -/

/-- The order of `ORDER BY create_date ASC`. -/
def Order.createdNoLater (a b : Order) : Prop := a.Create_date ≤ b.Create_date

instance Order.createdNoLater.decidableRel : DecidableRel Order.createdNoLater :=
  fun a b => inferInstanceAs (Decidable (a.Create_date ≤ b.Create_date))

instance Order.createdNoLater.isTotal : IsTotal Order Order.createdNoLater :=
  ⟨fun a b => le_total a.Create_date b.Create_date⟩

instance Order.createdNoLater.isTrans : IsTrans Order Order.createdNoLater :=
  ⟨fun _ _ _ hab hbc => le_trans hab hbc⟩

/-- Go `orderRepository.GetExpiredOrdersWithMinutes`: the rows that are pending,
created before the cut-off and of the given user when one is given, by ascending
`create_date` (rows of equal `create_date` in table order), the first `limit` of
them when `limit > 0`.  The call issues one `SELECT`: the store it leaves, the last
component, is the one it read. -/
def orderRepository.GetExpiredOrdersWithMinutes (s : Store) (userID : Option Nat)
    (limit : Int) (expireMinutes : Int) (now : Time) : List Order × Option Err × Store :=
  -- 计算过期时间点
  let expireTime := orderRepository.expireTime now expireMinutes
  let rows := (s.orders.filter (orderRepository.expiredCond expireTime userID)).insertionSort
    Order.createdNoLater
  let orders := if limit > 0 then rows.take limit.toNat else rows
  (orders, none, s)

/-- Go `orderRepository.GetExpiredOrders`: the 30-minute default. -/
def orderRepository.GetExpiredOrders (s : Store) (userID : Option Nat) (limit : Int)
    (now : Time) : List Order × Option Err × Store :=
  orderRepository.GetExpiredOrdersWithMinutes s userID limit 30 now

/-- The instant `T0 + 40m`, when the orders created at `T0` are older than 30 minutes. -/
def timeR : Time := ⟨1700002400000000000⟩

/-- A table of three pending orders of account 1, created at `T0 + 60s`, `T0` and
`T0 + 30s`, and one created at `T0 + 20m`. -/
def reportStore : Store :=
  { scenarioStore with orders :=
      [{ orderO1 with Id := 1, Order_id := "R1", Create_date := 1700000060 },
       { orderO1 with Id := 2, Order_id := "R2", Create_date := 1700000000 },
       { orderO1 with Id := 3, Order_id := "R3", Create_date := 1700000030 },
       { orderO1 with Id := 4, Order_id := "R4", Create_date := 1700001200 }] }

/-! ## `scheduler/scheduler.go`: `Start`, `Stop` and the two loops -/

/-- The task of a loop: `closeExpiredOrders` for `startCloseExpiredOrdersTask`,
`checkMonitorStatus` for `startMonitorStatusCheckTask`. -/
inductive LoopTask where
  | closeExpiredOrders
  | checkMonitorStatus
deriving DecidableEq, Repr

/-- Where a loop goroutine stands in its body: before the run of its task that
precedes the `for` (立即执行一次), blocked in the `select`, or returned. -/
inductive LoopPc where
  | immediate
  | select
  | returned
deriving DecidableEq, Repr

/-- A goroutine started by `go s.startCloseExpiredOrdersTask()` or
`go s.startMonitorStatusCheckTask()`. -/
structure Loop where
  task : LoopTask
  pc : LoopPc
deriving DecidableEq, Repr

/-- What a loop goroutine is given when it moves: nothing (it is scheduled), a tick
of its ticker (`<-ticker.C`), or the value sent on `stopChan` (`<-s.stopChan`). -/
inductive LoopInput where
  | run
  | tick
  | stop
deriving DecidableEq, Repr

/-- One move of the body shared by `startCloseExpiredOrdersTask` and
`startMonitorStatusCheckTask`: the loop after the move and the task runs of the
move; `none` when the goroutine cannot make the move where it stands.  Before its
`select` the goroutine receives nothing: it runs its task and reaches the `select`.
In the `select` a tick runs the task again, the stop value makes it return. -/
def Loop.step (l : Loop) (input : LoopInput) : Option (Loop × List LoopTask) :=
  match l.pc, input with
  | LoopPc.immediate, LoopInput.run => some ({ l with pc := LoopPc.select }, [l.task])
  | LoopPc.select, LoopInput.tick => some (l, [l.task])
  | LoopPc.select, LoopInput.stop => some ({ l with pc := LoopPc.returned }, [])
  | _, _ => none

/-- The struct `Scheduler` with the goroutines it has started.  `running` is the
field of the source; `stopChan` is made by `make(chan bool)` and so holds no value:
a send on it is a hand-over to one goroutine that receives; `loops` are the
goroutines started so far, in the order of their `go` statements; `log` lists the
task runs so far. -/
structure Scheduler where
  running : Bool
  loops : List Loop
  log : List LoopTask
deriving DecidableEq, Repr

/-- Go `NewScheduler`. -/
def NewScheduler : Scheduler := { running := false, loops := [], log := [] }

/-- Go `Scheduler.Start`. -/
def Scheduler.Start (s : Scheduler) : Scheduler :=
  if s.running then s
  else
    { s with
        running := true,
        loops := s.loops ++
          [{ task := LoopTask.closeExpiredOrders, pc := LoopPc.immediate },
           { task := LoopTask.checkMonitorStatus, pc := LoopPc.immediate }] }

/-- The goroutine `i` makes a move; `none` when there is no such goroutine or it
cannot make the move. -/
def Scheduler.loopStep (s : Scheduler) (i : Nat) (input : LoopInput) : Option Scheduler :=
  match s.loops[i]? with
  | none => none
  | some l =>
    match l.step input with
    | none => none
    | some r => some { s with loops := s.loops.set i r.1, log := s.log ++ r.2 }

/-- Go `Scheduler.Stop`.  The statement `s.stopChan <- true` sends one value on the
unbuffered channel: it completes when one goroutine receives the value, and
`receiver` is that goroutine; `none` while the send is blocked, the goroutine
`receiver` not being in its `select`. -/
def Scheduler.Stop (s : Scheduler) (receiver : Nat) : Option Scheduler :=
  if !s.running then some s
  else Scheduler.loopStep { s with running := false } receiver LoopInput.stop

/-- The loops that have not returned. -/
def Scheduler.liveLoops (s : Scheduler) : List Loop :=
  s.loops.filter (fun l => decide (l.pc ≠ LoopPc.returned))

/-- The scheduler after `Start`, when both loops have run their task once and wait
in their `select`. -/
def startedScheduler : Scheduler :=
  { running := true,
    loops := [{ task := LoopTask.closeExpiredOrders, pc := LoopPc.select },
              { task := LoopTask.checkMonitorStatus, pc := LoopPc.select }],
    log := [LoopTask.closeExpiredOrders, LoopTask.checkMonitorStatus] }

/-- A store in which the bootstrap account has its secret `abc` and no other
setting row. -/
def keyOnlyStore : Store := { scenarioStore with settings := [⟨1, "key", "abc"⟩] }

/-! ## `model/user.go`: the registration request -/

/-- The functions of the Go packages `unicode` and `strings` whose result is read
from the Unicode tables of the Go library: `unicode.IsLetter`, `unicode.IsDigit`
and `strings.ToLower`. -/
structure GoUnicode where
  IsLetter : Char → Bool
  IsDigit : Char → Bool
  ToLower : String → String

/-- The functions of `GoUnicode` on ASCII text, where the tables of the Go library
agree with them; it instantiates the argument when a scenario is run. -/
def asciiUnicode : GoUnicode :=
  { IsLetter := Char.isAlpha, IsDigit := Char.isDigit, ToLower := fun s => String.mk (s.data.map Char.toLower) }

/-- Go `unicode.IsSpace`: the white space of Latin-1 and the code points with the
property `White_Space`. -/
def isSpace (c : Char) : Bool :=
  decide (c.toNat ∈ [0x09, 0x0A, 0x0B, 0x0C, 0x0D, 0x20, 0x85, 0xA0, 0x1680, 0x2028, 0x2029,
    0x202F, 0x205F, 0x3000]) || decide (0x2000 ≤ c.toNat ∧ c.toNat ≤ 0x200A)

/-- Go `strings.TrimSpace`. -/
def TrimSpace (s : String) : String :=
  String.mk ((s.data.dropWhile isSpace).rdropWhile isSpace)

/-- Go `len` of a string: the number of bytes of its UTF-8 encoding. -/
def len (s : String) : Nat := (utf8Bytes s).length

/-- Request type `model.RegisterRequest`. -/
structure RegisterRequest where
  Username : String
  Email : String
  Password : String
  ConfirmPassword : String
deriving DecidableEq, Repr

/-- A character of the class `[a-zA-Z0-9_]`. -/
def isUsernameChar (c : Char) : Bool := c.isAlphanum || c == '_'

/-- The match of `^[a-zA-Z0-9_]+$` (`regexp.MatchString`): a non-empty string of
characters of the class. -/
def matchUsername (s : String) : Bool := !s.data.isEmpty && s.data.all isUsernameChar

/-- The list `forbiddenNames` of `validateUsername`. -/
def forbiddenNames : List String :=
  ["admin", "root", "system", "test", "guest", "user", "null", "undefined"]

/-- Go `RegisterRequest.validateUsername`; the result is the text of the error. -/
def RegisterRequest.validateUsername (U : GoUnicode) (r : RegisterRequest) : Option String :=
  let username := TrimSpace r.Username
  -- 检查长度
  if len username < 3 ∨ len username > 50 then some "用户名长度必须在3-50个字符之间"
  -- 检查字符规则：只允许字母、数字、下划线
  else if !matchUsername username then some "用户名只能包含字母、数字和下划线"
  -- 不能以数字开头
  else if U.IsDigit (Char.ofNat ((utf8Bytes username).headD 0)) then some "用户名不能以数字开头"
  -- 禁止的用户名
  else if forbiddenNames.any (fun forbidden => U.ToLower username == forbidden) then
    some "该用户名不可用"
  else none

/-- The list `weakPasswords` of `validatePassword`. -/
def weakPasswords : List String :=
  ["123456", "password", "123456789", "12345678", "qwerty", "abc123"]

/-- Go `RegisterRequest.validatePassword`. -/
def RegisterRequest.validatePassword (U : GoUnicode) (r : RegisterRequest) : Option String :=
  let password := r.Password
  if len password < 6 ∨ len password > 50 then some "密码长度必须在6-50个字符之间"
  else
    let hasLetter := password.data.any U.IsLetter
    let hasDigit := password.data.any U.IsDigit
    if !hasLetter ∨ !hasDigit then some "密码必须包含至少一个字母和一个数字"
    else if weakPasswords.any (fun weak => U.ToLower password == weak) then
      some "密码过于简单，请使用更强的密码"
    else none

/-- The match of `^[a-zA-Z0-9._%+-]+@[a-zA-Z0-9.-]+\.[a-zA-Z]{2,}$`: the text before
the first `@` is a non-empty string of `[a-zA-Z0-9._%+-]`; the text after it ends
in a dot followed by two or more letters, and what stands before that dot is a
non-empty string of `[a-zA-Z0-9.-]`. -/
def matchEmail (s : String) : Bool :=
  let name := s.data.takeWhile (fun c => c ≠ '@')
  let rest := (s.data.dropWhile (fun c => c ≠ '@')).drop 1
  let tld := rest.rtakeWhile (fun c => c ≠ '.')
  let host := (rest.rdropWhile (fun c => c ≠ '.')).dropLast
  s.data.contains '@' && !name.isEmpty &&
  name.all (fun c => c.isAlphanum || decide (c ∈ ['.', '_', '%', '+', '-'])) &&
  rest.contains '.' && !host.isEmpty &&
  host.all (fun c => c.isAlphanum || decide (c ∈ ['.', '-'])) &&
  decide (2 ≤ tld.length) && tld.all Char.isAlpha

/-- The list `tempDomains` of `validateEmail`. -/
def tempDomains : List String := ["10minutemail.com", "tempmail.org", "guerrillamail.com"]

/-- Go `RegisterRequest.validateEmail`. -/
def RegisterRequest.validateEmail (U : GoUnicode) (r : RegisterRequest) : Option String :=
  let email := TrimSpace r.Email
  if !matchEmail email then some "邮箱格式不正确"
  else if len email > 100 then some "邮箱地址过长"
  else if tempDomains.any (fun domain =>
      ("@" ++ domain).data.isSuffixOf (U.ToLower email).data) then
    some "不允许使用临时邮箱"
  else none

/-- Go `RegisterRequest.Validate`. -/
def RegisterRequest.Validate (U : GoUnicode) (r : RegisterRequest) : Option String :=
  -- 密码确认验证
  if r.Password ≠ r.ConfirmPassword then some "密码和确认密码不匹配"
  else
    match r.validateUsername U with
    | some err => some err
    | none =>
      match r.validatePassword U with
      | some err => some err
      | none => r.validateEmail U

/-- A registration whose user name ends in a blank. -/
def registerAlice : RegisterRequest :=
  { Username := "alice ", Email := "alice@example.com", Password := "passw0rd1",
    ConfirmPassword := "passw0rd1" }

/-! ## `service/auth.go`: registration -/

/-- The row type `model.User`, without its login and audit timestamps. -/
structure User where
  Id : Nat
  Username : String
  Email : String
  Password : String
  Role : String
  Status : Int
deriving DecidableEq, Repr

/-- Constant `model.RoleAdmin`. -/
def RoleAdmin : String := "admin"

/-- Constant `model.RoleSuperAdmin`. -/
def RoleSuperAdmin : String := "super_admin"

/-- Constant `model.StatusEnabled`. -/
def StatusEnabled : Int := 1

/-- Configuration type `model.RegisterConfig`. -/
structure RegisterConfig where
  Enabled : Bool
  DefaultRole : String
  RequireApproval : Bool
  RateLimit : Int
deriving DecidableEq, Repr

/-- The Go `error` values of the registration: an error of a repository, or
`errors.New(text)`. -/
inductive AuthError where
  | repository (err : Err)
  | message (text : String)
deriving DecidableEq, Repr

/-- The methods of the interface `repository.UserRepository` that `Register` calls.
The interface and its implementation are not among the sources: the methods are
taken as they answer on the user table at the time of the call, `Create` returning
the row as stored. -/
structure UserRepository where
  ExistsByUsername : String → Except Err Bool
  ExistsByEmail : String → Except Err Bool
  Create : User → Except Err User

/-- Go `settingRepository.GetSettingsMap`: the rows of the account are put into a
map in turn, so a later row of a key replaces an earlier one. -/
def settingRepository.GetSettingsMap (s : Store) (userID : Nat) :
    Except Err (String → Option String) :=
  Except.ok (fun key =>
    ((s.settings.filter (fun r => decide (r.User_id = userID ∧ r.Vkey = key))).getLast?).map
      Setting.Vvalue)

/-- Go `isValidRole`. -/
def isValidRole (role : String) : Bool := role == RoleAdmin || role == RoleSuperAdmin

/-- Go `authService.getRegisterConfig`; a key that is not in the map reads as `""`. -/
def authService.getRegisterConfig (s : Store) : Except Err RegisterConfig :=
  -- 获取配置（使用用户ID=1作为全局配置）
  match settingRepository.GetSettingsMap s 1 with
  | Except.error err => Except.error err
  | Except.ok settingsMap =>
    let defaultRole := (settingsMap "register_default_role").getD ""
    -- 解析频率限制
    let rateLimit : Int :=
      match settingsMap "register_rate_limit" with
      | some rateLimitStr =>
        match Atoi rateLimitStr with
        | some rateLimit => rateLimit
        | none => 10
      | none => 10
    -- 设置默认值
    let defaultRole := if defaultRole = "" then RoleAdmin else defaultRole
    -- 验证默认角色是否有效
    let defaultRole := if !isValidRole defaultRole then RoleAdmin else defaultRole
    Except.ok
      { Enabled := (settingsMap "register_enabled").getD "" == "1",
        DefaultRole := defaultRole,
        RequireApproval := (settingsMap "register_require_approval").getD "" == "1",
        RateLimit := rateLimit }

/-- The struct `rateLimitEntry`. -/
structure rateLimitEntry where
  count : Int
  resetTime : Time
deriving DecidableEq, Repr

/-- The type of the variable `rateLimitMap`, a Go map from the client IP; the
mutex `rateLimitMux` makes the calls of `checkRateLimit` take turns. -/
abbrev RateLimitMap : Type := String → Option rateLimitEntry

/-- Go `time.Hour` as a `time.Duration` (nanoseconds). -/
def Hour : Int := 3600000000000

/-- Go `Time.After`. -/
def Time.After (t u : Time) : Bool := decide (t.nanos > u.nanos)

/-- The map `m` with the entry of `key` set. -/
def RateLimitMap.set (m : RateLimitMap) (key : String) (entry : rateLimitEntry) : RateLimitMap :=
  fun k => if k = key then some entry else m k

/-- The text of the error of `checkRateLimit`. -/
def rateLimitMessage : String := "注册频率过高，请稍后再试"

/-- Go `authService.checkRateLimit`: the error, and the map it leaves; `now` is the
clock reading of the call. -/
def authService.checkRateLimit (rateLimitMap : RateLimitMap) (clientIP : String) (limit : Int)
    (now : Time) : Option AuthError × RateLimitMap :=
  match rateLimitMap clientIP with
  | none =>
    -- 首次注册
    (none, rateLimitMap.set clientIP { count := 1, resetTime := now.Add Hour })
  | some entry =>
    -- 检查是否需要重置计数器
    if now.After entry.resetTime then
      (none, rateLimitMap.set clientIP { count := 1, resetTime := now.Add Hour })
    -- 检查是否超过限制
    else if entry.count ≥ limit then
      (some (AuthError.message rateLimitMessage), rateLimitMap)
    -- 增加计数
    else (none, rateLimitMap.set clientIP { entry with count := entry.count + 1 })

/-- Go `authService.Register` up to the row it stores: the result of
`userRepo.Create`, or the error, and the rate-limit map.  The default settings that
`createUserSettings` writes afterwards are not part of this function: the call
always returns nil and does not touch the user row. -/
def authService.Register (U : GoUnicode) (userRepo : UserRepository) (s : Store)
    (rateLimitMap : RateLimitMap) (req : RegisterRequest) (clientIP : String) (now : Time) :
    Except AuthError User × RateLimitMap :=
  -- 获取注册配置
  match authService.getRegisterConfig s with
  | Except.error err => (Except.error (AuthError.repository err), rateLimitMap)
  | Except.ok config =>
    -- 检查是否开放注册
    if !config.Enabled then (Except.error (AuthError.message "用户注册功能已关闭"), rateLimitMap)
    else
      -- 检查注册频率限制
      let limited := authService.checkRateLimit rateLimitMap clientIP config.RateLimit now
      match limited.1 with
      | some err => (Except.error err, limited.2)
      | none =>
        -- 验证请求数据
        match req.Validate U with
        | some err => (Except.error (AuthError.message err), limited.2)
        | none =>
          -- 检查用户名是否已存在
          match userRepo.ExistsByUsername req.Username with
          | Except.error err => (Except.error (AuthError.repository err), limited.2)
          | Except.ok true => (Except.error (AuthError.message "用户名已存在"), limited.2)
          | Except.ok false =>
            -- 检查邮箱是否已存在
            match userRepo.ExistsByEmail req.Email with
            | Except.error err => (Except.error (AuthError.repository err), limited.2)
            | Except.ok true => (Except.error (AuthError.message "邮箱已存在"), limited.2)
            | Except.ok false =>
              -- 创建用户对象
              let user : User :=
                { Id := 0, Username := req.Username, Email := req.Email,
                  Password := req.Password, Role := config.DefaultRole,
                  Status := StatusEnabled }
              -- 保存用户
              match userRepo.Create user with
              | Except.error err => (Except.error (AuthError.repository err), limited.2)
              | Except.ok user => (Except.ok user, limited.2)

/-- The outcomes of successive calls of `checkRateLimit` with one limit, each call
with its client IP and clock reading, and the map they leave. -/
def authService.checkRateLimitCalls (limit : Int) :
    RateLimitMap → List (String × Time) → List (Option AuthError) × RateLimitMap
  | m, [] => ([], m)
  | m, call :: calls =>
    let r := authService.checkRateLimit m call.1 limit call.2
    let rest := authService.checkRateLimitCalls limit r.2 calls
    (r.1 :: rest.1, rest.2)

/-- Of the outcomes of successive calls, those of the calls of `clientIP`: `true`
for a call that returned nil. -/
def authService.successesOf (clientIP : String) (calls : List (String × Time))
    (outcomes : List (Option AuthError)) : List Bool :=
  ((calls.zip outcomes).filter (fun p => decide (p.1.1 = clientIP))).map (fun p => p.2.isNone)

/-- A user table without the name and the address of the request: `Create` stores
the row as it is given, under the id 2. -/
def emptyUserRepository : UserRepository :=
  { ExistsByUsername := fun _ => Except.ok false,
    ExistsByEmail := fun _ => Except.ok false,
    Create := fun user => Except.ok { user with Id := 2 } }

/-- The scenario store with registration open and the rate limit set to 0. -/
def registerStore : Store :=
  { scenarioStore with settings := scenarioStore.settings ++
      [⟨1, "register_enabled", "1"⟩, ⟨1, "register_rate_limit", "0"⟩] }

/-- The empty rate-limit map. -/
def noRateLimitEntries : RateLimitMap := fun _ => none

/-- Three calls of one client within a minute, with calls of another client in
between. -/
def burstCalls : List (String × Time) :=
  [("203.0.113.7", timeA), ("198.51.100.2", timeA), ("203.0.113.7", timeB),
   ("203.0.113.7", timeB6)]

/-! ## The reclaim when the table changes between its select and its update -/

/-- Go `orderRepository.CloseExpiredOrdersWithMinutes` when the tables change between
its select and its batch update: the select (`query.Find(&ordersToClose)`) reads the
store `s`, the update and the delete run on the store `sWrite`. -/
def orderRepository.CloseExpiredOrdersWithMinutesBetween (s sWrite : Store)
    (userID : Option Nat) (limit : Int) (expireMinutes : Int) (now closeNow : Time) :
    Int × Option Err × Store :=
  -- 计算过期时间点
  let expireTime := orderRepository.expireTime now expireMinutes
  let closeDate := closeNow.Unix
  -- 先获取要关闭的订单列表
  let ordersToClose := orderRepository.findOrdersToClose s expireTime userID limit
  if ordersToClose.length = 0 then (0, none, sWrite)
  else
    -- 批量更新订单状态
    let updateResult := orderRepository.closeUpdate sWrite.orders expireTime userID limit
      ordersToClose closeDate
    -- 清理tmp_price表中对应的记录
    let tmpPrices :=
      if updateResult.1 > 0 then
        sWrite.tmpPrices.filter (fun t => !decide (t.Oid ∈ ordersToClose.map Order.Order_id))
      else sWrite.tmpPrices
    (updateResult.1, none, { sWrite with orders := updateResult.2, tmpPrices := tmpPrices })

/-- The backlog after the push of Scenario A has paid order B at `T0 + 2m`. -/
def backlogPaidStore : Store :=
  { backlogStore with
      settings :=
        [⟨1, "key", "abc"⟩, ⟨1, "lastheart", ""⟩, ⟨1, "lastpay", "1700000120"⟩,
         ⟨1, "jkstate", "0"⟩,
         ⟨2, "key", "k2"⟩, ⟨2, "lastheart", ""⟩, ⟨2, "lastpay", ""⟩, ⟨2, "jkstate", "0"⟩],
      orders := [orderA, { orderB with State := OrderStatusPaid, Pay_date := 1700000120 },
                 orderC, orderD] }

/-- The push of Scenario A with the boundary between `type` and `price` moved:
`type = 11`, `price = .01`, the other fields and the signature as they were. -/
def pushShifted : MonitorPushRequest := { pushA with Type_ := "11", Price := ".01" }

/-- Go `settingService.calculateMonitorStatus`: 0 unknown, 1 normal, 2 abnormal;
`now` is the clock reading of the call, and the difference `currentTime-heartTime`
is an `int64` subtraction. -/
def settingService.calculateMonitorStatus (lastHeartStr : String) (now : Time) : Int :=
  if lastHeartStr = "" then 0 -- 未知状态
  else
    match ParseInt lastHeartStr with
    | none => 0 -- 未知状态
    | some heartTime =>
      if heartTime ≤ 0 then 0
      else
        let currentTime := now.Unix
        if wrapInt64 (currentTime - heartTime) < heartbeatTimeout then 1 -- 正常
        else 2 -- 异常

/-! ## Theorems -/

open settingService settingRepository merchantRepository orderRepository

/-! ### The digest on the RFC 1321 test suite -/

set_option maxRecDepth 1000000 in
/-- The embedded MD5 reproduces the test suite of RFC 1321 (appendix A.5) on the empty
string, on `abc`, and on the two-block string of eighty digits. -/
theorem md5hex_rfc1321 :
    md5hex "" = "d41d8cd98f00b204e9800998ecf8427e" ∧
    md5hex "abc" = "900150983cd24fb0d6963f7d28e17f72" ∧
    md5hex "12345678901234567890123456789012345678901234567890123456789012345678901234567890"
      = "57edf4a22be3c955ac49da2e2107b67a" := by
  decide

/-! ### C1: signature verification -/

/-- C1. For a message whose appid resolves to an account `u` whose secret-key row
`k` can be read, `ProcessMonitorHeart` returns `ErrInvalidSign` exactly when `sign`
differs from the lowercase hexadecimal MD5 digest of `t ++ key`, and
`ProcessMonitorPush` returns `ErrInvalidSign` exactly when `sign` differs from the
digest of `type ++ price ++ t ++ key`; the comparison is string equality. -/
theorem signature_check_reference (ParseFloat : String → Option Float64) (s : Store)
    (appid : String) (u : Nat) (k : Setting)
    (hu : resolveUserID s appid = Except.ok u)
    (hk : GetSetting s u "key" = Except.ok k) :
    (∀ (t sign : String) (now : Time),
      (ProcessMonitorHeart s ⟨t, sign, appid⟩ now).1 = some Err.invalidSign ↔
        sign ≠ md5hex (t ++ k.Vvalue)) ∧
    (∀ (typ price t sign : String) (payNow saveNow markNow : Time),
      (ProcessMonitorPush ParseFloat s ⟨t, sign, appid, typ, price⟩ payNow saveNow markNow).1
          = some Err.invalidSign ↔
        sign ≠ md5hex (typ ++ price ++ t ++ k.Vvalue)) := by
  constructor
  · intro t sign now
    simp only [ProcessMonitorHeart, hu, heartAs, hk]
    by_cases h : sign = md5hex (t ++ k.Vvalue)
    · simp [h, UpdateSetting]
    · simp [h]
  · intro typ price t sign payNow saveNow markNow
    simp only [ProcessMonitorPush, hu, pushAs, hk]
    by_cases h : sign = md5hex (typ ++ price ++ t ++ k.Vvalue)
    · simp only [h, ne_eq, not_true_eq_false, if_false, iff_false]
      cases ParseFloat price <;> simp
      cases Atoi typ <;> simp [UpdateSetting]
    · simp [h]

set_option maxRecDepth 1000000 in
/-- Scenario C: the digest of `1700000000abc`. -/
theorem md5hex_scenarioC : md5hex "1700000000abc" = "cd914fd8d6df064f1d57d60df13e34f3" := by
  decide

/-- C1 witness (Scenario C): on the scenario store, a heartbeat with
`t = 1700000000` for the bootstrap account (secret `abc`) is rejected with
`ErrInvalidSign` for every `sign` other than `cd914fd8d6df064f1d57d60df13e34f3`,
the digest of `1700000000abc`, and for no other reason. -/
theorem signature_check_reference_witness :
    resolveUserID scenarioStore "" = Except.ok 1 ∧
    GetSetting scenarioStore 1 "key" = Except.ok ⟨1, "key", "abc"⟩ ∧
    (∀ (sign : String) (now : Time),
      (ProcessMonitorHeart scenarioStore ⟨"1700000000", sign, ""⟩ now).1 = some Err.invalidSign ↔
        sign ≠ "cd914fd8d6df064f1d57d60df13e34f3") :=
  ⟨rfl, rfl, fun sign now => by
    have h := (signature_check_reference parseDecimal scenarioStore "" 1 ⟨1, "key", "abc"⟩
      rfl rfl).1 "1700000000" sign now
    have hd : md5hex ("1700000000" ++ "abc") = "cd914fd8d6df064f1d57d60df13e34f3" :=
      md5hex_scenarioC
    rw [hd] at h
    exact h⟩

/-! ### C2: failures short-circuit -/

/-- C2. When merchant resolution fails, or when the account and its key are found
but the signature does not match, `ProcessMonitorHeart` and `ProcessMonitorPush`
return an error and the store they leave is the store they were given. -/
theorem failure_short_circuits (ParseFloat : String → Option Float64) (s : Store)
    (appid : String) :
    ((∃ e, resolveUserID s appid = Except.error e) →
      (∀ (t sign : String) (now : Time),
        ∃ e, ProcessMonitorHeart s ⟨t, sign, appid⟩ now = (some e, s)) ∧
      (∀ (typ price t sign : String) (payNow saveNow markNow : Time),
        ∃ e, ProcessMonitorPush ParseFloat s ⟨t, sign, appid, typ, price⟩ payNow saveNow markNow
          = (some e, s))) ∧
    (∀ (u : Nat) (k : Setting), resolveUserID s appid = Except.ok u →
      GetSetting s u "key" = Except.ok k →
      (∀ (t sign : String) (now : Time), sign ≠ md5hex (t ++ k.Vvalue) →
        ProcessMonitorHeart s ⟨t, sign, appid⟩ now = (some Err.invalidSign, s)) ∧
      (∀ (typ price t sign : String) (payNow saveNow markNow : Time),
        sign ≠ md5hex (typ ++ price ++ t ++ k.Vvalue) →
        ProcessMonitorPush ParseFloat s ⟨t, sign, appid, typ, price⟩ payNow saveNow markNow
          = (some Err.invalidSign, s))) := by
  refine ⟨?_, ?_⟩
  · rintro ⟨e, he⟩
    refine ⟨fun t sign now => ⟨e, ?_⟩, fun typ price t sign payNow saveNow markNow => ⟨e, ?_⟩⟩
    · simp only [ProcessMonitorHeart, he]
    · simp only [ProcessMonitorPush, he]
  · intro u k hu hk
    refine ⟨fun t sign now h => ?_, fun typ price t sign payNow saveNow markNow h => ?_⟩
    · simp only [ProcessMonitorHeart, hu, heartAs, hk]
      simp [h]
    · simp only [ProcessMonitorPush, hu, pushAs, hk]
      simp [h]

/-- The string `bad` is not the digest of Scenario C. -/
theorem bad_ne_md5hex_scenarioC : "bad" ≠ md5hex ("1700000000" ++ "abc") := by
  have h : md5hex ("1700000000" ++ "abc") = "cd914fd8d6df064f1d57d60df13e34f3" :=
    md5hex_scenarioC
  rw [h]
  decide

/-- C2 witness: on the scenario store the unmapped appid `nosuch` and the disabled
appid `shopB` fail to resolve, and a heartbeat and a push for the bootstrap
account with the signature `bad` are rejected; the store is returned as it was. -/
theorem failure_short_circuits_witness :
    (∃ e, resolveUserID scenarioStore "nosuch" = Except.error e) ∧
    (∃ e, ProcessMonitorHeart scenarioStore ⟨"1700000000", "bad", "nosuch"⟩ ⟨0⟩
      = (some e, scenarioStore)) ∧
    "bad" ≠ md5hex ("1700000000" ++ "abc") ∧
    ProcessMonitorHeart scenarioStore ⟨"1700000000", "bad", ""⟩ ⟨0⟩
      = (some Err.invalidSign, scenarioStore) :=
  ⟨⟨_, rfl⟩,
   ((failure_short_circuits parseDecimal scenarioStore "nosuch").1 ⟨_, rfl⟩).1
      "1700000000" "bad" ⟨0⟩,
   bad_ne_md5hex_scenarioC,
   ((failure_short_circuits parseDecimal scenarioStore "").2 1 ⟨1, "key", "abc"⟩ rfl rfl).1
      "1700000000" "bad" ⟨0⟩ bad_ne_md5hex_scenarioC⟩

/-! ### C3: merchant resolution -/

/-- With `AppId` a key of the mapping table, the enabled row of an appid is the
row that `GetUserIDByAppID` finds. -/
theorem GetUserIDByAppID_of_mem (s : Store) (appid : String) (m : MerchantMapping)
    (hkey : (s.merchants.map MerchantMapping.AppId).Nodup)
    (hm : m ∈ s.merchants) (ha : m.AppId = appid) (hs : m.Status = 1) :
    merchantRepository.GetUserIDByAppID s appid = Except.ok m.UserId := by
  unfold merchantRepository.GetUserIDByAppID
  cases hf : s.merchants.find? (fun m => decide (m.AppId = appid ∧ m.Status = 1)) with
  | none =>
    have h := List.find?_eq_none.1 hf m hm
    simp [ha, hs] at h
  | some m' =>
    have hp := List.find?_some hf
    have hm' := List.mem_of_find?_eq_some hf
    simp only [decide_eq_true_eq] at hp
    have : m' = m := List.inj_on_of_nodup_map hkey hm' hm (hp.1.trans ha.symm)
    simp [this]

/-- Without an enabled row for the appid, `GetUserIDByAppID` fails. -/
theorem GetUserIDByAppID_of_none (s : Store) (appid : String)
    (hnone : ∀ m ∈ s.merchants, m.AppId = appid → m.Status ≠ 1) :
    merchantRepository.GetUserIDByAppID s appid = Except.error Err.recordNotFound := by
  unfold merchantRepository.GetUserIDByAppID
  have hf : s.merchants.find? (fun m => decide (m.AppId = appid ∧ m.Status = 1)) = none := by
    apply List.find?_eq_none.2
    intro m hm
    simp only [decide_eq_true_eq, not_and]
    exact hnone m hm
  rw [hf]

/-- C3. Merchant resolution in `ProcessMonitorHeart` and `ProcessMonitorPush`.
An empty appid is processed as account 1, and the outcome does not depend on the
mapping table.  A non-empty appid whose mapping table (keyed by `app_id`) holds a
row `m` for it with `status = 1` is processed as account `m.UserId`.  A non-empty
appid without such a row fails with the `invalid appid` error, the store
untouched: there is no fallback to account 1. -/
theorem merchant_resolution (ParseFloat : String → Option Float64) (s : Store) :
    (∀ (t sign : String) (now : Time) (table : List MerchantMapping),
      ProcessMonitorHeart s ⟨t, sign, ""⟩ now = heartAs s 1 ⟨t, sign, ""⟩ now ∧
      ProcessMonitorHeart { s with merchants := table } ⟨t, sign, ""⟩ now =
        ((ProcessMonitorHeart s ⟨t, sign, ""⟩ now).1,
         { (ProcessMonitorHeart s ⟨t, sign, ""⟩ now).2 with merchants := table })) ∧
    (∀ (typ price t sign : String) (payNow saveNow markNow : Time)
        (table : List MerchantMapping),
      ProcessMonitorPush ParseFloat s ⟨t, sign, "", typ, price⟩ payNow saveNow markNow =
        pushAs ParseFloat s 1 ⟨t, sign, "", typ, price⟩ payNow saveNow markNow ∧
      ProcessMonitorPush ParseFloat { s with merchants := table } ⟨t, sign, "", typ, price⟩
          payNow saveNow markNow =
        ((ProcessMonitorPush ParseFloat s ⟨t, sign, "", typ, price⟩ payNow saveNow markNow).1,
         { (ProcessMonitorPush ParseFloat s ⟨t, sign, "", typ, price⟩
              payNow saveNow markNow).2 with merchants := table })) ∧
    (∀ (appid : String) (m : MerchantMapping), appid ≠ "" →
      (s.merchants.map MerchantMapping.AppId).Nodup →
      m ∈ s.merchants → m.AppId = appid → m.Status = 1 →
      (∀ (t sign : String) (now : Time),
        ProcessMonitorHeart s ⟨t, sign, appid⟩ now = heartAs s m.UserId ⟨t, sign, appid⟩ now) ∧
      (∀ (typ price t sign : String) (payNow saveNow markNow : Time),
        ProcessMonitorPush ParseFloat s ⟨t, sign, appid, typ, price⟩ payNow saveNow markNow =
          pushAs ParseFloat s m.UserId ⟨t, sign, appid, typ, price⟩ payNow saveNow markNow)) ∧
    (∀ (appid : String), appid ≠ "" →
      (∀ m ∈ s.merchants, m.AppId = appid → m.Status ≠ 1) →
      (∀ (t sign : String) (now : Time),
        ProcessMonitorHeart s ⟨t, sign, appid⟩ now = (some (Err.invalidAppid appid), s)) ∧
      (∀ (typ price t sign : String) (payNow saveNow markNow : Time),
        ProcessMonitorPush ParseFloat s ⟨t, sign, appid, typ, price⟩ payNow saveNow markNow =
          (some (Err.invalidAppid appid), s))) := by
  refine ⟨?_, ?_, ?_, ?_⟩
  · intro t sign now table
    refine ⟨by simp [ProcessMonitorHeart, resolveUserID], ?_⟩
    simp only [ProcessMonitorHeart, resolveUserID, ne_eq, not_true_eq_false, if_false, heartAs,
      GetSetting, UpdateSetting]
    cases s.settings.find? (fun r => decide (r.Vkey = "key" ∧ r.User_id = 1)) with
    | none => rfl
    | some k => by_cases h : sign = md5hex (t ++ k.Vvalue) <;> simp [h]
  · intro typ price t sign payNow saveNow markNow table
    refine ⟨by simp [ProcessMonitorPush, resolveUserID], ?_⟩
    simp only [ProcessMonitorPush, resolveUserID, ne_eq, not_true_eq_false, if_false, pushAs,
      GetSetting, UpdateSetting, GetRecentPendingOrderByPriceAndType, orderRepository.Update]
    cases s.settings.find? (fun r => decide (r.Vkey = "key" ∧ r.User_id = 1)) with
    | none => rfl
    | some k =>
      by_cases h : sign = md5hex (typ ++ price ++ t ++ k.Vvalue)
      · simp only [h, not_true_eq_false, if_false]
        cases ParseFloat price with
        | none => rfl
        | some p =>
          cases Atoi typ with
          | none => rfl
          | some ty =>
            simp only
            repeat' split
            all_goals rfl
      · simp [h]
  · intro appid m hne hkey hm ha hs
    have hr : resolveUserID s appid = Except.ok m.UserId := by
      simp only [resolveUserID, ne_eq, hne, not_false_eq_true, if_true,
        settingService.GetUserIDByAppID, GetUserIDByAppID_of_mem s appid m hkey hm ha hs]
    exact ⟨fun t sign now => by simp only [ProcessMonitorHeart, hr],
      fun typ price t sign payNow saveNow markNow => by simp only [ProcessMonitorPush, hr]⟩
  · intro appid hne hnone
    have hr : resolveUserID s appid = Except.error (Err.invalidAppid appid) := by
      simp only [resolveUserID, ne_eq, hne, not_false_eq_true, if_true,
        settingService.GetUserIDByAppID, GetUserIDByAppID_of_none s appid hnone]
    exact ⟨fun t sign now => by simp only [ProcessMonitorHeart, hr],
      fun typ price t sign payNow saveNow markNow => by simp only [ProcessMonitorPush, hr]⟩

/-- C3 witness: on the scenario store the enabled appid `shopA` (row
`(shopA, 2, 1)`) is processed as account 2, and the appid `shopB`, whose only row
is disabled, fails with `invalid appid: shopB` and leaves the store as it was. -/
theorem merchant_resolution_witness :
    ("shopA" ≠ "" ∧ (scenarioStore.merchants.map MerchantMapping.AppId).Nodup ∧
      (⟨"shopA", 2, 1⟩ : MerchantMapping) ∈ scenarioStore.merchants) ∧
    ProcessMonitorHeart scenarioStore ⟨"1700000000", "bad", "shopA"⟩ ⟨0⟩ =
      heartAs scenarioStore 2 ⟨"1700000000", "bad", "shopA"⟩ ⟨0⟩ ∧
    ("shopB" ≠ "" ∧ ∀ m ∈ scenarioStore.merchants, m.AppId = "shopB" → m.Status ≠ 1) ∧
    ProcessMonitorHeart scenarioStore ⟨"1700000000", "bad", "shopB"⟩ ⟨0⟩ =
      (some (Err.invalidAppid "shopB"), scenarioStore) :=
  ⟨⟨by decide, by decide, by decide⟩,
   ((merchant_resolution parseDecimal scenarioStore).2.2.1 "shopA" ⟨"shopA", 2, 1⟩
      (by decide) (by decide) (by decide) rfl rfl).1 "1700000000" "bad" ⟨0⟩,
   ⟨by decide, by decide⟩,
   ((merchant_resolution parseDecimal scenarioStore).2.2.2 "shopB"
      (by decide) (by decide)).1 "1700000000" "bad" ⟨0⟩⟩

/-! ### C4 and C5: match selection -/

/-- The fold of `firstByCreateDateDesc` returns its seed or a row of the list. -/
theorem foldl_earlierInOrder_mem (os : List Order) (b : Order) :
    os.foldl earlierInOrder b = b ∨ os.foldl earlierInOrder b ∈ os := by
  induction os generalizing b with
  | nil => exact Or.inl rfl
  | cons x xs ih =>
    simp only [List.foldl_cons, List.mem_cons]
    rcases ih (earlierInOrder b x) with h | h
    · rw [h]
      unfold earlierInOrder
      split
      · exact Or.inr (Or.inl rfl)
      · exact Or.inl rfl
    · exact Or.inr (Or.inr h)

/-- The fold of `firstByCreateDateDesc` returns a row at least as recent as its
seed and as every row of the list. -/
theorem foldl_earlierInOrder_ge (os : List Order) (b : Order) :
    b.Create_date ≤ (os.foldl earlierInOrder b).Create_date ∧
    ∀ x ∈ os, x.Create_date ≤ (os.foldl earlierInOrder b).Create_date := by
  induction os generalizing b with
  | nil => exact ⟨le_refl _, fun x hx => absurd hx (List.not_mem_nil x)⟩
  | cons y ys ih =>
    simp only [List.foldl_cons, List.mem_cons]
    obtain ⟨h1, h2⟩ := ih (earlierInOrder b y)
    have hb : b.Create_date ≤ (earlierInOrder b y).Create_date ∧
        y.Create_date ≤ (earlierInOrder b y).Create_date := by
      unfold earlierInOrder
      split
      · rename_i h
        rcases h with h | h
        · exact ⟨le_of_lt h, le_refl _⟩
        · exact ⟨le_of_eq h.1, le_refl _⟩
      · rename_i h
        simp only [not_or, not_lt, not_and] at h
        exact ⟨le_refl _, h.1⟩
    refine ⟨le_trans hb.1 h1, ?_⟩
    rintro x (rfl | hx)
    · exact le_trans hb.2 h1
    · exact h2 x hx

/-- On a non-empty list `firstByCreateDateDesc` returns a row of the list that is
at least as recent as every row; on the empty list it returns nothing. -/
theorem firstByCreateDateDesc_spec (l : List Order) :
    (l = [] ∧ firstByCreateDateDesc l = none) ∨
    (∃ r, firstByCreateDateDesc l = some r ∧ r ∈ l ∧ ∀ x ∈ l, x.Create_date ≤ r.Create_date) := by
  cases l with
  | nil => exact Or.inl ⟨rfl, rfl⟩
  | cons o os =>
    refine Or.inr ⟨os.foldl earlierInOrder o, rfl, ?_, ?_⟩
    · rcases foldl_earlierInOrder_mem os o with h | h
      · rw [h]; exact List.mem_cons_self _ _
      · exact List.mem_cons_of_mem _ h
    · obtain ⟨h1, h2⟩ := foldl_earlierInOrder_ge os o
      rintro x hx
      rcases List.mem_cons.1 hx with rfl | hx
      · exact h1
      · exact h2 x hx

/-- C4. Match selection is sound and complete.  An order returned by
`GetRecentPendingOrderByPriceAndType` is a row of the table with `state = 0`, the
given `user_id` and `type`, and `really_price` or `price` equal to the amount; and
the function returns an error exactly when the table has no such row. -/
theorem match_sound_complete (s : Store) (userID : Nat) (price : Float64) (orderType : Int) :
    (∀ o, GetRecentPendingOrderByPriceAndType s userID price orderType = Except.ok o →
      o ∈ s.orders ∧ o.State = OrderStatusPending ∧ o.User_id = userID ∧
      o.Type_ = orderType ∧
      (Float64.eq o.Really_price price = true ∨ Float64.eq o.Price price = true)) ∧
    ((∃ e, GetRecentPendingOrderByPriceAndType s userID price orderType = Except.error e) ↔
      ¬ ∃ o ∈ s.orders, o.State = OrderStatusPending ∧ o.User_id = userID ∧
        o.Type_ = orderType ∧
        (Float64.eq o.Really_price price = true ∨ Float64.eq o.Price price = true)) := by
  unfold GetRecentPendingOrderByPriceAndType
  rcases firstByCreateDateDesc_spec (s.orders.filter (fun o =>
      decide (o.User_id = userID) && Float64.eq o.Really_price price &&
      decide (o.Type_ = orderType) && decide (o.State = OrderStatusPending)))
    with ⟨h1, h1'⟩ | ⟨r, hr, hmem, -⟩
  · rcases firstByCreateDateDesc_spec (s.orders.filter (fun o =>
        decide (o.User_id = userID) && Float64.eq o.Price price &&
        decide (o.Type_ = orderType) && decide (o.State = OrderStatusPending)))
      with ⟨h2, h2'⟩ | ⟨r, hr, hmem, -⟩
    · rw [h1', h2']
      refine ⟨fun o h => by simp at h, ?_⟩
      refine ⟨fun _ => ?_, fun _ => ⟨_, rfl⟩⟩
      rintro ⟨o, ho, hst, hu, hty, hp⟩
      rcases hp with hp | hp
      · have : o ∈ s.orders.filter (fun o =>
            decide (o.User_id = userID) && Float64.eq o.Really_price price &&
            decide (o.Type_ = orderType) && decide (o.State = OrderStatusPending)) := by
          simp [List.mem_filter, ho, hst, hu, hty, hp]
        rw [h1] at this
        exact List.not_mem_nil _ this
      · have : o ∈ s.orders.filter (fun o =>
            decide (o.User_id = userID) && Float64.eq o.Price price &&
            decide (o.Type_ = orderType) && decide (o.State = OrderStatusPending)) := by
          simp [List.mem_filter, ho, hst, hu, hty, hp]
        rw [h2] at this
        exact List.not_mem_nil _ this
    · rw [h1', hr]
      simp only [List.mem_filter, Bool.and_eq_true, decide_eq_true_eq] at hmem
      obtain ⟨hin, ⟨⟨hu, hp⟩, hty⟩, hst⟩ := hmem
      refine ⟨fun o h => ?_, ?_⟩
      · simp only [Except.ok.injEq] at h
        subst h
        exact ⟨hin, hst, hu, hty, Or.inr hp⟩
      · refine ⟨fun ⟨e, he⟩ => by simp at he, fun hno => ?_⟩
        exact absurd ⟨r, hin, hst, hu, hty, Or.inr hp⟩ hno
  · rw [hr]
    simp only [List.mem_filter, Bool.and_eq_true, decide_eq_true_eq] at hmem
    obtain ⟨hin, ⟨⟨hu, hp⟩, hty⟩, hst⟩ := hmem
    refine ⟨fun o h => ?_, ?_⟩
    · simp only [Except.ok.injEq] at h
      subst h
      exact ⟨hin, hst, hu, hty, Or.inl hp⟩
    · refine ⟨fun ⟨e, he⟩ => by simp at he, fun hno => ?_⟩
      exact absurd ⟨r, hin, hst, hu, hty, Or.inl hp⟩ hno

/-- C4 witness: on the priority scenario a push of 1.01 for account 1 and kind 1
selects the pending order B, and an amount of 1.05 selects C through its payable
amount; B is a pending row of the account and kind with payable amount 1.01. -/
theorem match_sound_complete_witness :
    GetRecentPendingOrderByPriceAndType priorityStore 1 (Float64.finite (mkRat 101 100)) 1
      = Except.ok orderB ∧
    (orderB ∈ priorityStore.orders ∧ orderB.State = OrderStatusPending ∧ orderB.User_id = 1 ∧
      orderB.Type_ = 1 ∧
      (Float64.eq orderB.Really_price (Float64.finite (mkRat 101 100)) = true ∨
        Float64.eq orderB.Price (Float64.finite (mkRat 101 100)) = true)) :=
  ⟨rfl, (match_sound_complete priorityStore 1 (Float64.finite (mkRat 101 100)) 1).1 orderB rfl⟩

/-- C5. Match priority and recency.  When some pending order of the account and
kind has `really_price` equal to the amount, the function returns one of those,
and none of them is more recent (`create_date`) than the one returned, whatever
orders match on `price`.  When none has, and some pending order of the account
and kind has `price` equal to the amount, the function returns one of these, and
none of them is more recent than the one returned. -/
theorem match_priority_recency (s : Store) (userID : Nat) (price : Float64) (orderType : Int) :
    ((∃ o ∈ s.orders, o.State = OrderStatusPending ∧ o.User_id = userID ∧
        o.Type_ = orderType ∧ Float64.eq o.Really_price price = true) →
      ∃ r, GetRecentPendingOrderByPriceAndType s userID price orderType = Except.ok r ∧
        (r ∈ s.orders ∧ r.State = OrderStatusPending ∧ r.User_id = userID ∧
          r.Type_ = orderType ∧ Float64.eq r.Really_price price = true) ∧
        ∀ o ∈ s.orders, o.State = OrderStatusPending → o.User_id = userID →
          o.Type_ = orderType → Float64.eq o.Really_price price = true →
          o.Create_date ≤ r.Create_date) ∧
    ((¬ ∃ o ∈ s.orders, o.State = OrderStatusPending ∧ o.User_id = userID ∧
        o.Type_ = orderType ∧ Float64.eq o.Really_price price = true) →
      (∃ o ∈ s.orders, o.State = OrderStatusPending ∧ o.User_id = userID ∧
        o.Type_ = orderType ∧ Float64.eq o.Price price = true) →
      ∃ r, GetRecentPendingOrderByPriceAndType s userID price orderType = Except.ok r ∧
        (r ∈ s.orders ∧ r.State = OrderStatusPending ∧ r.User_id = userID ∧
          r.Type_ = orderType ∧ Float64.eq r.Price price = true) ∧
        ∀ o ∈ s.orders, o.State = OrderStatusPending → o.User_id = userID →
          o.Type_ = orderType → Float64.eq o.Price price = true →
          o.Create_date ≤ r.Create_date) := by
  unfold GetRecentPendingOrderByPriceAndType
  rcases firstByCreateDateDesc_spec (s.orders.filter (fun o =>
      decide (o.User_id = userID) && Float64.eq o.Really_price price &&
      decide (o.Type_ = orderType) && decide (o.State = OrderStatusPending)))
    with ⟨h1, h1'⟩ | ⟨r, hr, hmem, hmax⟩
  · have hnone : ¬ ∃ o ∈ s.orders, o.State = OrderStatusPending ∧ o.User_id = userID ∧
        o.Type_ = orderType ∧ Float64.eq o.Really_price price = true := by
      rintro ⟨o, ho, hst, hu, hty, hp⟩
      have : o ∈ s.orders.filter (fun o =>
          decide (o.User_id = userID) && Float64.eq o.Really_price price &&
          decide (o.Type_ = orderType) && decide (o.State = OrderStatusPending)) := by
        simp [List.mem_filter, ho, hst, hu, hty, hp]
      rw [h1] at this
      exact List.not_mem_nil _ this
    refine ⟨fun h => absurd h hnone, fun _ hex => ?_⟩
    rw [h1']
    rcases firstByCreateDateDesc_spec (s.orders.filter (fun o =>
        decide (o.User_id = userID) && Float64.eq o.Price price &&
        decide (o.Type_ = orderType) && decide (o.State = OrderStatusPending)))
      with ⟨h2, -⟩ | ⟨r, hr, hmem, hmax⟩
    · exfalso
      obtain ⟨o, ho, hst, hu, hty, hp⟩ := hex
      have : o ∈ s.orders.filter (fun o =>
          decide (o.User_id = userID) && Float64.eq o.Price price &&
          decide (o.Type_ = orderType) && decide (o.State = OrderStatusPending)) := by
        simp [List.mem_filter, ho, hst, hu, hty, hp]
      rw [h2] at this
      exact List.not_mem_nil _ this
    · rw [hr]
      simp only [List.mem_filter, Bool.and_eq_true, decide_eq_true_eq] at hmem
      obtain ⟨hin, ⟨⟨hu, hp⟩, hty⟩, hst⟩ := hmem
      refine ⟨r, rfl, ⟨hin, hst, hu, hty, hp⟩, fun o ho hst' hu' hty' hp' => ?_⟩
      apply hmax
      simp [List.mem_filter, ho, hst', hu', hty', hp']
  · rw [hr]
    simp only [List.mem_filter, Bool.and_eq_true, decide_eq_true_eq] at hmem
    obtain ⟨hin, ⟨⟨hu, hp⟩, hty⟩, hst⟩ := hmem
    refine ⟨fun _ => ⟨r, rfl, ⟨hin, hst, hu, hty, hp⟩, fun o ho hst' hu' hty' hp' => ?_⟩,
      fun hno => absurd ⟨r, hin, hst, hu, hty, hp⟩ hno⟩
    apply hmax
    simp [List.mem_filter, ho, hst', hu', hty', hp']

/-- C5 witness: on the priority scenario, A and B match 1.01 on the payable amount
and the newer C only on the requested amount; the push selects B, the more
recent of A and B.  For the amount 1.00 no payable amount matches and the
requested amounts of A and B do; B is selected again. -/
theorem match_priority_recency_witness :
    (∃ o ∈ priorityStore.orders, o.State = OrderStatusPending ∧ o.User_id = 1 ∧
      o.Type_ = 1 ∧ Float64.eq o.Really_price (Float64.finite (mkRat 101 100)) = true) ∧
    (∃ r, GetRecentPendingOrderByPriceAndType priorityStore 1 (Float64.finite (mkRat 101 100)) 1
        = Except.ok r ∧
      (r ∈ priorityStore.orders ∧ r.State = OrderStatusPending ∧ r.User_id = 1 ∧
        r.Type_ = 1 ∧ Float64.eq r.Really_price (Float64.finite (mkRat 101 100)) = true) ∧
      ∀ o ∈ priorityStore.orders, o.State = OrderStatusPending → o.User_id = 1 →
        o.Type_ = 1 → Float64.eq o.Really_price (Float64.finite (mkRat 101 100)) = true →
        o.Create_date ≤ r.Create_date) ∧
    GetRecentPendingOrderByPriceAndType priorityStore 1 (Float64.finite (mkRat 101 100)) 1
      = Except.ok orderB ∧
    GetRecentPendingOrderByPriceAndType priorityStore 1 (Float64.finite 1) 1
      = Except.ok orderB :=
  ⟨⟨orderA, by decide, rfl, rfl, rfl, by decide⟩,
   (match_priority_recency priorityStore 1 (Float64.finite (mkRat 101 100)) 1).1
     ⟨orderA, by decide, rfl, rfl, rfl, by decide⟩,
   rfl, rfl⟩

/-! ### C6: match transition and frame -/

/-- An order returned by the match selection is a row of the order table. -/
theorem GetRecentPendingOrderByPriceAndType_mem (s : Store) (userID : Nat) (price : Float64)
    (orderType : Int) (o : Order)
    (h : GetRecentPendingOrderByPriceAndType s userID price orderType = Except.ok o) :
    o ∈ s.orders := by
  unfold GetRecentPendingOrderByPriceAndType at h
  rcases firstByCreateDateDesc_spec (s.orders.filter (fun o =>
      decide (o.User_id = userID) && Float64.eq o.Really_price price &&
      decide (o.Type_ = orderType) && decide (o.State = OrderStatusPending)))
    with ⟨-, h1⟩ | ⟨r, hr, hmem, -⟩
  · rw [h1] at h
    rcases firstByCreateDateDesc_spec (s.orders.filter (fun o =>
        decide (o.User_id = userID) && Float64.eq o.Price price &&
        decide (o.Type_ = orderType) && decide (o.State = OrderStatusPending)))
      with ⟨-, h2⟩ | ⟨r, hr, hmem, -⟩
    · rw [h2] at h
      simp at h
    · rw [hr] at h
      simp only [Except.ok.injEq] at h
      subst h
      exact (List.mem_filter.1 hmem).1
  · rw [hr] at h
    simp only [Except.ok.injEq] at h
    subst h
    exact (List.mem_filter.1 hmem).1

/-- The `Update` (`Save`) of a row whose non-zero key is in the table rewrites the rows
with that key and nothing else. -/
theorem Update_of_mem (s : Store) (order : Order) (now : Time) (o : Order)
    (ho : o ∈ s.orders) (hid : o.Id = order.Id) (hne : order.Id ≠ 0) :
    orderRepository.Update s order now =
      (none, { s with orders := s.orders.map (fun x => if x.Id = order.Id then order else x) }) := by
  unfold orderRepository.Update
  rw [if_neg hne]
  have hany : s.orders.any (fun x => decide (x.Id = order.Id)) = true :=
    List.any_eq_true.2 ⟨o, ho, by simp [hid]⟩
  rw [if_pos hany]

/-- C6. Match transition and frame.  For a push that passes signature
verification, whose price and type parse, and for which the selection returns the
order `O` (rows of the order table carry distinct non-zero keys), after
`ProcessMonitorPush` the order table is the one before with `O` replaced by `O`
with `State = 1` (paid) and `Pay_date` the clock reading of the match, every other
field of `O` as it was; all other rows are unchanged. -/
theorem match_transition_frame (ParseFloat : String → Option Float64) (s : Store)
    (req : MonitorPushRequest) (payNow saveNow markNow : Time) (u : Nat) (k : Setting)
    (price : Float64) (orderType : Int) (O : Order)
    (hu : resolveUserID s req.AppID = Except.ok u)
    (hk : GetSetting s u "key" = Except.ok k)
    (hsig : req.Sign = md5hex (req.Type_ ++ req.Price ++ req.T ++ k.Vvalue))
    (hp : ParseFloat req.Price = some price)
    (ht : Atoi req.Type_ = some orderType)
    (hsel : GetRecentPendingOrderByPriceAndType s u price orderType = Except.ok O)
    (hkey : (s.orders.map Order.Id).Nodup)
    (hid : O.Id ≠ 0) :
    (ProcessMonitorPush ParseFloat s req payNow saveNow markNow).1 = none ∧
    (ProcessMonitorPush ParseFloat s req payNow saveNow markNow).2.orders =
      s.orders.map (fun o =>
        if o = O then { O with State := OrderStatusPaid, Pay_date := payNow.Unix } else o) := by
  have hmem := GetRecentPendingOrderByPriceAndType_mem s u price orderType O hsel
  have hupd := Update_of_mem s { O with State := OrderStatusPaid, Pay_date := payNow.Unix }
    saveNow O hmem rfl hid
  simp only [ProcessMonitorPush, hu, pushAs, hk, hsig, ne_eq, not_true_eq_false, if_false, hp,
    ht, hsel, hupd, UpdateSetting, true_and]
  apply List.map_congr_left
  intro o ho
  have hiff : o.Id = O.Id ↔ o = O :=
    ⟨fun h => List.inj_on_of_nodup_map hkey ho hmem h, fun h => by rw [h]⟩
  by_cases h : o = O
  · simp [h]
  · simp [h, hiff.not.2 h]

set_option maxRecDepth 1000000 in
/-- Scenario A: the digest that signs `pushA`. -/
theorem md5hex_scenarioA :
    md5hex "11.011700000120abc" = "43f5cd1949e6a3a09f22256fd5b9e9e6" := by
  decide

/-- C6 witness (Scenario A): on the scenario store, whose only order is the pending
O1 (kind 1, payable 1.01, requested 1.00), the signed push `type = 1, price = 1.01`
at `T0 + 2m` selects O1 and leaves the order table `[O1 paid, pay_date = T0 + 2m]`. -/
theorem match_transition_frame_witness :
    GetRecentPendingOrderByPriceAndType scenarioStore 1 (Float64.finite (mkRat 101 100)) 1
      = Except.ok orderO1 ∧
    ((ProcessMonitorPush parseDecimal scenarioStore pushA timeA timeA timeA).1 = none ∧
     (ProcessMonitorPush parseDecimal scenarioStore pushA timeA timeA timeA).2.orders =
      scenarioStore.orders.map (fun o =>
        if o = orderO1 then { orderO1 with State := OrderStatusPaid, Pay_date := timeA.Unix }
        else o)) ∧
    scenarioStore.orders.map (fun o =>
        if o = orderO1 then { orderO1 with State := OrderStatusPaid, Pay_date := timeA.Unix }
        else o) =
      [{ orderO1 with State := 1, Pay_date := 1700000120 }] :=
  ⟨rfl,
   match_transition_frame parseDecimal scenarioStore pushA timeA timeA timeA 1 ⟨1, "key", "abc"⟩
     (Float64.finite (mkRat 101 100)) 1 orderO1 rfl rfl md5hex_scenarioA.symm rfl rfl rfl
     (by decide) (by decide),
   by decide⟩

/-! ### C7: the match write -/

/-- C7 (evaluation). The write of `ProcessMonitorPush` is `Save`, which is keyed by
the primary key alone.  On the scenario store a push selects the pending O1; the
expiry sweep at `T0 + 5m30s` then closes O1 (`state = -1`,
`close_date = 1700000330`); the write of the push, performed on that store with the
row read at selection, leaves O1 with `state = 1`, `pay_date = 1700000331` and
`close_date = 0`.  Likewise a second write for the same selected row overwrites
the `pay_date` of the first. -/
theorem match_write_overwrites_closed_order :
    GetRecentPendingOrderByPriceAndType scenarioStore 1 (Float64.finite (mkRat 101 100)) 1
      = Except.ok orderO1 ∧
    sweptStore.orders = [{ orderO1 with State := -1, Close_date := 1700000330 }] ∧
    (orderRepository.Update sweptStore
        { orderO1 with State := OrderStatusPaid, Pay_date := 1700000331 } timeB).2.orders
      = [{ orderO1 with State := 1, Pay_date := 1700000331, Close_date := 0 }] ∧
    (orderRepository.Update
        (orderRepository.Update scenarioStore
          { orderO1 with State := OrderStatusPaid, Pay_date := 1700000120 } timeA).2
        { orderO1 with State := OrderStatusPaid, Pay_date := 1700000121 } timeA).2.orders
      = [{ orderO1 with State := 1, Pay_date := 1700000121 }] := by
  refine ⟨rfl, ?_, ?_, ?_⟩ <;> decide

/-! ### C8: the payment marker -/

/-- Reading a setting after `UpdateSetting`: the row that was found before, passed
through the update. -/
theorem find?_setting_map (l : List Setting) (key key' : String) (u u' : Nat) (v : String) :
    (l.map (fun r => if r.Vkey = key' ∧ r.User_id = u' then { r with Vvalue := v } else r)).find?
        (fun r => decide (r.Vkey = key ∧ r.User_id = u)) =
      (l.find? (fun r => decide (r.Vkey = key ∧ r.User_id = u))).map
        (fun r => if r.Vkey = key' ∧ r.User_id = u' then { r with Vvalue := v } else r) := by
  induction l with
  | nil => rfl
  | cons x xs ih =>
    simp only [List.map_cons, List.find?_cons]
    have hx : decide ((if x.Vkey = key' ∧ x.User_id = u' then { x with Vvalue := v } else x).Vkey
          = key ∧
        (if x.Vkey = key' ∧ x.User_id = u' then { x with Vvalue := v } else x).User_id = u) =
        decide (x.Vkey = key ∧ x.User_id = u) := by
      split <;> rfl
    rw [hx]
    cases decide (x.Vkey = key ∧ x.User_id = u) with
    | true => rfl
    | false => exact ih

/-- After `UpdateSetting`, an account that has a row for the key reads the new value. -/
theorem GetUserSettingValue_UpdateSetting (s : Store) (u : Nat) (key v : String)
    (hrow : ∃ x ∈ s.settings, x.Vkey = key ∧ x.User_id = u) :
    GetUserSettingValue (UpdateSetting s u key v).2 u key = Except.ok v := by
  obtain ⟨x, hx, hxk⟩ := hrow
  unfold GetUserSettingValue GetSetting UpdateSetting
  simp only [find?_setting_map]
  cases hf : s.settings.find? (fun r => decide (r.Vkey = key ∧ r.User_id = u)) with
  | none =>
    have := List.find?_eq_none.1 hf x hx
    simp [hxk] at this
  | some r =>
    have hp := List.find?_some hf
    simp only [decide_eq_true_eq] at hp
    simp [hp]

/-- The `Update` (`Save`) writes the order table only. -/
theorem Update_settings (s : Store) (order : Order) (now : Time) :
    (orderRepository.Update s order now).2.settings = s.settings := by
  unfold orderRepository.Update
  split
  · rfl
  · split <;> rfl

set_option maxRecDepth 1000000 in
/-- The digest that signs `pushBadPrice`. -/
theorem md5hex_badPrice :
    md5hex "1abc1700000360abc" = "529edb076d02f61767d12569564af131" := by
  decide

/-- C8 (counterexample). The push `pushBadPrice` carries the right signature for
the bootstrap account, yet `ProcessMonitorPush` returns the error
`invalid price: abc` and the store, `lastpay` included, is as before. -/
theorem payment_marker_skipped_on_bad_price :
    pushBadPrice.Sign =
      md5hex (pushBadPrice.Type_ ++ pushBadPrice.Price ++ pushBadPrice.T ++ "abc") ∧
    ProcessMonitorPush parseDecimal scenarioStore pushBadPrice timeB6 timeB6 timeB6 =
      (some (Err.invalidPrice "abc"), scenarioStore) ∧
    GetUserSettingValue
      (ProcessMonitorPush parseDecimal scenarioStore pushBadPrice timeB6 timeB6 timeB6).2
      1 "lastpay" = Except.ok "" := by
  have hd : md5hex (pushBadPrice.Type_ ++ pushBadPrice.Price ++ pushBadPrice.T ++ "abc") =
      "529edb076d02f61767d12569564af131" := md5hex_badPrice
  have hrun : ProcessMonitorPush parseDecimal scenarioStore pushBadPrice timeB6 timeB6 timeB6 =
      (some (Err.invalidPrice "abc"), scenarioStore) := by
    have hk : GetSetting scenarioStore 1 "key" = Except.ok ⟨1, "key", "abc"⟩ := rfl
    have hu : resolveUserID scenarioStore pushBadPrice.AppID = Except.ok 1 := rfl
    have hp : parseDecimal pushBadPrice.Price = none := rfl
    simp only [ProcessMonitorPush, hu, pushAs, hk, hd, hp]
    rfl
  refine ⟨hd.symm, hrun, ?_⟩
  rw [hrun]
  rfl

set_option maxRecDepth 1000000 in
/-- Scenario B: the digest that signs `pushB`. -/
theorem md5hex_scenarioB :
    md5hex "11.011700000360abc" = "9a6a4a137b13ce1a137ab2b05a03b969" := by
  decide

/-- C8 (amended). For a push that passes signature verification: when its price
and type parse, `ProcessMonitorPush` returns nil and rewrites the value of the
account's `lastpay` rows to the decimal string of the clock reading, all other
setting rows unchanged; an account that has a `lastpay` row then reads that value.
This holds whether or not an order matched: when the selection finds no order the
call is exactly the `lastpay` update on the store it was given, so it returns the
result of that update and changes no order.  When the price does not parse the call
returns the error `invalid price`, and when the price parses and the type does not
it returns the error `invalid type`; in both cases the store, `lastpay` included,
is as before. -/
theorem payment_marker_recorded (ParseFloat : String → Option Float64) (s : Store)
    (req : MonitorPushRequest) (payNow saveNow markNow : Time) (u : Nat) (k : Setting)
    (hu : resolveUserID s req.AppID = Except.ok u)
    (hk : GetSetting s u "key" = Except.ok k)
    (hsig : req.Sign = md5hex (req.Type_ ++ req.Price ++ req.T ++ k.Vvalue)) :
    (∀ (price : Float64) (orderType : Int),
      ParseFloat req.Price = some price → Atoi req.Type_ = some orderType →
      (ProcessMonitorPush ParseFloat s req payNow saveNow markNow).1 = none ∧
      (ProcessMonitorPush ParseFloat s req payNow saveNow markNow).2.settings =
        s.settings.map (fun x =>
          if x.Vkey = "lastpay" ∧ x.User_id = u
          then { x with Vvalue := FormatInt markNow.Unix } else x) ∧
      ((∃ x ∈ s.settings, x.Vkey = "lastpay" ∧ x.User_id = u) →
        GetUserSettingValue (ProcessMonitorPush ParseFloat s req payNow saveNow markNow).2
          u "lastpay" = Except.ok (FormatInt markNow.Unix)) ∧
      ((∃ e, GetRecentPendingOrderByPriceAndType s u price orderType = Except.error e) →
        ProcessMonitorPush ParseFloat s req payNow saveNow markNow =
          UpdateSetting s u "lastpay" (FormatInt markNow.Unix) ∧
        (ProcessMonitorPush ParseFloat s req payNow saveNow markNow).2.orders = s.orders)) ∧
    (ParseFloat req.Price = none →
      ProcessMonitorPush ParseFloat s req payNow saveNow markNow =
        (some (Err.invalidPrice req.Price), s)) ∧
    (∀ price : Float64, ParseFloat req.Price = some price → Atoi req.Type_ = none →
      ProcessMonitorPush ParseFloat s req payNow saveNow markNow =
        (some (Err.invalidType req.Type_), s)) := by
  refine ⟨?_, ?_, ?_⟩
  · intro price orderType hp ht
    have hrun : ∃ s1 : Store, s1.settings = s.settings ∧
        ((∃ e, GetRecentPendingOrderByPriceAndType s u price orderType = Except.error e) →
          s1 = s) ∧
        ProcessMonitorPush ParseFloat s req payNow saveNow markNow =
          UpdateSetting s1 u "lastpay" (FormatInt markNow.Unix) := by
      simp only [ProcessMonitorPush, hu, pushAs, hk, hsig, ne_eq, not_true_eq_false, if_false,
        hp, ht]
      cases hsel : GetRecentPendingOrderByPriceAndType s u price orderType with
      | error e => exact ⟨s, rfl, fun _ => rfl, rfl⟩
      | ok O =>
        exact ⟨_, Update_settings s _ saveNow, fun ⟨e, he⟩ => by simp at he, rfl⟩
    obtain ⟨s1, hs1, hnone, hrun⟩ := hrun
    rw [hrun]
    refine ⟨rfl, ?_, ?_, ?_⟩
    · simp only [UpdateSetting, hs1]
    · intro hrow
      exact GetUserSettingValue_UpdateSetting s1 u "lastpay" _ (by rw [hs1]; exact hrow)
    · intro hno
      rw [hnone hno]
      exact ⟨rfl, rfl⟩
  · intro hp
    simp only [ProcessMonitorPush, hu, pushAs, hk, hsig, ne_eq, not_true_eq_false, if_false, hp]
  · intro price hp ht
    simp only [ProcessMonitorPush, hu, pushAs, hk, hsig, ne_eq, not_true_eq_false, if_false,
      hp, ht]

/-- C8 witness (Scenario B): after the sweep at `T0 + 5m30s` closed O1, the signed
push `type = 1, price = 1.01` at `T0 + 6m` finds no pending order, leaves O1
closed, and the bootstrap account reads `lastpay = 1700000360`; the signed pushes
with the price `abc` and with the type `x` return their error and leave the store
as it was. -/
theorem payment_marker_recorded_witness :
    (∃ e, GetRecentPendingOrderByPriceAndType sweptStore 1 (Float64.finite (mkRat 101 100)) 1
      = Except.error e) ∧
    (ProcessMonitorPush parseDecimal sweptStore pushB timeB6 timeB6 timeB6).1 = none ∧
    GetUserSettingValue (ProcessMonitorPush parseDecimal sweptStore pushB timeB6 timeB6 timeB6).2
      1 "lastpay" = Except.ok "1700000360" ∧
    (ProcessMonitorPush parseDecimal sweptStore pushB timeB6 timeB6 timeB6).2.orders =
      [{ orderO1 with State := -1, Close_date := 1700000330 }] ∧
    (parseDecimal pushBadPrice.Price = none ∧
      ProcessMonitorPush parseDecimal scenarioStore pushBadPrice timeB6 timeB6 timeB6 =
        (some (Err.invalidPrice "abc"), scenarioStore)) ∧
    (parseDecimal pushBadType.Price = some (Float64.finite (mkRat 101 100)) ∧
      Atoi pushBadType.Type_ = none ∧
      ProcessMonitorPush parseDecimal scenarioStore pushBadType timeB6 timeB6 timeB6 =
        (some (Err.invalidType "x"), scenarioStore)) := by
  have h := (payment_marker_recorded parseDecimal sweptStore pushB timeB6 timeB6 timeB6 1
    ⟨1, "key", "abc"⟩ rfl rfl md5hex_scenarioB.symm).1 (Float64.finite (mkRat 101 100)) 1
    rfl rfl
  have hprice : parseDecimal pushBadPrice.Price = none := by decide
  have htype : Atoi pushBadType.Type_ = none := by decide
  have hp : parseDecimal pushBadType.Price = some (Float64.finite (mkRat 101 100)) := by decide
  refine ⟨⟨_, rfl⟩, h.1, ?_, ?_, ⟨hprice, ?_⟩, ⟨hp, htype, ?_⟩⟩
  · exact h.2.2.1 ⟨⟨1, "lastpay", ""⟩, by decide, rfl, rfl⟩
  · rw [(h.2.2.2 ⟨_, rfl⟩).2]
    decide
  · exact (payment_marker_recorded parseDecimal scenarioStore pushBadPrice timeB6 timeB6
      timeB6 1 ⟨1, "key", "abc"⟩ rfl rfl md5hex_badPrice.symm).2.1 hprice
  · exact (payment_marker_recorded parseDecimal scenarioStore pushBadType timeB6 timeB6
      timeB6 1 ⟨1, "key", "abc"⟩ rfl rfl rfl).2.2 _ hp htype

/-! ### C9: heartbeat effect -/

/-- The decimal digit characters are read back as their value. -/
theorem digitValue_digitChar (k : Nat) (hk : k < 10) : digitValue (Nat.digitChar k) = some k := by
  interval_cases k <;> rfl

/-- A decimal digit character is not a sign. -/
theorem digitChar_ne_sign (k : Nat) (hk : k < 10) :
    Nat.digitChar k ≠ '-' ∧ Nat.digitChar k ≠ '+' := by
  interval_cases k <;> decide

/-- The digits that `Nat.toDigitsCore` puts in front of `ds` are a non-empty run of
decimal digit characters, and reading them appends `n` to the value read so far. -/
theorem toDigitsCore_spec (fuel : Nat) : ∀ (n : Nat) (ds : List Char), n < fuel →
    ∃ xs, Nat.toDigitsCore 10 fuel n ds = xs ++ ds ∧ xs ≠ [] ∧
      (∀ c ∈ xs, ∃ k, k < 10 ∧ c = Nat.digitChar k) ∧
      ∀ a, xs.foldl parseStep (some a) = some (a * 10 ^ xs.length + n) := by
  induction fuel with
  | zero => intro n ds h; exact absurd h (Nat.not_lt_zero n)
  | succ fuel ih =>
    intro n ds h
    simp only [Nat.toDigitsCore]
    by_cases h0 : n / 10 = 0
    · rw [if_pos h0]
      have hn : n < 10 := by omega
      refine ⟨[Nat.digitChar (n % 10)], rfl, by simp, ?_, ?_⟩
      · intro c hc
        exact ⟨n % 10, Nat.mod_lt _ (by decide), by simpa using hc⟩
      · intro a
        simp only [List.foldl_cons, List.foldl_nil, parseStep,
          digitValue_digitChar (n % 10) (Nat.mod_lt _ (by decide)), List.length_singleton]
        congr 1
        omega
    · rw [if_neg h0]
      obtain ⟨xs, hxs, hne, hdig, hval⟩ :=
        ih (n / 10) (Nat.digitChar (n % 10) :: ds) (by omega)
      refine ⟨xs ++ [Nat.digitChar (n % 10)], by rw [hxs]; simp, by simp, ?_, ?_⟩
      · intro c hc
        rcases List.mem_append.1 hc with hc | hc
        · exact hdig c hc
        · exact ⟨n % 10, Nat.mod_lt _ (by decide), by simpa using hc⟩
      · intro a
        simp only [List.foldl_append, hval a, List.foldl_cons, List.foldl_nil, parseStep,
          digitValue_digitChar (n % 10) (Nat.mod_lt _ (by decide)), List.length_append,
          List.length_singleton]
        congr 1
        rw [pow_succ]
        have := Nat.div_add_mod n 10
        nlinarith [this]

/-- The decimal digits of `n` are non-empty, start with a digit, and read back as `n`. -/
theorem parseDigits_toDigits (n : Nat) :
    parseDigits (Nat.toDigits 10 n) = some n ∧
    ∃ c cs, Nat.toDigits 10 n = c :: cs ∧ c ≠ '-' ∧ c ≠ '+' := by
  obtain ⟨xs, hxs, hne, hdig, hval⟩ := toDigitsCore_spec (n + 1) n [] (Nat.lt_succ_self n)
  simp only [List.append_nil] at hxs
  unfold Nat.toDigits
  rw [hxs]
  cases xs with
  | nil => exact absurd rfl hne
  | cons c cs =>
    refine ⟨?_, c, cs, rfl, ?_⟩
    · have := hval 0
      simpa [parseDigits] using this
    · obtain ⟨k, hk, hc⟩ := hdig c (List.mem_cons_self _ _)
      rw [hc]
      exact digitChar_ne_sign k hk

/-- Round trip: `ParseInt` reads back what `FormatInt` wrote, for every `int64` value. -/
theorem ParseInt_FormatInt (i : Int) (hlo : -9223372036854775808 ≤ i)
    (hhi : i < 9223372036854775808) : ParseInt (FormatInt i) = some i := by
  cases i with
  | ofNat n =>
    obtain ⟨hval, c, cs, hcs, hm, hp⟩ := parseDigits_toDigits n
    have hn : n < 9223372036854775808 := by
      have : (n : Int) < 9223372036854775808 := hhi
      omega
    have hval' : parseDigits (c :: cs) = some n := hcs ▸ hval
    simp only [FormatInt, ParseInt, hcs, if_neg hm, if_neg hp, hval', if_pos hn]
    rfl
  | negSucc n =>
    obtain ⟨hval, -⟩ := parseDigits_toDigits (n + 1)
    have hn : n + 1 ≤ 9223372036854775808 := by
      have : -9223372036854775808 ≤ -((n : Int) + 1) := by
        rw [← Int.negSucc_eq]; exact hlo
      omega
    simp only [FormatInt, ParseInt, if_true, hval, if_pos hn]
    rfl

/-- A verified heartbeat is the `lastheart` update followed by the `jkstate` update. -/
theorem ProcessMonitorHeart_verified (s : Store) (req : MonitorHeartRequest) (now : Time)
    (u : Nat) (k : Setting)
    (hu : resolveUserID s req.AppID = Except.ok u)
    (hk : GetSetting s u "key" = Except.ok k)
    (hsig : req.Sign = md5hex (req.T ++ k.Vvalue)) :
    ProcessMonitorHeart s req now =
      UpdateSetting (UpdateSetting s u "lastheart" (FormatInt now.Unix)).2 u "jkstate" "1" := by
  simp only [ProcessMonitorHeart, hu, heartAs, hk, hsig, ne_eq, not_true_eq_false, if_false,
    UpdateSetting]

/-- An `UpdateSetting` keeps the rows of every key and account in place. -/
theorem UpdateSetting_row (s : Store) (u u' : Nat) (key key' v : String)
    (hrow : ∃ x ∈ s.settings, x.Vkey = key ∧ x.User_id = u) :
    ∃ x ∈ (UpdateSetting s u' key' v).2.settings, x.Vkey = key ∧ x.User_id = u := by
  obtain ⟨x, hx, hxk, hxu⟩ := hrow
  refine ⟨_, List.mem_map_of_mem _ hx, ?_⟩
  split <;> exact ⟨hxk, hxu⟩

/-- An `UpdateSetting` of one key does not change what is read under another key. -/
theorem GetSetting_UpdateSetting_other (s : Store) (u u' : Nat) (key key' v : String)
    (hne : key ≠ key') :
    GetSetting (UpdateSetting s u' key' v).2 u key = GetSetting s u key := by
  unfold GetSetting UpdateSetting
  simp only [find?_setting_map]
  cases hf : s.settings.find? (fun r => decide (r.Vkey = key ∧ r.User_id = u)) with
  | none => rfl
  | some r =>
    have hp := List.find?_some hf
    simp only [decide_eq_true_eq] at hp
    have : ¬ (r.Vkey = key' ∧ r.User_id = u') := fun h => hne (hp.1.symm.trans h.1)
    simp [this]

/-- C9. Verified heartbeat effect.  For a heartbeat that passes signature
verification, for an account `u` that has a `lastheart` and a `jkstate` row:
`ProcessMonitorHeart` returns nil; afterwards the account reads `lastheart` as the
decimal string of the clock reading and `jkstate` as `1`, whatever they were; the
setting rows of every other account are unchanged.  Hence, for a second verified
heartbeat of the account at a reading that is not earlier (readings being `int64`
seconds), the number read from `lastheart` does not decrease. -/
theorem heartbeat_effect (s : Store) (req : MonitorHeartRequest) (now : Time)
    (u : Nat) (k : Setting)
    (hu : resolveUserID s req.AppID = Except.ok u)
    (hk : GetSetting s u "key" = Except.ok k)
    (hsig : req.Sign = md5hex (req.T ++ k.Vvalue))
    (hheart : ∃ x ∈ s.settings, x.Vkey = "lastheart" ∧ x.User_id = u)
    (hjk : ∃ x ∈ s.settings, x.Vkey = "jkstate" ∧ x.User_id = u) :
    (ProcessMonitorHeart s req now).1 = none ∧
    GetUserSettingValue (ProcessMonitorHeart s req now).2 u "lastheart"
      = Except.ok (FormatInt now.Unix) ∧
    GetUserSettingValue (ProcessMonitorHeart s req now).2 u "jkstate" = Except.ok "1" ∧
    List.Forall₂ (fun x y => x.User_id ≠ u → y = x)
      s.settings (ProcessMonitorHeart s req now).2.settings ∧
    (∀ (req2 : MonitorHeartRequest) (now2 : Time),
      resolveUserID s req2.AppID = Except.ok u →
      req2.Sign = md5hex (req2.T ++ k.Vvalue) →
      -9223372036854775808 ≤ now.Unix → now.Unix ≤ now2.Unix →
      now2.Unix < 9223372036854775808 →
      ∃ n1 n2 : Int,
        (GetUserSettingValue (ProcessMonitorHeart s req now).2 u "lastheart").toOption.bind
          ParseInt = some n1 ∧
        (GetUserSettingValue
          (ProcessMonitorHeart (ProcessMonitorHeart s req now).2 req2 now2).2
          u "lastheart").toOption.bind ParseInt = some n2 ∧
        n1 ≤ n2) := by
  -- what a verified heartbeat leaves, on any store
  have key : ∀ (s : Store) (req : MonitorHeartRequest) (now : Time),
      resolveUserID s req.AppID = Except.ok u → GetSetting s u "key" = Except.ok k →
      req.Sign = md5hex (req.T ++ k.Vvalue) →
      (∃ x ∈ s.settings, x.Vkey = "lastheart" ∧ x.User_id = u) →
      GetUserSettingValue (ProcessMonitorHeart s req now).2 u "lastheart"
        = Except.ok (FormatInt now.Unix) := by
    intro s req now hu hk hsig hheart
    rw [ProcessMonitorHeart_verified s req now u k hu hk hsig]
    unfold GetUserSettingValue
    rw [GetSetting_UpdateSetting_other _ u u "lastheart" "jkstate" "1" (by decide)]
    exact GetUserSettingValue_UpdateSetting s u "lastheart" _ hheart
  have hrun := ProcessMonitorHeart_verified s req now u k hu hk hsig
  refine ⟨by rw [hrun]; rfl, key s req now hu hk hsig hheart, ?_, ?_, ?_⟩
  · rw [hrun]
    exact GetUserSettingValue_UpdateSetting _ u "jkstate" "1"
      (UpdateSetting_row s u u "jkstate" "lastheart" _ hjk)
  · rw [hrun]
    simp only [UpdateSetting, List.map_map, List.forall₂_map_right_iff, List.forall₂_same]
    intro x _ hx
    simp [hx]
  · intro req2 now2 hu2 hsig2 hlo hle hhi
    have hs' : (ProcessMonitorHeart s req now).2.merchants = s.merchants := by
      rw [hrun]; rfl
    have hu2' : resolveUserID (ProcessMonitorHeart s req now).2 req2.AppID = Except.ok u := by
      simpa only [resolveUserID, settingService.GetUserIDByAppID,
        merchantRepository.GetUserIDByAppID, hs'] using hu2
    have hk' : GetSetting (ProcessMonitorHeart s req now).2 u "key" = Except.ok k := by
      rw [hrun, GetSetting_UpdateSetting_other _ u u "key" "jkstate" "1" (by decide),
        GetSetting_UpdateSetting_other _ u u "key" "lastheart" _ (by decide)]
      exact hk
    have hheart' : ∃ x ∈ (ProcessMonitorHeart s req now).2.settings,
        x.Vkey = "lastheart" ∧ x.User_id = u := by
      rw [hrun]
      exact UpdateSetting_row _ u u "lastheart" "jkstate" _
        (UpdateSetting_row s u u "lastheart" "lastheart" _ hheart)
    refine ⟨now.Unix, now2.Unix, ?_, ?_, hle⟩
    · rw [key s req now hu hk hsig hheart]
      exact ParseInt_FormatInt _ hlo (lt_of_le_of_lt hle hhi)
    · rw [key _ req2 now2 hu2' hk' hsig2 hheart']
      exact ParseInt_FormatInt _ (le_trans hlo hle) hhi

/-- C9 witness: on the scenario store the signed heartbeat of Scenario C, processed
at `T0 + 2m`, leaves the bootstrap account with `lastheart = 1700000120` and
`jkstate = 1` (it was `0`), and the rows of account 2 as they were. -/
theorem heartbeat_effect_witness :
    ((∃ x ∈ scenarioStore.settings, x.Vkey = "lastheart" ∧ x.User_id = 1) ∧
      (∃ x ∈ scenarioStore.settings, x.Vkey = "jkstate" ∧ x.User_id = 1)) ∧
    GetUserSettingValue (ProcessMonitorHeart scenarioStore heartC timeA).2 1 "lastheart"
      = Except.ok "1700000120" ∧
    GetUserSettingValue (ProcessMonitorHeart scenarioStore heartC timeA).2 1 "jkstate"
      = Except.ok "1" ∧
    (ProcessMonitorHeart scenarioStore heartC timeA).2.settings =
      [⟨1, "key", "abc"⟩, ⟨1, "lastheart", "1700000120"⟩, ⟨1, "lastpay", ""⟩, ⟨1, "jkstate", "1"⟩,
       ⟨2, "key", "k2"⟩, ⟨2, "lastheart", ""⟩, ⟨2, "lastpay", ""⟩, ⟨2, "jkstate", "0"⟩] := by
  have hrows : (∃ x ∈ scenarioStore.settings, x.Vkey = "lastheart" ∧ x.User_id = 1) ∧
      (∃ x ∈ scenarioStore.settings, x.Vkey = "jkstate" ∧ x.User_id = 1) :=
    ⟨⟨⟨1, "lastheart", ""⟩, by decide, rfl, rfl⟩, ⟨⟨1, "jkstate", "0"⟩, by decide, rfl, rfl⟩⟩
  have h := heartbeat_effect scenarioStore heartC timeA 1 ⟨1, "key", "abc"⟩ rfl rfl
    md5hex_scenarioC.symm hrows.1 hrows.2
  refine ⟨hrows, h.2.1, h.2.2.1, ?_⟩
  rw [ProcessMonitorHeart_verified scenarioStore heartC timeA 1 ⟨1, "key", "abc"⟩ rfl rfl
    md5hex_scenarioC.symm]
  decide

/-! ### C10: the expiry sweep never closes a young or non-pending order -/

/-- Within the `int64` range the wrap is the identity. -/
theorem wrapInt64_of_range (x : Int) (hlo : -9223372036854775808 ≤ x)
    (hhi : x < 9223372036854775808) : wrapInt64 x = x := by
  unfold wrapInt64
  omega

/-- For a timeout whose nanoseconds fit an `int64`, the cut-off is the clock
reading in seconds minus `60 * expireMinutes`. -/
theorem expireTime_of_range (now : Time) (expireMinutes : Int)
    (hlo : -153722867 ≤ expireMinutes) (hhi : expireMinutes ≤ 153722867) :
    expireTime now expireMinutes = now.Unix - 60 * expireMinutes := by
  unfold expireTime Time.Add Time.Unix Minute
  rw [wrapInt64_of_range (-expireMinutes) (by omega) (by omega),
    wrapInt64_of_range (-expireMinutes * 60000000000) (by omega) (by omega)]
  simp only
  omega

/-- Every row that `CloseExpiredOrdersWithMinutes` changes satisfied, before the
call, the conditions of its query at the computed cut-off. -/
theorem CloseExpiredOrdersWithMinutes_changed (s : Store) (userID : Option Nat)
    (limit expireMinutes : Int) (now closeNow : Time) :
    List.Forall₂ (fun o o' => o' ≠ o →
        expiredCond (expireTime now expireMinutes) userID o = true)
      s.orders
      (CloseExpiredOrdersWithMinutes s userID limit expireMinutes now closeNow).2.2.orders := by
  unfold CloseExpiredOrdersWithMinutes
  simp only
  split
  · exact List.forall₂_same.2 (fun o _ h => absurd rfl h)
  · simp only [closeUpdate, List.forall₂_map_right_iff]
    apply List.forall₂_same.2
    intro o _ h
    by_cases hc : closeCond (expireTime now expireMinutes) userID limit
        (findOrdersToClose s (expireTime now expireMinutes) userID limit) o = true
    · simp only [closeCond, Bool.and_eq_true] at hc
      exact hc.1
    · rw [if_neg hc] at h
      exact absurd rfl h

/-- A value wrapped to `int64` lies in the `int64` range. -/
theorem wrapInt64_bounds (x : Int) :
    -9223372036854775808 ≤ wrapInt64 x ∧ wrapInt64 x < 9223372036854775808 := by
  unfold wrapInt64
  omega

/-- For a timeout of at most 153722867 minutes the computed cut-off is not later
than the clock reading in seconds minus `60 * expireMinutes`: inside the range of the
duration the two are equal, and below it the wrapped duration is shorter than the
one asked for. -/
theorem expireTime_le (now : Time) (expireMinutes : Int) (hhi : expireMinutes ≤ 153722867) :
    expireTime now expireMinutes ≤ now.Unix - 60 * expireMinutes := by
  by_cases hlo : -153722867 ≤ expireMinutes
  · exact le_of_eq (expireTime_of_range now expireMinutes hlo hhi)
  · have hw := (wrapInt64_bounds (wrapInt64 (-expireMinutes) * Minute)).2
    unfold expireTime Time.Add Time.Unix
    simp only
    generalize wrapInt64 (wrapInt64 (-expireMinutes) * Minute) = w at hw ⊢
    omega

/-- For a timeout of 153722868 minutes or more the computed cut-off is later than
the clock reading in seconds minus `60 * expireMinutes`. -/
theorem expireTime_gt_of_overflow (now : Time) (expireMinutes : Int)
    (h : 153722868 ≤ expireMinutes) :
    now.Unix - 60 * expireMinutes < expireTime now expireMinutes := by
  have hw := (wrapInt64_bounds (wrapInt64 (-expireMinutes) * Minute)).1
  unfold expireTime Time.Add Time.Unix
  simp only
  generalize wrapInt64 (wrapInt64 (-expireMinutes) * Minute) = w at hw ⊢
  omega

/-- C10 (counterexample). With `expireMinutes = 153722868` the `int64` product
`-Duration(expireMinutes) * Minute` wraps to a positive duration: at `T0 + 1s` the
sweep closes O1, created at `T0`, although `create_date < now - 60 * expireMinutes`
is false. -/
theorem reclaim_closes_young_order_on_overflow :
    orderO1 ∈ scenarioStore.orders ∧
    ¬ (orderO1.Create_date < timeY.Unix - 60 * 153722868) ∧
    (CloseExpiredOrdersWithMinutes scenarioStore none 100 153722868 timeY timeY).2.2.orders =
      [{ orderO1 with State := -1, Close_date := 1700000001 }] := by
  decide

/-- C10 (amended). For a timeout of at most 153722867 minutes (so that the
duration of the cut-off does not wrap into the future), every order that
`CloseExpiredOrdersWithMinutes` changes had, before the call, `state = 0`
(pending) and `create_date < now - 60 * expireMinutes`, `now` being the clock
reading of the cut-off in seconds, and belonged to the given user when a user scope
was supplied.  `CloseExpiredOrders` is this operation with 5 minutes, so every
order it changes had `create_date < now - 300`. -/
theorem reclaim_spares_young_orders (s : Store) (userID : Option Nat)
    (limit expireMinutes : Int) (now closeNow : Time)
    (hhi : expireMinutes ≤ 153722867) :
    List.Forall₂ (fun o o' => o' ≠ o →
        o.State = OrderStatusPending ∧ o.Create_date < now.Unix - 60 * expireMinutes ∧
        ∀ uid, userID = some uid → o.User_id = uid)
      s.orders
      (CloseExpiredOrdersWithMinutes s userID limit expireMinutes now closeNow).2.2.orders ∧
    CloseExpiredOrders s userID limit now closeNow =
      CloseExpiredOrdersWithMinutes s userID limit 5 now closeNow ∧
    List.Forall₂ (fun o o' => o' ≠ o →
        o.State = OrderStatusPending ∧ o.Create_date < now.Unix - 300)
      s.orders (CloseExpiredOrders s userID limit now closeNow).2.2.orders := by
  have hcond : ∀ (m : Int) (o : Order), m ≤ 153722867 →
      expiredCond (expireTime now m) userID o = true →
      o.State = OrderStatusPending ∧ o.Create_date < now.Unix - 60 * m ∧
        ∀ uid, userID = some uid → o.User_id = uid := by
    intro m o h2 h
    simp only [expiredCond, Bool.and_eq_true, decide_eq_true_eq] at h
    refine ⟨h.1.1, lt_of_lt_of_le h.1.2 (expireTime_le now m h2), fun uid hu => ?_⟩
    subst hu
    simpa using h.2
  refine ⟨?_, rfl, ?_⟩
  · refine List.Forall₂.imp ?_
      (CloseExpiredOrdersWithMinutes_changed s userID limit expireMinutes now closeNow)
    intro o o' h hne
    exact hcond expireMinutes o hhi (h hne)
  · refine List.Forall₂.imp ?_
      (CloseExpiredOrdersWithMinutes_changed s userID limit 5 now closeNow)
    intro o o' h hne
    have := hcond 5 o (by decide) (h hne)
    exact ⟨this.1, by simpa using this.2.1⟩

/-- C10 witness: with the 5-minute timeout on the scenario store, the sweep at
`T0 + 2m` changes nothing (O1, created at `T0`, is too young), and the sweep at
`T0 + 5m30s` closes O1, which was pending and created before `T0 + 30s`; with the
timeout `-153722868`, whose duration wraps, the sweep at `T0 + 5m30s` changes only
rows created before the cut-off asked for. -/
theorem reclaim_spares_young_orders_witness :
    ((5 : Int) ≤ 153722867 ∧ (-153722868 : Int) ≤ 153722867) ∧
    List.Forall₂ (fun o o' => o' ≠ o →
        o.State = OrderStatusPending ∧ o.Create_date < timeB.Unix - 60 * 5 ∧
        ∀ uid, (none : Option Nat) = some uid → o.User_id = uid)
      scenarioStore.orders
      (CloseExpiredOrdersWithMinutes scenarioStore none 100 5 timeB timeB).2.2.orders ∧
    List.Forall₂ (fun o o' => o' ≠ o →
        o.State = OrderStatusPending ∧ o.Create_date < timeB.Unix - 60 * (-153722868) ∧
        ∀ uid, (none : Option Nat) = some uid → o.User_id = uid)
      scenarioStore.orders
      (CloseExpiredOrdersWithMinutes scenarioStore none 100 (-153722868) timeB
        timeB).2.2.orders ∧
    (CloseExpiredOrders scenarioStore none 100 timeA timeA).2.2.orders = scenarioStore.orders ∧
    (CloseExpiredOrders scenarioStore none 100 timeB timeB).2.2.orders =
      [{ orderO1 with State := -1, Close_date := 1700000330 }] :=
  ⟨⟨by decide, by decide⟩,
   (reclaim_spares_young_orders scenarioStore none 100 5 timeB timeB (by decide)).1,
   (reclaim_spares_young_orders scenarioStore none 100 (-153722868) timeB timeB
     (by decide)).1,
   by decide, by decide⟩

/-! ### C11: reclaim effect and frame -/

/-- When the select of the reclaim finds nothing, no row meets the conditions of
its update. -/
theorem closeCond_of_find_nil (s : Store) (expireTime : Int) (userID : Option Nat) (limit : Int)
    (h : findOrdersToClose s expireTime userID limit = []) :
    ∀ o ∈ s.orders,
      closeCond expireTime userID limit (findOrdersToClose s expireTime userID limit) o = false := by
  intro o ho
  rw [h]
  unfold closeCond
  by_cases hl : limit > 0
  · simp [hl]
  · simp only [hl, if_false, Bool.and_true]
    unfold findOrdersToClose at h
    simp only [hl, if_false] at h
    have : o ∉ s.orders.filter (expiredCond expireTime userID) := by rw [h]; simp
    simpa [List.mem_filter, ho] using this

/-- The order table and the count that `CloseExpiredOrdersWithMinutes` returns are
those of its batch update, also when it returns early. -/
theorem CloseExpiredOrdersWithMinutes_update (s : Store) (userID : Option Nat)
    (limit expireMinutes : Int) (now closeNow : Time) :
    (CloseExpiredOrdersWithMinutes s userID limit expireMinutes now closeNow).1 =
      ((s.orders.filter (closeCond (expireTime now expireMinutes) userID limit
        (findOrdersToClose s (expireTime now expireMinutes) userID limit))).length : Int) ∧
    (CloseExpiredOrdersWithMinutes s userID limit expireMinutes now closeNow).2.1 = none ∧
    (CloseExpiredOrdersWithMinutes s userID limit expireMinutes now closeNow).2.2.orders =
      s.orders.map (fun o =>
        if closeCond (expireTime now expireMinutes) userID limit
            (findOrdersToClose s (expireTime now expireMinutes) userID limit) o
        then { o with State := OrderStatusClosed, Close_date := closeNow.Unix } else o) := by
  unfold CloseExpiredOrdersWithMinutes
  simp only
  split
  · rename_i h
    have hnil := List.length_eq_zero.1 h
    have hc := closeCond_of_find_nil s _ userID limit hnil
    refine ⟨?_, rfl, ?_⟩
    · have : s.orders.filter (closeCond (expireTime now expireMinutes) userID limit
          (findOrdersToClose s (expireTime now expireMinutes) userID limit)) = [] := by
        apply List.filter_eq_nil_iff.2
        intro o ho
        simp [hc o ho]
      rw [this]
      rfl
    · symm
      conv_rhs => rw [← List.map_id s.orders]
      apply List.map_congr_left
      intro o ho
      simp [hc o ho]
  · exact ⟨rfl, rfl, rfl⟩

/-- Counting, along a table and its image under a row update, the positions that
satisfy a test on the pair. -/
theorem length_filter_zip_map (l : List Order) (f : Order → Order) (P : Order × Order → Bool)
    (c : Order → Bool) (h : ∀ o, P (o, f o) = c o) :
    ((l.zip (l.map f)).filter P).length = (l.filter c).length := by
  induction l with
  | nil => rfl
  | cons x xs ih =>
    simp only [List.map_cons, List.zip_cons_cons, List.filter_cons, h x]
    cases c x <;> simp [ih]

/-- C11. Reclaim effect and frame.  `CloseExpiredOrdersWithMinutes` returns no
error; every row of the order table is either unchanged, or was pending and is now
the same row with `state = -1` (closed) and `close_date` the clock reading of the
call, every other field (`pay_date` included) as before; and the returned count is
the number of rows whose state went from pending to closed. -/
theorem reclaim_effect_frame (s : Store) (userID : Option Nat)
    (limit expireMinutes : Int) (now closeNow : Time) :
    (CloseExpiredOrdersWithMinutes s userID limit expireMinutes now closeNow).2.1 = none ∧
    List.Forall₂ (fun o o' => o' = o ∨
        (o.State = OrderStatusPending ∧
          o' = { o with State := OrderStatusClosed, Close_date := closeNow.Unix }))
      s.orders
      (CloseExpiredOrdersWithMinutes s userID limit expireMinutes now closeNow).2.2.orders ∧
    (CloseExpiredOrdersWithMinutes s userID limit expireMinutes now closeNow).1 =
      (((s.orders.zip
          (CloseExpiredOrdersWithMinutes s userID limit expireMinutes now closeNow).2.2.orders).filter
        (fun p => decide (p.1.State = OrderStatusPending ∧ p.2.State = OrderStatusClosed))).length
        : Int) := by
  obtain ⟨hcount, herr, hord⟩ :=
    CloseExpiredOrdersWithMinutes_update s userID limit expireMinutes now closeNow
  refine ⟨herr, ?_, ?_⟩
  · rw [hord, List.forall₂_map_right_iff]
    apply List.forall₂_same.2
    intro o _
    split
    · rename_i hc
      simp only [closeCond, expiredCond, Bool.and_eq_true, decide_eq_true_eq] at hc
      exact Or.inr ⟨hc.1.1.1, rfl⟩
    · exact Or.inl rfl
  · rw [hcount, hord]
    congr 1
    symm
    apply length_filter_zip_map
    intro o
    split
    · rename_i hc
      have hst : o.State = OrderStatusPending := by
        simp only [closeCond, expiredCond, Bool.and_eq_true, decide_eq_true_eq] at hc
        exact hc.1.1.1
      simp [hst, hc]
    · rename_i hc
      have hc' : closeCond (expireTime now expireMinutes) userID limit
          (findOrdersToClose s (expireTime now expireMinutes) userID limit) o = false := by
        simpa using hc
      rw [hc']
      simp only [decide_eq_false_iff_not, not_and]
      intro h0 h1
      rw [h0] at h1
      exact absurd h1 (by decide)

/-! ### C12 and C13: the rows a reclaim batch closes -/

/-- In a table with distinct keys, the rows whose key is among the keys of the
first `n` rows are the first `n` rows. -/
theorem filter_id_mem_take (E : List Order) (n : Nat) (hkey : (E.map Order.Id).Nodup) :
    E.filter (fun o => decide (o.Id ∈ (E.take n).map Order.Id)) = E.take n := by
  conv_lhs => enter [2]; rw [← List.take_append_drop n E]
  rw [List.filter_append]
  have h1 : (E.take n).filter (fun o => decide (o.Id ∈ (E.take n).map Order.Id)) = E.take n := by
    apply List.filter_eq_self.2
    intro o ho
    simpa using List.mem_map_of_mem Order.Id ho
  have h2 : (E.drop n).filter (fun o => decide (o.Id ∈ (E.take n).map Order.Id)) = [] := by
    apply List.filter_eq_nil_iff.2
    intro o ho
    have hsplit : ((E.take n).map Order.Id ++ (E.drop n).map Order.Id).Nodup := by
      rw [← List.map_append, List.take_append_drop]; exact hkey
    have hdis := (List.nodup_append.1 hsplit).2.2
    have : o.Id ∉ (E.take n).map Order.Id :=
      fun hmem => hdis hmem (List.mem_map_of_mem Order.Id ho)
    simpa using this
  rw [h1, h2, List.append_nil]

/-- In a table with distinct keys the rows that the batch update of the reclaim
closes are the rows its select returned. -/
theorem filter_closeCond_eq_find (s : Store) (expireTime : Int) (userID : Option Nat)
    (limit : Int) (hkey : (s.orders.map Order.Id).Nodup) :
    s.orders.filter (closeCond expireTime userID limit
        (findOrdersToClose s expireTime userID limit)) =
      findOrdersToClose s expireTime userID limit := by
  unfold closeCond findOrdersToClose
  by_cases hl : limit > 0
  · simp only [hl, if_true]
    have hE : ((s.orders.filter (expiredCond expireTime userID)).map Order.Id).Nodup :=
      List.Nodup.sublist (List.Sublist.map _ (List.filter_sublist _)) hkey
    have h1 := filter_id_mem_take (s.orders.filter (expiredCond expireTime userID)) limit.toNat hE
    rw [List.filter_filter] at h1
    refine Eq.trans ?_ h1
    apply List.filter_congr
    intro o _
    exact Bool.and_comm _ _
  · simp only [hl, if_false, Bool.and_true]

/-- In a table with distinct keys, a row of the table meets the conditions of the
batch update exactly when the select returned it. -/
theorem closeCond_iff_mem_find (s : Store) (expireTime : Int) (userID : Option Nat)
    (limit : Int) (hkey : (s.orders.map Order.Id).Nodup) (o : Order) (ho : o ∈ s.orders) :
    closeCond expireTime userID limit (findOrdersToClose s expireTime userID limit) o = true ↔
      o ∈ findOrdersToClose s expireTime userID limit := by
  conv_rhs => rw [← filter_closeCond_eq_find s expireTime userID limit hkey]
  simp [List.mem_filter, ho]

/-- The lock table that `CloseExpiredOrdersWithMinutes` leaves: the rows whose `oid`
is not the `order_id` of a selected order. -/
theorem CloseExpiredOrdersWithMinutes_tmpPrices (s : Store) (userID : Option Nat)
    (limit expireMinutes : Int) (now closeNow : Time) :
    (CloseExpiredOrdersWithMinutes s userID limit expireMinutes now closeNow).2.2.tmpPrices =
      s.tmpPrices.filter (fun t => !decide (t.Oid ∈
        (findOrdersToClose s (expireTime now expireMinutes) userID limit).map Order.Order_id)) := by
  unfold CloseExpiredOrdersWithMinutes
  simp only
  split
  · rename_i h
    rw [List.length_eq_zero.1 h]
    simp
  · rename_i h
    have hpos : (closeUpdate s.orders (expireTime now expireMinutes) userID limit
        (findOrdersToClose s (expireTime now expireMinutes) userID limit) closeNow.Unix).1 > 0 := by
      simp only [closeUpdate]
      obtain ⟨x, hx⟩ := List.exists_mem_of_length_pos (Nat.pos_of_ne_zero h)
      have hx' : x ∈ s.orders.filter (closeCond (expireTime now expireMinutes) userID limit
          (findOrdersToClose s (expireTime now expireMinutes) userID limit)) := by
        have hsub : x ∈ s.orders.filter (expiredCond (expireTime now expireMinutes) userID) := by
          unfold findOrdersToClose at hx
          simp only at hx
          split at hx
          · exact List.mem_of_mem_take hx
          · exact hx
        simp only [List.mem_filter] at hsub
        simp only [List.mem_filter, closeCond, Bool.and_eq_true, hsub.1, hsub.2, true_and]
        split
        · simpa using List.mem_map_of_mem Order.Id hx
        · rfl
      have := List.length_pos_of_mem hx'
      exact_mod_cast this
    simp only [hpos, if_true]

/-- C12. Reclaim releases the amount lock.  For an order table with distinct keys:
after `CloseExpiredOrdersWithMinutes` no `tmp_price` row has the `order_id` of a row
the call changed as its `oid`; and the lock table it leaves is the one before
without the rows whose `oid` is the `order_id` of a selected order, the other rows
unchanged and in place. -/
theorem reclaim_releases_lock (s : Store) (userID : Option Nat)
    (limit expireMinutes : Int) (now closeNow : Time)
    (hkey : (s.orders.map Order.Id).Nodup) :
    List.Forall₂ (fun o o' => o' ≠ o →
        ∀ t ∈ (CloseExpiredOrdersWithMinutes s userID limit expireMinutes
          now closeNow).2.2.tmpPrices, t.Oid ≠ o.Order_id)
      s.orders
      (CloseExpiredOrdersWithMinutes s userID limit expireMinutes now closeNow).2.2.orders ∧
    (CloseExpiredOrdersWithMinutes s userID limit expireMinutes now closeNow).2.2.tmpPrices =
      s.tmpPrices.filter (fun t => !decide (t.Oid ∈
        (findOrdersToClose s (expireTime now expireMinutes) userID limit).map Order.Order_id)) := by
  have htmp := CloseExpiredOrdersWithMinutes_tmpPrices s userID limit expireMinutes now closeNow
  refine ⟨?_, htmp⟩
  rw [htmp, (CloseExpiredOrdersWithMinutes_update s userID limit expireMinutes now closeNow).2.2,
    List.forall₂_map_right_iff]
  apply List.forall₂_same.2
  intro o ho hne t ht
  by_cases hc : closeCond (expireTime now expireMinutes) userID limit
      (findOrdersToClose s (expireTime now expireMinutes) userID limit) o = true
  · have hmem := (closeCond_iff_mem_find s _ userID limit hkey o ho).1 hc
    simp only [List.mem_filter, Bool.not_eq_true', decide_eq_false_iff_not] at ht
    intro heq
    exact ht.2 (heq ▸ List.mem_map_of_mem Order.Order_id hmem)
  · rw [if_neg hc] at hne
    exact absurd rfl hne

/-- C12 witness: on the backlog, a batch of at most 2 at `T0 + 2m` closes A and B;
their locks are gone, those of C and X are left as they were. -/
theorem reclaim_releases_lock_witness :
    (backlogStore.orders.map Order.Id).Nodup ∧
    List.Forall₂ (fun o o' => o' ≠ o →
        ∀ t ∈ (CloseExpiredOrdersWithMinutes backlogStore none 2 5 timeA timeA).2.2.tmpPrices,
          t.Oid ≠ o.Order_id)
      backlogStore.orders
      (CloseExpiredOrdersWithMinutes backlogStore none 2 5 timeA timeA).2.2.orders ∧
    (CloseExpiredOrdersWithMinutes backlogStore none 2 5 timeA timeA).2.2.orders =
      [{ orderA with State := -1, Close_date := 1700000120 },
       { orderB with State := -1, Close_date := 1700000120 }, orderC, orderD] ∧
    (CloseExpiredOrdersWithMinutes backlogStore none 2 5 timeA timeA).2.2.tmpPrices =
      [⟨"1-1.05", "C"⟩, ⟨"1-1.02", "X"⟩] :=
  ⟨by decide,
   (reclaim_releases_lock backlogStore none 2 5 timeA timeA (by decide)).1,
   by decide, by decide⟩

/-- C13. Reclaim batch bound.  For an order table with distinct keys and
`limit > 0`, the count that `CloseExpiredOrdersWithMinutes` returns is at most
`limit`, and it is the smaller of `limit` and the number of rows that meet the
conditions of its query (pending, created before the cut-off, in scope).  The
sweep of the scheduler hands the request `User_id = nil, Limit = 100` to the order
service. -/
theorem reclaim_batch_bound (s : Store) (userID : Option Nat)
    (limit expireMinutes : Int) (now closeNow : Time)
    (hkey : (s.orders.map Order.Id).Nodup) (hl : limit > 0) :
    (CloseExpiredOrdersWithMinutes s userID limit expireMinutes now closeNow).1 ≤ limit ∧
    (CloseExpiredOrdersWithMinutes s userID limit expireMinutes now closeNow).1 =
      min limit
        ((s.orders.filter (expiredCond (expireTime now expireMinutes) userID)).length : Int) ∧
    (∀ (σ : Type) (CloseExpiredOrders : CloseExpiredOrdersRequest → σ → (Int × Option Err) × σ)
        (w : σ),
      Scheduler.closeExpiredOrders CloseExpiredOrders w =
        (CloseExpiredOrders { User_id := none, Limit := 100 } w).2) := by
  have hcount := (CloseExpiredOrdersWithMinutes_update s userID limit expireMinutes
    now closeNow).1
  rw [filter_closeCond_eq_find s _ userID limit hkey] at hcount
  have hlen : ((findOrdersToClose s (expireTime now expireMinutes) userID limit).length : Int) =
      min limit
        ((s.orders.filter (expiredCond (expireTime now expireMinutes) userID)).length : Int) := by
    unfold findOrdersToClose
    simp only [hl, if_true, List.length_take]
    omega
  rw [hcount, hlen]
  exact ⟨min_le_left _ _, rfl, fun _ _ _ => rfl⟩

/-- C13 witness: on the backlog three rows are eligible at `T0 + 2m`; a batch of at
most 2 returns 2, a batch of at most 100 returns 3. -/
theorem reclaim_batch_bound_witness :
    ((backlogStore.orders.map Order.Id).Nodup ∧ (2 : Int) > 0) ∧
    (backlogStore.orders.filter (expiredCond (expireTime timeA 5) none)).length = 3 ∧
    (CloseExpiredOrdersWithMinutes backlogStore none 2 5 timeA timeA).1 ≤ 2 ∧
    (CloseExpiredOrdersWithMinutes backlogStore none 2 5 timeA timeA).1 = 2 ∧
    (CloseExpiredOrdersWithMinutes backlogStore none 100 5 timeA timeA).1 = 3 :=
  ⟨⟨by decide, by decide⟩, by decide,
   (reclaim_batch_bound backlogStore none 2 5 timeA timeA (by decide) (by decide)).1,
   by decide, by decide⟩

/-! ### C14: forward progress of the reclaim -/

/-- Every row that the select of the reclaim returned meets the conditions of its
batch update. -/
theorem closeCond_of_mem_find (s : Store) (expireTime : Int) (userID : Option Nat)
    (limit : Int) (x : Order) (hx : x ∈ findOrdersToClose s expireTime userID limit) :
    closeCond expireTime userID limit (findOrdersToClose s expireTime userID limit) x = true := by
  have hsub : x ∈ s.orders.filter (expiredCond expireTime userID) := by
    unfold findOrdersToClose at hx
    simp only at hx
    split at hx
    · exact List.mem_of_mem_take hx
    · exact hx
  simp only [closeCond, Bool.and_eq_true, (List.mem_filter.1 hsub).2, true_and]
  split
  · simpa using List.mem_map_of_mem Order.Id hx
  · rfl

/-- The batch update of the reclaim closes at least the rows its select returned. -/
theorem length_find_le (s : Store) (expireTime : Int) (userID : Option Nat) (limit : Int) :
    (findOrdersToClose s expireTime userID limit).length ≤
      (s.orders.filter (closeCond expireTime userID limit
        (findOrdersToClose s expireTime userID limit))).length := by
  have hsub : (findOrdersToClose s expireTime userID limit).Sublist s.orders := by
    unfold findOrdersToClose
    simp only
    split
    · exact (List.take_sublist _ _).trans (List.filter_sublist _)
    · exact List.filter_sublist _
  have h := (hsub.filter (closeCond expireTime userID limit
    (findOrdersToClose s expireTime userID limit))).length_le
  rw [List.filter_eq_self.2 (fun x hx => closeCond_of_mem_find s expireTime userID limit x hx)]
    at h
  exact h

/-- Rows that pass a test, before and after an update that makes the updated rows
fail it. -/
theorem length_filter_map_add (l : List Order) (f : Order → Order) (ex cc : Order → Bool)
    (hcc : ∀ o, cc o = true → ex o = true)
    (hf : ∀ o, ex (f o) = (ex o && !cc o)) :
    ((l.map f).filter ex).length + (l.filter cc).length = (l.filter ex).length := by
  induction l with
  | nil => rfl
  | cons x xs ih =>
    simp only [List.map_cons, List.filter_cons, hf x]
    cases hc : cc x
    · cases ex x <;> simp <;> omega
    · simp [hcc x hc]
      omega

/-- The number of rows that meet the conditions of the reclaim query drops by the
count the call returns. -/
theorem eligible_after_close (s : Store) (userID : Option Nat)
    (limit expireMinutes : Int) (now closeNow : Time) :
    (((CloseExpiredOrdersWithMinutes s userID limit expireMinutes now closeNow).2.2.orders.filter
        (expiredCond (expireTime now expireMinutes) userID)).length : Int) =
      ((s.orders.filter (expiredCond (expireTime now expireMinutes) userID)).length : Int) -
        (CloseExpiredOrdersWithMinutes s userID limit expireMinutes now closeNow).1 := by
  obtain ⟨hcount, -, hord⟩ :=
    CloseExpiredOrdersWithMinutes_update s userID limit expireMinutes now closeNow
  rw [hcount, hord]
  have := length_filter_map_add s.orders
    (fun o =>
      if closeCond (expireTime now expireMinutes) userID limit
          (findOrdersToClose s (expireTime now expireMinutes) userID limit) o
      then { o with State := OrderStatusClosed, Close_date := closeNow.Unix } else o)
    (expiredCond (expireTime now expireMinutes) userID)
    (closeCond (expireTime now expireMinutes) userID limit
      (findOrdersToClose s (expireTime now expireMinutes) userID limit))
    (fun o h => by
      simp only [closeCond, Bool.and_eq_true] at h
      exact h.1)
    (fun o => by
      by_cases hc : closeCond (expireTime now expireMinutes) userID limit
          (findOrdersToClose s (expireTime now expireMinutes) userID limit) o = true
      · simp only [if_pos hc, hc]
        simp [expiredCond, OrderStatusClosed, OrderStatusPending]
      · simp only [if_neg hc]
        simp [hc])
  omega

/-- After `k` calls with `limit > 0` at most `n - k * limit` rows still meet the
conditions of the query, `n` being their number before. -/
theorem eligible_after_closeRepeatedly (userID : Option Nat) (limit expireMinutes : Int)
    (now closeNow : Time) (hl : limit > 0) (k : Nat) : ∀ s : Store,
    ((closeRepeatedly userID limit expireMinutes now closeNow k s).orders.filter
        (expiredCond (expireTime now expireMinutes) userID)).length ≤
      (s.orders.filter (expiredCond (expireTime now expireMinutes) userID)).length -
        k * limit.toNat := by
  induction k with
  | zero => intro s; simp [closeRepeatedly]
  | succ k ih =>
    intro s
    simp only [closeRepeatedly]
    have h1 := ih (CloseExpiredOrdersWithMinutes s userID limit expireMinutes now closeNow).2.2
    have h2 := eligible_after_close s userID limit expireMinutes now closeNow
    have h3 := (CloseExpiredOrdersWithMinutes_update s userID limit expireMinutes
      now closeNow).1
    have h4 := length_find_le s (expireTime now expireMinutes) userID limit
    have h5 : (findOrdersToClose s (expireTime now expireMinutes) userID limit).length =
        min limit.toNat
          (s.orders.filter (expiredCond (expireTime now expireMinutes) userID)).length := by
      unfold findOrdersToClose
      simp only [hl, if_true, List.length_take]
    rw [Nat.add_mul, Nat.one_mul]
    omega

/-- With `limit > 0` a call closes at least as many rows as the smaller of `limit`
and the number of eligible rows. -/
theorem count_ge_min (s : Store) (userID : Option Nat) (limit expireMinutes : Int)
    (now closeNow : Time) (hl : limit > 0) :
    min limit ((s.orders.filter (expiredCond (expireTime now expireMinutes) userID)).length : Int)
      ≤ (CloseExpiredOrdersWithMinutes s userID limit expireMinutes now closeNow).1 := by
  have h3 := (CloseExpiredOrdersWithMinutes_update s userID limit expireMinutes
    now closeNow).1
  have h4 := length_find_le s (expireTime now expireMinutes) userID limit
  have h5 : (findOrdersToClose s (expireTime now expireMinutes) userID limit).length =
      min limit.toNat
        (s.orders.filter (expiredCond (expireTime now expireMinutes) userID)).length := by
    unfold findOrdersToClose
    simp only [hl, if_true, List.length_take]
  rw [h3]
  omega

/-- A call of the reclaim on a store without eligible rows returns 0 and leaves the
store as it is. -/
theorem CloseExpiredOrdersWithMinutes_of_none (s : Store) (userID : Option Nat)
    (limit expireMinutes : Int) (now closeNow : Time)
    (h0 : s.orders.filter (expiredCond (expireTime now expireMinutes) userID) = []) :
    CloseExpiredOrdersWithMinutes s userID limit expireMinutes now closeNow = (0, none, s) := by
  have hnil : findOrdersToClose s (expireTime now expireMinutes) userID limit = [] := by
    unfold findOrdersToClose
    simp [h0]
  unfold CloseExpiredOrdersWithMinutes
  simp [hnil]

/-- C14. Forward progress.  With the clock readings fixed and `limit > 0`: a call
of `CloseExpiredOrdersWithMinutes` lowers the number of eligible rows (pending,
created before the cut-off the call computes, in scope) by exactly the count it
returns, and that count is at least the smaller of `limit` and the number `n` of
eligible rows (and at most `n`), so a call on a store with eligible rows closes
some.  After `k` calls at most `n - k * limit` rows are eligible; hence if
`n ≤ k * limit` (that is, `k` is at least `n / limit` rounded up), after `k` calls
no row is eligible, and a further call returns 0 and changes nothing.  A call
leaves the state and the `close_date` of a closed row as they are.  For a timeout
inside the `int64` range of the duration, the eligible rows are the pending rows in
scope with `create_date < now - 60 * expireMinutes`. -/
theorem reclaim_progress (s : Store) (userID : Option Nat)
    (limit expireMinutes : Int) (now closeNow : Time) (hl : limit > 0) :
    ((((CloseExpiredOrdersWithMinutes s userID limit expireMinutes now closeNow).2.2.orders.filter
        (expiredCond (expireTime now expireMinutes) userID)).length : Int) =
      ((s.orders.filter (expiredCond (expireTime now expireMinutes) userID)).length : Int) -
        (CloseExpiredOrdersWithMinutes s userID limit expireMinutes now closeNow).1) ∧
    (min limit ((s.orders.filter (expiredCond (expireTime now expireMinutes) userID)).length : Int)
        ≤ (CloseExpiredOrdersWithMinutes s userID limit expireMinutes now closeNow).1 ∧
      (CloseExpiredOrdersWithMinutes s userID limit expireMinutes now closeNow).1 ≤
        ((s.orders.filter (expiredCond (expireTime now expireMinutes) userID)).length : Int)) ∧
    (∀ k : Nat,
      ((closeRepeatedly userID limit expireMinutes now closeNow k s).orders.filter
          (expiredCond (expireTime now expireMinutes) userID)).length ≤
        (s.orders.filter (expiredCond (expireTime now expireMinutes) userID)).length -
          k * limit.toNat) ∧
    (∀ k : Nat,
      (s.orders.filter (expiredCond (expireTime now expireMinutes) userID)).length
        ≤ k * limit.toNat →
      (closeRepeatedly userID limit expireMinutes now closeNow k s).orders.filter
        (expiredCond (expireTime now expireMinutes) userID) = [] ∧
      (CloseExpiredOrdersWithMinutes
        (closeRepeatedly userID limit expireMinutes now closeNow k s)
        userID limit expireMinutes now closeNow).1 = 0 ∧
      (CloseExpiredOrdersWithMinutes
        (closeRepeatedly userID limit expireMinutes now closeNow k s)
        userID limit expireMinutes now closeNow).2.2 =
          closeRepeatedly userID limit expireMinutes now closeNow k s) ∧
    List.Forall₂ (fun o o' => o.State = OrderStatusClosed →
        o'.State = o.State ∧ o'.Close_date = o.Close_date)
      s.orders
      (CloseExpiredOrdersWithMinutes s userID limit expireMinutes now closeNow).2.2.orders ∧
    (-153722867 ≤ expireMinutes → expireMinutes ≤ 153722867 → ∀ o : Order,
      (expiredCond (expireTime now expireMinutes) userID o = true ↔
        o.State = OrderStatusPending ∧ o.Create_date < now.Unix - 60 * expireMinutes ∧
        ∀ uid, userID = some uid → o.User_id = uid)) := by
  have hdrop := eligible_after_close s userID limit expireMinutes now closeNow
  refine ⟨hdrop, ⟨count_ge_min s userID limit expireMinutes now closeNow hl, by omega⟩,
    fun k => eligible_after_closeRepeatedly userID limit expireMinutes now closeNow hl k s,
    ?_, ?_, ?_⟩
  · intro k hk
    have h1 := eligible_after_closeRepeatedly userID limit expireMinutes now closeNow hl k s
    have h0 : (closeRepeatedly userID limit expireMinutes now closeNow k s).orders.filter
        (expiredCond (expireTime now expireMinutes) userID) = [] :=
      List.length_eq_zero.1 (by omega)
    have hcall := CloseExpiredOrdersWithMinutes_of_none
      (closeRepeatedly userID limit expireMinutes now closeNow k s) userID limit expireMinutes
      now closeNow h0
    refine ⟨h0, ?_, ?_⟩
    · rw [hcall]
    · rw [hcall]
  · refine List.Forall₂.imp ?_
      (CloseExpiredOrdersWithMinutes_changed s userID limit expireMinutes now closeNow)
    intro o o' h hclosed
    by_cases hne : o' = o
    · rw [hne]; exact ⟨rfl, rfl⟩
    · have := h hne
      simp only [expiredCond, Bool.and_eq_true, decide_eq_true_eq] at this
      rw [this.1.1] at hclosed
      exact absurd hclosed (by decide)
  · intro hlo hhi o
    rw [expireTime_of_range now expireMinutes hlo hhi]
    simp only [expiredCond, Bool.and_eq_true, decide_eq_true_eq]
    constructor
    · rintro ⟨⟨h1, h2⟩, h3⟩
      refine ⟨h1, h2, fun uid hu => ?_⟩
      subst hu
      simpa using h3
    · rintro ⟨h1, h2, h3⟩
      refine ⟨⟨h1, h2⟩, ?_⟩
      cases userID with
      | none => rfl
      | some u => simpa using h3 u rfl

/-- C14 witness: on the backlog three rows are eligible at `T0 + 2m`; with
`limit = 2` the calls return 2, then 1; after these two calls no row is eligible and
a further call returns 0. -/
theorem reclaim_progress_witness :
    ((2 : Int) > 0 ∧
      (backlogStore.orders.filter (expiredCond (expireTime timeA 5) none)).length ≤ 2 * 2) ∧
    (backlogStore.orders.filter (expiredCond (expireTime timeA 5) none)).length = 3 ∧
    (CloseExpiredOrdersWithMinutes backlogStore none 2 5 timeA timeA).1 = 2 ∧
    (CloseExpiredOrdersWithMinutes (closeRepeatedly none 2 5 timeA timeA 1 backlogStore)
      none 2 5 timeA timeA).1 = 1 ∧
    ((closeRepeatedly none 2 5 timeA timeA 2 backlogStore).orders.filter
        (expiredCond (expireTime timeA 5) none) = [] ∧
      (CloseExpiredOrdersWithMinutes (closeRepeatedly none 2 5 timeA timeA 2 backlogStore)
        none 2 5 timeA timeA).1 = 0 ∧
      (CloseExpiredOrdersWithMinutes (closeRepeatedly none 2 5 timeA timeA 2 backlogStore)
        none 2 5 timeA timeA).2.2 = closeRepeatedly none 2 5 timeA timeA 2 backlogStore) :=
  ⟨⟨by decide, by decide⟩, by decide, by decide, by decide,
   (reclaim_progress backlogStore none 2 5 timeA timeA (by decide)).2.2.2.1 2 (by decide)⟩

/-! ### C15 and C16: the liveness sweep -/

/-- A value that `ParseInt` returns is an `int64`. -/
theorem ParseInt_range (v : String) (h : Int) (hp : ParseInt v = some h) :
    -9223372036854775808 ≤ h ∧ h < 9223372036854775808 := by
  unfold ParseInt at hp
  split at hp
  · exact absurd hp (by simp)
  · split at hp
    · split at hp
      · split at hp
        · simp only [Option.some.injEq] at hp
          omega
        · exact absurd hp (by simp)
      · exact absurd hp (by simp)
    · split at hp
      · split at hp
        · simp only [Option.some.injEq] at hp
          omega
        · exact absurd hp (by simp)
      · exact absurd hp (by simp)

/-- The loop body of the sweep writes `jkstate = "0"` for the account of the row
when `marksOffline` holds of its value, and does nothing otherwise. -/
theorem checkMonitorRow_eq (currentTime : Int) (s : Store) (row : Setting) :
    checkMonitorRow currentTime s row =
      if marksOffline currentTime row.Vvalue = true
      then (UpdateSetting s row.User_id "jkstate" "0").2 else s := by
  unfold checkMonitorRow marksOffline
  by_cases h0 : row.Vvalue = ""
  · simp [h0]
  · simp only [h0, if_false, decide_False, Bool.false_or]
    cases ParseInt row.Vvalue with
    | none => simp
    | some heartTime =>
      simp only
      by_cases h1 : heartTime ≤ 0
      · simp [h1]
      · by_cases h2 : wrapInt64 (currentTime - heartTime) ≥ heartbeatTimeout
        · simp [h1, h2]
        · simp [h1, h2]

/-- The rule of the sweep in words: for a clock reading that is a non-negative
`int64`, a `lastheart` value is marked offline exactly when it is empty, or does not
parse, or parses to a value `≤ 0`, or is at least 180 seconds old. -/
theorem marksOffline_iff (t : Int) (v : String) (h0 : 0 ≤ t) (h1 : t < 9223372036854775808) :
    marksOffline t v = true ↔
      (v = "" ∨ ParseInt v = none ∨ ∃ h, ParseInt v = some h ∧ (h ≤ 0 ∨ t - h ≥ 180)) := by
  unfold marksOffline
  cases hp : ParseInt v with
  | none => simp
  | some h =>
    obtain ⟨hlo, hhi⟩ := ParseInt_range v h hp
    simp only [Bool.or_eq_true, decide_eq_true_eq, reduceCtorEq, Option.some.injEq,
      exists_eq_left', false_or]
    by_cases hpos : h ≤ 0
    · simp [hpos]
    · have hw : wrapInt64 (t - h) = t - h := wrapInt64_of_range _ (by omega) (by omega)
      rw [hw]
      simp [hpos, heartbeatTimeout]

/-- The store after the sweep has visited the rows `L`: every `jkstate` row of an
account with a marked row in `L` holds `"0"`, and nothing else has changed. -/
theorem foldl_checkMonitorRow (t : Int) (L : List Setting) : ∀ s : Store,
    L.foldl (checkMonitorRow t) s =
      { s with settings := s.settings.map (fun r =>
          if r.Vkey = "jkstate" ∧
            L.any (fun l => decide (l.User_id = r.User_id) && marksOffline t l.Vvalue) = true
          then { r with Vvalue := "0" } else r) } := by
  induction L with
  | nil =>
    intro s
    cases s
    simp
  | cons l L ih =>
    intro s
    rw [List.foldl_cons, checkMonitorRow_eq, ih]
    by_cases hm : marksOffline t l.Vvalue = true
    · simp only [hm, if_true, UpdateSetting, List.map_map, List.any_cons, Bool.and_true]
      congr 1
      apply List.map_congr_left
      intro r _
      by_cases hk : r.Vkey = "jkstate"
      · by_cases hu : r.User_id = l.User_id
        · simp [hk, hu]
        · have hu' : ¬ l.User_id = r.User_id := fun h => hu h.symm
          simp [hk, hu, hu']
      · simp [hk]
    · simp only [hm, if_false, List.any_cons]
      congr 1
      apply List.map_congr_left
      intro r _
      have : marksOffline t l.Vvalue = false := by simpa using hm
      simp [this]

/-- The sweep as one update of the settings table. -/
theorem CheckAndUpdateMonitorStatus_eq (s : Store) (now : Time) :
    CheckAndUpdateMonitorStatus s now =
      (none, { s with settings := s.settings.map (fun r =>
        if r.Vkey = "jkstate" ∧ ∃ l ∈ s.settings, l.Vkey = "lastheart" ∧
            l.User_id = r.User_id ∧ marksOffline now.Unix l.Vvalue = true
        then { r with Vvalue := "0" } else r) }) := by
  unfold CheckAndUpdateMonitorStatus GetAllSettingsByKey
  simp only [foldl_checkMonitorRow]
  congr 2
  apply List.map_congr_left
  intro r _
  have : ((s.settings.filter (fun r => decide (r.Vkey = "lastheart"))).any
        (fun l => decide (l.User_id = r.User_id) && marksOffline now.Unix l.Vvalue) = true) ↔
      ∃ l ∈ s.settings, l.Vkey = "lastheart" ∧ l.User_id = r.User_id ∧
        marksOffline now.Unix l.Vvalue = true := by
    simp only [List.any_eq_true, List.mem_filter, decide_eq_true_eq, Bool.and_eq_true]
    constructor
    · rintro ⟨l, ⟨hl, hk⟩, hu, hm⟩
      exact ⟨l, hl, hk, hu, hm⟩
    · rintro ⟨l, hl, hk, hu, hm⟩
      exact ⟨l, ⟨hl, hk⟩, hu, hm⟩
  simp only [this]

/-- C15. The liveness sweep, for a clock reading `now` that is a non-negative
`int64`.  A `lastheart` value is marked (`marksOffline`) exactly when it is empty,
or does not parse as a base-10 integer, or parses to a value `≤ 0`, or
`now - lastheart ≥ 180`.  The sweep returns nil.  Every `jkstate` row of an
account that has a marked `lastheart` row becomes `"0"`; the rows of an account
none of whose `lastheart` rows is marked are unchanged.  Every row is either
unchanged or a `jkstate` row now holding `"0"`: the sweep never writes `"1"` and
never changes `lastheart` or `lastpay`, and it leaves the other tables alone.
Hence after the sweep, an account whose `jkstate` reads `"1"` has every `lastheart`
row parse to an `h > 0` with `now - h < 180`. -/
theorem sweep_rule (s : Store) (now : Time)
    (h0 : 0 ≤ now.Unix) (h1 : now.Unix < 9223372036854775808) :
    (∀ v : String, marksOffline now.Unix v = true ↔
      (v = "" ∨ ParseInt v = none ∨
        ∃ h, ParseInt v = some h ∧ (h ≤ 0 ∨ now.Unix - h ≥ 180))) ∧
    (CheckAndUpdateMonitorStatus s now).1 = none ∧
    (∀ u : Nat,
      (∃ l ∈ s.settings, l.Vkey = "lastheart" ∧ l.User_id = u ∧
        marksOffline now.Unix l.Vvalue = true) →
      List.Forall₂ (fun x y => x.Vkey = "jkstate" → x.User_id = u →
          y = { x with Vvalue := "0" })
        s.settings (CheckAndUpdateMonitorStatus s now).2.settings) ∧
    (∀ u : Nat,
      (∀ l ∈ s.settings, l.Vkey = "lastheart" → l.User_id = u →
        marksOffline now.Unix l.Vvalue = false) →
      List.Forall₂ (fun x y => x.User_id = u → y = x)
        s.settings (CheckAndUpdateMonitorStatus s now).2.settings) ∧
    List.Forall₂ (fun x y => y = x ∨ (x.Vkey = "jkstate" ∧ y = { x with Vvalue := "0" }))
      s.settings (CheckAndUpdateMonitorStatus s now).2.settings ∧
    ((CheckAndUpdateMonitorStatus s now).2.merchants = s.merchants ∧
      (CheckAndUpdateMonitorStatus s now).2.orders = s.orders ∧
      (CheckAndUpdateMonitorStatus s now).2.tmpPrices = s.tmpPrices) ∧
    (∀ (u : Nat) (l j : Setting),
      l ∈ (CheckAndUpdateMonitorStatus s now).2.settings → l.Vkey = "lastheart" →
      l.User_id = u →
      j ∈ (CheckAndUpdateMonitorStatus s now).2.settings → j.Vkey = "jkstate" →
      j.User_id = u → j.Vvalue = "1" →
      ∃ h, ParseInt l.Vvalue = some h ∧ 0 < h ∧ now.Unix - h < 180) := by
  have hrule := fun v => marksOffline_iff now.Unix v h0 h1
  rw [CheckAndUpdateMonitorStatus_eq]
  refine ⟨hrule, rfl, ?_, ?_, ?_, ⟨rfl, rfl, rfl⟩, ?_⟩
  · rintro u ⟨l, hl, hk, hu, hm⟩
    simp only [List.forall₂_map_right_iff]
    apply List.forall₂_same.2
    intro x _ hxk hxu
    have : x.Vkey = "jkstate" ∧ ∃ l ∈ s.settings, l.Vkey = "lastheart" ∧
        l.User_id = x.User_id ∧ marksOffline now.Unix l.Vvalue = true :=
      ⟨hxk, l, hl, hk, hu.trans hxu.symm, hm⟩
    rw [if_pos this]
  · intro u hfresh
    simp only [List.forall₂_map_right_iff]
    apply List.forall₂_same.2
    intro x _ hxu
    have : ¬ (x.Vkey = "jkstate" ∧ ∃ l ∈ s.settings, l.Vkey = "lastheart" ∧
        l.User_id = x.User_id ∧ marksOffline now.Unix l.Vvalue = true) := by
      rintro ⟨-, l, hl, hk, hu, hm⟩
      have := hfresh l hl hk (hu.trans hxu)
      rw [this] at hm
      exact absurd hm (by decide)
    rw [if_neg this]
  · simp only [List.forall₂_map_right_iff]
    apply List.forall₂_same.2
    intro x _
    split
    · rename_i h
      exact Or.inr ⟨h.1, rfl⟩
    · exact Or.inl rfl
  · intro u l j hl hlk hlu hj hjk hju hjv
    simp only [List.mem_map] at hl hj
    obtain ⟨l0, hl0, hl0e⟩ := hl
    obtain ⟨j0, hj0, hj0e⟩ := hj
    -- the `lastheart` row is a row of the store before
    have hl0k : l0.Vkey = "lastheart" := by
      rw [← hl0e] at hlk
      split at hlk <;> exact hlk
    have hl0eq : l0 = l := by
      rw [← hl0e, if_neg]
      rintro ⟨h, -⟩
      rw [hl0k] at h
      exact absurd h (by decide)
    subst hl0eq
    -- the `jkstate` row was not rewritten
    have hfresh : ¬ marksOffline now.Unix l0.Vvalue = true := by
      intro hm
      have hj0k : j0.Vkey = "jkstate" := by
        rw [← hj0e] at hjk
        split at hjk <;> exact hjk
      have hj0u : j0.User_id = u := by
        rw [← hj0e] at hju
        split at hju <;> exact hju
      have : j0.Vkey = "jkstate" ∧ ∃ l ∈ s.settings, l.Vkey = "lastheart" ∧
          l.User_id = j0.User_id ∧ marksOffline now.Unix l.Vvalue = true :=
        ⟨hj0k, l0, hl0, hl0k, hlu.trans hj0u.symm, hm⟩
      rw [if_pos this] at hj0e
      rw [← hj0e] at hjv
      have h01 : ("0" : String) ≠ "1" := by decide
      exact h01 hjv
    rw [hrule l0.Vvalue] at hfresh
    simp only [not_or] at hfresh
    obtain ⟨-, hparse, hex⟩ := hfresh
    cases hp : ParseInt l0.Vvalue with
    | none => exact absurd hp hparse
    | some h =>
      refine ⟨h, rfl, ?_, ?_⟩
      · by_contra hneg
        exact hex ⟨h, hp, Or.inl (by omega)⟩
      · by_contra hneg
        exact hex ⟨h, hp, Or.inr (by omega)⟩

/-- C15 witness: on the store with two online accounts, the sweep at `T0 + 3m20s`
leaves account 1 (heartbeat 80 seconds old) as it is and sets the `jkstate` of
account 2 (heartbeat 200 seconds old) to `"0"`. -/
theorem sweep_rule_witness :
    (0 ≤ timeS.Unix ∧ timeS.Unix < 9223372036854775808) ∧
    (CheckAndUpdateMonitorStatus onlineStore timeS).1 = none ∧
    (CheckAndUpdateMonitorStatus onlineStore timeS).2.settings =
      [⟨1, "key", "abc"⟩, ⟨1, "lastheart", "1700000120"⟩, ⟨1, "lastpay", ""⟩,
       ⟨1, "jkstate", "1"⟩,
       ⟨2, "key", "k2"⟩, ⟨2, "lastheart", "1700000000"⟩, ⟨2, "lastpay", ""⟩,
       ⟨2, "jkstate", "0"⟩] :=
  ⟨⟨by decide, by decide⟩,
   (sweep_rule onlineStore timeS (by decide) (by decide)).2.1,
   by decide⟩

/-- The sweep keeps the `lastheart` rows: the marked accounts of the store it leaves
are those of the store it was given. -/
theorem marked_after_sweep (s : Store) (now t : Time) (u : Nat) :
    (∃ l ∈ (CheckAndUpdateMonitorStatus s now).2.settings, l.Vkey = "lastheart" ∧
        l.User_id = u ∧ marksOffline t.Unix l.Vvalue = true) ↔
      (∃ l ∈ s.settings, l.Vkey = "lastheart" ∧ l.User_id = u ∧
        marksOffline t.Unix l.Vvalue = true) := by
  rw [CheckAndUpdateMonitorStatus_eq]
  simp only [List.mem_map]
  constructor
  · rintro ⟨l, ⟨l0, hl0, hl0e⟩, hk, hu, hm⟩
    have hl0k : l0.Vkey = "lastheart" := by
      rw [← hl0e] at hk
      split at hk <;> exact hk
    have hl0eq : l0 = l := by
      rw [← hl0e, if_neg]
      rintro ⟨h, -⟩
      rw [hl0k] at h
      exact absurd h (by decide)
    subst hl0eq
    exact ⟨l0, hl0, hk, hu, hm⟩
  · rintro ⟨l, hl, hk, hu, hm⟩
    refine ⟨l, ⟨l, hl, ?_⟩, hk, hu, hm⟩
    rw [if_neg]
    rintro ⟨h, -⟩
    rw [hk] at h
    exact absurd h (by decide)

/-- C16. The liveness sweep is idempotent and monotone in time.  Running the sweep
twice at the same clock reading gives the result and the store of running it once.
After a sweep at `now1` followed, with nothing in between, by a sweep at `now2`,
every `jkstate` row of an account that the first sweep marked holds `"0"`.  And the
rule itself is monotone: for non-negative `int64` readings `now1 ≤ now2`, a
`lastheart` value marked at `now1` is marked at `now2`. -/
theorem sweep_idempotent_monotone (s : Store) (now1 now2 : Time) :
    CheckAndUpdateMonitorStatus (CheckAndUpdateMonitorStatus s now1).2 now1 =
      CheckAndUpdateMonitorStatus s now1 ∧
    (∀ u : Nat,
      (∃ l ∈ s.settings, l.Vkey = "lastheart" ∧ l.User_id = u ∧
        marksOffline now1.Unix l.Vvalue = true) →
      List.Forall₂ (fun x y => x.Vkey = "jkstate" → x.User_id = u →
          y = { x with Vvalue := "0" })
        s.settings
        (CheckAndUpdateMonitorStatus (CheckAndUpdateMonitorStatus s now1).2 now2).2.settings) ∧
    (0 ≤ now1.Unix → now1.Unix ≤ now2.Unix → now2.Unix < 9223372036854775808 →
      ∀ v : String, marksOffline now1.Unix v = true → marksOffline now2.Unix v = true) := by
  refine ⟨?_, ?_, ?_⟩
  · rw [CheckAndUpdateMonitorStatus_eq (CheckAndUpdateMonitorStatus s now1).2 now1]
    simp only [marked_after_sweep]
    rw [CheckAndUpdateMonitorStatus_eq s now1]
    simp only [List.map_map, Prod.mk.injEq, true_and]
    congr 1
    apply List.map_congr_left
    intro r _
    simp only [Function.comp]
    split <;> simp_all
  · rintro u ⟨l, hl, hk, hu, hm⟩
    rw [CheckAndUpdateMonitorStatus_eq (CheckAndUpdateMonitorStatus s now1).2 now2]
    simp only [marked_after_sweep]
    rw [CheckAndUpdateMonitorStatus_eq s now1]
    simp only [List.map_map, List.forall₂_map_right_iff]
    apply List.forall₂_same.2
    intro x _ hxk hxu
    have h1 : x.Vkey = "jkstate" ∧ ∃ l ∈ s.settings, l.Vkey = "lastheart" ∧
        l.User_id = x.User_id ∧ marksOffline now1.Unix l.Vvalue = true :=
      ⟨hxk, l, hl, hk, hu.trans hxu.symm, hm⟩
    simp only [Function.comp, if_pos h1]
    split <;> rfl
  · intro h0 hle hhi v hm
    rw [marksOffline_iff now1.Unix v h0 (lt_of_le_of_lt hle hhi)] at hm
    rw [marksOffline_iff now2.Unix v (le_trans h0 hle) hhi]
    rcases hm with hm | hm | ⟨h, hp, hm⟩
    · exact Or.inl hm
    · exact Or.inr (Or.inl hm)
    · refine Or.inr (Or.inr ⟨h, hp, ?_⟩)
      rcases hm with hm | hm
      · exact Or.inl hm
      · exact Or.inr (by omega)

/-- C16 witness: on the store with two online accounts, the sweep at `T0 + 3m20s`
sets account 2 offline; the sweep at `T0 + 5m30s` that follows leaves account 2
offline and sets account 1 (heartbeat now 210 seconds old) offline too. -/
theorem sweep_idempotent_monotone_witness :
    (0 ≤ timeS.Unix ∧ timeS.Unix ≤ timeB.Unix ∧ timeB.Unix < 9223372036854775808) ∧
    (∃ l ∈ onlineStore.settings, l.Vkey = "lastheart" ∧ l.User_id = 2 ∧
      marksOffline timeS.Unix l.Vvalue = true) ∧
    List.Forall₂ (fun x y => x.Vkey = "jkstate" → x.User_id = 2 →
        y = { x with Vvalue := "0" })
      onlineStore.settings
      (CheckAndUpdateMonitorStatus (CheckAndUpdateMonitorStatus onlineStore timeS).2
        timeB).2.settings ∧
    (CheckAndUpdateMonitorStatus (CheckAndUpdateMonitorStatus onlineStore timeS).2
        timeB).2.settings =
      [⟨1, "key", "abc"⟩, ⟨1, "lastheart", "1700000120"⟩, ⟨1, "lastpay", ""⟩,
       ⟨1, "jkstate", "0"⟩,
       ⟨2, "key", "k2"⟩, ⟨2, "lastheart", "1700000000"⟩, ⟨2, "lastpay", ""⟩,
       ⟨2, "jkstate", "0"⟩] :=
  ⟨⟨by decide, by decide, by decide⟩,
   ⟨⟨2, "lastheart", "1700000000"⟩, by decide, rfl, rfl, by decide⟩,
   (sweep_idempotent_monotone onlineStore timeS timeB).2.1 2
     ⟨⟨2, "lastheart", "1700000000"⟩, by decide, rfl, rfl, by decide⟩,
   by decide⟩

/-! ### C17: the order lifecycle -/

/-- An order returned by the match selection is pending. -/
theorem GetRecentPendingOrderByPriceAndType_pending (s : Store) (userID : Nat)
    (price : Float64) (orderType : Int) (o : Order)
    (h : GetRecentPendingOrderByPriceAndType s userID price orderType = Except.ok o) :
    o.State = OrderStatusPending := by
  unfold GetRecentPendingOrderByPriceAndType at h
  rcases firstByCreateDateDesc_spec (s.orders.filter (fun o =>
      decide (o.User_id = userID) && Float64.eq o.Really_price price &&
      decide (o.Type_ = orderType) && decide (o.State = OrderStatusPending)))
    with ⟨-, h1⟩ | ⟨r, hr, hmem, -⟩
  · rw [h1] at h
    rcases firstByCreateDateDesc_spec (s.orders.filter (fun o =>
        decide (o.User_id = userID) && Float64.eq o.Price price &&
        decide (o.Type_ = orderType) && decide (o.State = OrderStatusPending)))
      with ⟨-, h2⟩ | ⟨r, hr, hmem, -⟩
    · rw [h2] at h
      simp at h
    · rw [hr] at h
      simp only [Except.ok.injEq] at h
      subst h
      simp only [List.mem_filter, Bool.and_eq_true, decide_eq_true_eq] at hmem
      exact hmem.2.2
  · rw [hr] at h
    simp only [Except.ok.injEq] at h
    subst h
    simp only [List.mem_filter, Bool.and_eq_true, decide_eq_true_eq] at hmem
    exact hmem.2.2

/-- One push, on an order table with distinct non-zero keys: every row is unchanged,
or was pending and is now paid with `pay_date` the clock reading of the match. -/
theorem ProcessMonitorPush_step (ParseFloat : String → Option Float64) (s : Store)
    (req : MonitorPushRequest) (payNow saveNow markNow : Time)
    (hkey : (s.orders.map Order.Id).Nodup) (hid : ∀ o ∈ s.orders, o.Id ≠ 0) :
    List.Forall₂ (fun o o' => o' = o ∨
        (o.State = OrderStatusPending ∧
          o' = { o with State := OrderStatusPaid, Pay_date := payNow.Unix }))
      s.orders (ProcessMonitorPush ParseFloat s req payNow saveNow markNow).2.orders := by
  have hsame : List.Forall₂ (fun o o' => o' = o ∨
        (o.State = OrderStatusPending ∧
          o' = { o with State := OrderStatusPaid, Pay_date := payNow.Unix }))
      s.orders s.orders := List.forall₂_same.2 (fun _ _ => Or.inl rfl)
  unfold ProcessMonitorPush
  cases resolveUserID s req.AppID with
  | error e => exact hsame
  | ok u =>
    simp only [pushAs]
    cases GetSetting s u "key" with
    | error e => exact hsame
    | ok k =>
      simp only
      split
      · exact hsame
      · cases ParseFloat req.Price with
        | none => exact hsame
        | some price =>
          cases Atoi req.Type_ with
          | none => exact hsame
          | some orderType =>
            simp only [UpdateSetting]
            cases hsel : GetRecentPendingOrderByPriceAndType s u price orderType with
            | error e => exact hsame
            | ok O =>
              have hmem := GetRecentPendingOrderByPriceAndType_mem s u price orderType O hsel
              have hpend := GetRecentPendingOrderByPriceAndType_pending s u price orderType O hsel
              have hupd := Update_of_mem s
                { O with State := OrderStatusPaid, Pay_date := payNow.Unix } saveNow O hmem rfl
                (hid O hmem)
              simp only [hupd, List.forall₂_map_right_iff]
              apply List.forall₂_same.2
              intro o ho
              by_cases h : o.Id = O.Id
              · have : o = O := List.inj_on_of_nodup_map hkey ho hmem h
                subst this
                rw [if_pos rfl]
                exact Or.inr ⟨hpend, rfl⟩
              · rw [if_neg h]
                exact Or.inl rfl

/-- One reclaim batch: every row is unchanged, or was pending and is now closed
with `close_date` the clock reading of the call. -/
theorem CloseExpiredOrdersWithMinutes_step (s : Store) (userID : Option Nat)
    (limit expireMinutes : Int) (now closeNow : Time) :
    List.Forall₂ (fun o o' => o' = o ∨
        (o.State = OrderStatusPending ∧
          o' = { o with State := OrderStatusClosed, Close_date := closeNow.Unix }))
      s.orders
      (CloseExpiredOrdersWithMinutes s userID limit expireMinutes now closeNow).2.2.orders := by
  rw [(CloseExpiredOrdersWithMinutes_update s userID limit expireMinutes now closeNow).2.2,
    List.forall₂_map_right_iff]
  apply List.forall₂_same.2
  intro o _
  split
  · rename_i hc
    simp only [closeCond, expiredCond, Bool.and_eq_true, decide_eq_true_eq] at hc
    exact Or.inr ⟨hc.1.1.1, rfl⟩
  · exact Or.inl rfl

/-- Relations that hold along two tables in turn compose. -/
theorem forall₂_comp {R S T : Order → Order → Prop}
    (h : ∀ a b c, R a b → S b c → T a c) :
    ∀ {l1 l2 l3 : List Order}, List.Forall₂ R l1 l2 → List.Forall₂ S l2 l3 →
      List.Forall₂ T l1 l3 := by
  intro l1 l2 l3 h12
  induction h12 generalizing l3 with
  | nil => intro h23; cases h23; exact List.Forall₂.nil
  | cons hab _ ih =>
    intro h23
    cases h23 with
    | cons hbc htl => exact List.Forall₂.cons (h _ _ _ hab hbc) (ih htl)

/-- A lifecycle move keeps the key of the row. -/
theorem Order.lifecycleMove_id {o o' : Order} (h : Order.lifecycleMove o o') : o'.Id = o.Id := by
  rcases h with h | ⟨-, ⟨t, -, h⟩ | ⟨t, -, h⟩⟩ <;> rw [h]

/-- Lifecycle moves compose: after a move away from pending nothing more happens. -/
theorem Order.lifecycleMove_trans {a b c : Order} (h1 : Order.lifecycleMove a b)
    (h2 : Order.lifecycleMove b c) : Order.lifecycleMove a c := by
  rcases h1 with h1 | ⟨ha, h1⟩
  · rw [h1] at h2; exact h2
  · rcases h2 with h2 | ⟨hb, -⟩
    · rw [h2]; exact Or.inr ⟨ha, h1⟩
    · exfalso
      rcases h1 with ⟨t, -, h1⟩ | ⟨t, -, h1⟩
      · rw [h1] at hb
        have : OrderStatusPaid ≠ OrderStatusPending := by decide
        exact this hb
      · rw [h1] at hb
        have : OrderStatusClosed ≠ OrderStatusPending := by decide
        exact this hb

/-- Tables related row by row by lifecycle moves have the same keys. -/
theorem map_id_of_lifecycleMove {l1 l2 : List Order}
    (h : List.Forall₂ Order.lifecycleMove l1 l2) : l2.map Order.Id = l1.map Order.Id := by
  induction h with
  | nil => rfl
  | cons hab _ ih => simp [Order.lifecycleMove_id hab, ih]

/-- One operation at a non-zero stamp, on a table with distinct non-zero keys, makes
a lifecycle move on every row. -/
theorem EngineOp.run_step (ParseFloat : String → Option Float64) (s : Store) (op : EngineOp)
    (hkey : (s.orders.map Order.Id).Nodup) (hid : ∀ o ∈ s.orders, o.Id ≠ 0)
    (hpush : ∀ req p sv m, op = EngineOp.push req p sv m → p.Unix ≠ 0)
    (hrec : ∀ u l e n c, op = EngineOp.reclaim u l e n c → c.Unix ≠ 0) :
    List.Forall₂ Order.lifecycleMove s.orders (EngineOp.run ParseFloat s op).orders := by
  cases op with
  | push req p sv m =>
    refine List.Forall₂.imp ?_ (ProcessMonitorPush_step ParseFloat s req p sv m hkey hid)
    rintro o o' (h | ⟨hp, h⟩)
    · exact Or.inl h
    · exact Or.inr ⟨hp, Or.inl ⟨p.Unix, hpush req p sv m rfl, h⟩⟩
  | reclaim u l e n c =>
    refine List.Forall₂.imp ?_ (CloseExpiredOrdersWithMinutes_step s u l e n c)
    rintro o o' (h | ⟨hp, h⟩)
    · exact Or.inl h
    · exact Or.inr ⟨hp, Or.inr ⟨c.Unix, hrec u l e n c rfl, h⟩⟩

/-- A sequence of operations at non-zero stamps, on a table with distinct non-zero
keys, makes a lifecycle move on every row. -/
theorem runOps_moves (ParseFloat : String → Option Float64) (ops : List EngineOp) :
    ∀ s : Store, (s.orders.map Order.Id).Nodup → (∀ o ∈ s.orders, o.Id ≠ 0) →
      (∀ req p sv m, EngineOp.push req p sv m ∈ ops → p.Unix ≠ 0) →
      (∀ u l e n c, EngineOp.reclaim u l e n c ∈ ops → c.Unix ≠ 0) →
      List.Forall₂ Order.lifecycleMove s.orders (runOps ParseFloat ops s).orders := by
  induction ops with
  | nil =>
    intro s _ _ _ _
    exact List.forall₂_same.2 (fun _ _ => Or.inl rfl)
  | cons op ops ih =>
    intro s hkey hid hpush hrec
    have h1 := EngineOp.run_step ParseFloat s op hkey hid
      (fun req p sv m h => hpush req p sv m (h ▸ List.mem_cons_self _ _))
      (fun u l e n c h => hrec u l e n c (h ▸ List.mem_cons_self _ _))
    have hids := map_id_of_lifecycleMove h1
    have hkey' : ((EngineOp.run ParseFloat s op).orders.map Order.Id).Nodup := by
      rw [hids]; exact hkey
    have hid' : ∀ o ∈ (EngineOp.run ParseFloat s op).orders, o.Id ≠ 0 := by
      intro o ho
      have : o.Id ∈ (EngineOp.run ParseFloat s op).orders.map Order.Id :=
        List.mem_map_of_mem _ ho
      rw [hids] at this
      obtain ⟨o0, ho0, he⟩ := List.mem_map.1 this
      rw [← he]
      exact hid o0 ho0
    have h2 := ih (EngineOp.run ParseFloat s op) hkey' hid'
      (fun req p sv m h => hpush req p sv m (List.mem_cons_of_mem _ h))
      (fun u l e n c h => hrec u l e n c (List.mem_cons_of_mem _ h))
    have htrans : ∀ a b c : Order, Order.lifecycleMove a b → Order.lifecycleMove b c →
        Order.lifecycleMove a c := fun _ _ _ hab hbc => Order.lifecycleMove_trans hab hbc
    have h3 : List.Forall₂ Order.lifecycleMove s.orders
        (runOps ParseFloat ops (EngineOp.run ParseFloat s op)).orders :=
      forall₂_comp htrans h1 h2
    exact h3

/-- A relation along two tables can use what holds of every row of the first. -/
theorem forall₂_of_mem_left {R : Order → Order → Prop} {P : Order → Prop} :
    ∀ {l1 l2 : List Order}, List.Forall₂ R l1 l2 → (∀ a ∈ l1, P a) →
      List.Forall₂ (fun a b => R a b ∧ P a) l1 l2 := by
  intro l1 l2 h
  induction h with
  | nil => intro _; exact List.Forall₂.nil
  | cons hab _ ih =>
    intro hP
    exact List.Forall₂.cons ⟨hab, hP _ (List.mem_cons_self _ _)⟩
      (ih (fun a ha => hP a (List.mem_cons_of_mem _ ha)))

/-- What a relation along two tables says of the second row alone holds of every
row of the second table. -/
theorem forall_mem_right_of_forall₂ {R : Order → Order → Prop} {P : Order → Prop}
    (hRP : ∀ a b, R a b → P b) :
    ∀ {l1 l2 : List Order}, List.Forall₂ R l1 l2 → ∀ b ∈ l2, P b := by
  intro l1 l2 h
  induction h with
  | nil => intro b hb; exact absurd hb (List.not_mem_nil b)
  | cons hab _ ih =>
    intro b hb
    rcases List.mem_cons.1 hb with rfl | hb
    · exact hRP _ _ hab
    · exact ih b hb

/-- C17. Order lifecycle.  Start from an order table with distinct non-zero keys in
which every pending row has `pay_date = 0` and `close_date = 0` and every other row
has exactly one of the two non-zero.  After any sequence of pushes and reclaim
batches, run one after the other, whose `pay_date` and `close_date` clock readings
are non-zero: the same holds of every row; the table has the same keys in the same
places; a `pay_date` that differs from the one at the start belongs to a row that
was pending at the start and is now paid, a `close_date` that differs to a row that
was pending and is now closed; and a stamp that was non-zero at the start is
unchanged. -/
theorem order_lifecycle_invariant (ParseFloat : String → Option Float64)
    (ops : List EngineOp) (s : Store)
    (hinit : ∀ o ∈ s.orders,
      (o.State = OrderStatusPending → o.Pay_date = 0 ∧ o.Close_date = 0) ∧
      (o.State ≠ OrderStatusPending →
        (o.Pay_date ≠ 0 ∧ o.Close_date = 0) ∨ (o.Pay_date = 0 ∧ o.Close_date ≠ 0)))
    (hkey : (s.orders.map Order.Id).Nodup) (hid : ∀ o ∈ s.orders, o.Id ≠ 0)
    (hpush : ∀ req payNow saveNow markNow,
      EngineOp.push req payNow saveNow markNow ∈ ops → payNow.Unix ≠ 0)
    (hrec : ∀ userID limit expireMinutes now closeNow,
      EngineOp.reclaim userID limit expireMinutes now closeNow ∈ ops → closeNow.Unix ≠ 0) :
    (∀ o ∈ (runOps ParseFloat ops s).orders,
      (o.State = OrderStatusPending → o.Pay_date = 0 ∧ o.Close_date = 0) ∧
      (o.State ≠ OrderStatusPending →
        (o.Pay_date ≠ 0 ∧ o.Close_date = 0) ∨ (o.Pay_date = 0 ∧ o.Close_date ≠ 0))) ∧
    (runOps ParseFloat ops s).orders.map Order.Id = s.orders.map Order.Id ∧
    List.Forall₂ (fun o o' =>
        (o'.Pay_date ≠ o.Pay_date →
          o.State = OrderStatusPending ∧ o'.State = OrderStatusPaid) ∧
        (o'.Close_date ≠ o.Close_date →
          o.State = OrderStatusPending ∧ o'.State = OrderStatusClosed) ∧
        (o.Pay_date ≠ 0 → o'.Pay_date = o.Pay_date) ∧
        (o.Close_date ≠ 0 → o'.Close_date = o.Close_date))
      s.orders (runOps ParseFloat ops s).orders := by
  have hmoves := runOps_moves ParseFloat ops s hkey hid hpush hrec
  have hboth := forall₂_of_mem_left hmoves hinit
  refine ⟨?_, map_id_of_lifecycleMove hmoves, ?_⟩
  · refine forall_mem_right_of_forall₂ ?_ hboth
    rintro a b ⟨hm, ha⟩
    rcases hm with h | ⟨hp, ⟨t, ht, h⟩ | ⟨t, ht, h⟩⟩
    · rw [h]; exact ha
    · obtain ⟨h1, h2⟩ := ha.1 hp
      rw [h]
      exact ⟨fun hs => absurd hs (show OrderStatusPaid ≠ OrderStatusPending by decide),
        fun _ => Or.inl ⟨ht, h2⟩⟩
    · obtain ⟨h1, h2⟩ := ha.1 hp
      rw [h]
      exact ⟨fun hs => absurd hs (show OrderStatusClosed ≠ OrderStatusPending by decide),
        fun _ => Or.inr ⟨h1, ht⟩⟩
  · refine List.Forall₂.imp ?_ hboth
    rintro a b ⟨hm, ha⟩
    rcases hm with h | ⟨hp, ⟨t, ht, h⟩ | ⟨t, ht, h⟩⟩
    · rw [h]
      exact ⟨fun hne => absurd rfl hne, fun hne => absurd rfl hne, fun _ => rfl, fun _ => rfl⟩
    · obtain ⟨h1, h2⟩ := ha.1 hp
      rw [h]
      exact ⟨fun _ => ⟨hp, rfl⟩, fun hne => absurd rfl hne, fun hne => absurd h1 hne,
        fun _ => rfl⟩
    · obtain ⟨h1, h2⟩ := ha.1 hp
      rw [h]
      exact ⟨fun hne => absurd rfl hne, fun _ => ⟨hp, rfl⟩, fun _ => rfl,
        fun hne => absurd h2 hne⟩

set_option maxRecDepth 1000000 in
/-- The run `lifecycleOps` on the backlog: the first push pays B, the batch closes A,
the second push pays C through its requested amount; D is as it was. -/
theorem runOps_lifecycleOps :
    (runOps parseDecimal lifecycleOps backlogStore).orders =
      [{ orderA with State := -1, Close_date := 1700000330 },
       { orderB with State := 1, Pay_date := 1700000120 },
       { orderC with State := 1, Pay_date := 1700000360 },
       orderD] := by
  decide

/-- C17 witness: the backlog meets the starting condition, the three operations of
`lifecycleOps` are stamped at non-zero readings, and after the run every row meets
the condition again: A closed with only `close_date` set, B and C paid with only
`pay_date` set, D with the `pay_date` it had. -/
theorem order_lifecycle_invariant_witness :
    ((backlogStore.orders.map Order.Id).Nodup ∧ (∀ o ∈ backlogStore.orders, o.Id ≠ 0)) ∧
    (∀ o ∈ (runOps parseDecimal lifecycleOps backlogStore).orders,
      (o.State = OrderStatusPending → o.Pay_date = 0 ∧ o.Close_date = 0) ∧
      (o.State ≠ OrderStatusPending →
        (o.Pay_date ≠ 0 ∧ o.Close_date = 0) ∨ (o.Pay_date = 0 ∧ o.Close_date ≠ 0))) ∧
    (runOps parseDecimal lifecycleOps backlogStore).orders =
      [{ orderA with State := -1, Close_date := 1700000330 },
       { orderB with State := 1, Pay_date := 1700000120 },
       { orderC with State := 1, Pay_date := 1700000360 },
       orderD] :=
  ⟨⟨by decide, by decide⟩,
   (order_lifecycle_invariant parseDecimal lifecycleOps backlogStore (by decide) (by decide)
      (by decide)
      (by
        intro req payNow saveNow markNow h
        simp only [lifecycleOps, List.mem_cons, EngineOp.push.injEq, List.mem_singleton,
          reduceCtorEq, false_or, or_false, List.not_mem_nil] at h
        rcases h with ⟨-, h, -, -⟩ | ⟨-, h, -, -⟩ <;> rw [h] <;> decide)
      (by
        intro userID limit expireMinutes now closeNow h
        simp only [lifecycleOps, List.mem_cons, EngineOp.reclaim.injEq, List.mem_singleton,
          reduceCtorEq, false_or, or_false, List.not_mem_nil] at h
        obtain ⟨-, -, -, -, h⟩ := h
        rw [h]
        decide)).1,
   runOps_lifecycleOps⟩

/-! ### C19 and C20: the responses of the monitor handlers -/

set_option maxRecDepth 1000000 in
/-- C19 (evaluation). In `getHTTPStatus` the case `code >= 400 && code < 500` comes
before the case that lists `CodeUnauthorized`, so every code from 400 to 499 is sent
with HTTP status 400.  A heartbeat and a push with the signature `bad` are answered
with response code 401, the message `Invalid signature` and no data, under HTTP
status 400; the store is as before. -/
theorem invalid_signature_sent_as_400 :
    (∀ code : Int, 400 ≤ code → code < 500 → getHTTPStatus code = 400) ∧
    getHTTPStatus CodeUnauthorized = 400 ∧
    (ProcessMonitorHeart scenarioStore ⟨"1700000000", "bad", ""⟩ timeA).1
      = some Err.invalidSign ∧
    SettingHandler.MonitorHeart "1700000000" "bad" "" (fun req => Except.ok req)
        scenarioStore timeA =
      ({ Status := 400, Body := { Code := 401, Msg := "Invalid signature", Data := none } },
        scenarioStore) ∧
    (ProcessMonitorPush parseDecimal scenarioStore pushBadSign timeA timeA timeA).1
      = some Err.invalidSign ∧
    SettingHandler.MonitorPush parseDecimal (Except.ok pushBadSign)
        scenarioStore timeA timeA timeA =
      ({ Status := 400, Body := { Code := 401, Msg := "Invalid signature", Data := none } },
        scenarioStore) := by
  refine ⟨?_, by decide, by decide, by decide, by decide, by decide⟩
  intro code h1 h2
  unfold getHTTPStatus CodeSuccess
  rw [if_neg (by omega), if_pos ⟨h1, h2⟩]

/-- C20 (counterexample). A heartbeat and a push that carry the appid `nosuch`, which
has no mapping, are answered with response code 500 under HTTP status 500, not with
code 400. -/
theorem unknown_merchant_sent_as_500 :
    (∀ m ∈ scenarioStore.merchants, m.AppId = "nosuch" → m.Status ≠ 1) ∧
    SettingHandler.MonitorHeart "1700000000" "bad" "nosuch" (fun req => Except.ok req)
        scenarioStore timeA =
      ({ Status := 500,
         Body := { Code := 500, Msg := "Failed to process monitor heart", Data := none } },
        scenarioStore) ∧
    SettingHandler.MonitorPush parseDecimal (Except.ok { pushA with AppID := "nosuch" })
        scenarioStore timeA timeA timeA =
      ({ Status := 500,
         Body := { Code := 500, Msg := "Failed to process monitor push", Data := none } },
        scenarioStore) ∧
    (SettingHandler.MonitorHeart "1700000000" "bad" "nosuch" (fun req => Except.ok req)
        scenarioStore timeA).1.Body.Code ≠ CodeBadRequest := by
  refine ⟨by decide, by decide, by decide, by decide⟩

/-- C20 (amended). Every failure of the service other than `ErrInvalidSign` is
answered with response code 500 under HTTP status 500, with the fixed message
`Failed to process monitor heart` (respectively `... push`) and no data, whatever the
error is.  In particular a heartbeat or push that carries a non-empty appid without
an enabled mapping is answered so, the store unchanged. -/
theorem non_signature_failure_sent_as_500 (ParseFloat : String → Option Float64) (s : Store) :
    (∀ (queryT querySign queryAppid : String)
        (ShouldBind : MonitorHeartRequest → Except String MonitorHeartRequest)
        (now : Time) (req : MonitorHeartRequest) (e : Err),
      SettingHandler.heartRequest queryT querySign queryAppid ShouldBind = Except.ok req →
      (ProcessMonitorHeart s req now).1 = some e → e ≠ Err.invalidSign →
      SettingHandler.MonitorHeart queryT querySign queryAppid ShouldBind s now =
        ({ Status := 500,
           Body := { Code := 500, Msg := "Failed to process monitor heart", Data := none } },
          (ProcessMonitorHeart s req now).2)) ∧
    (∀ (req : MonitorPushRequest) (payNow saveNow markNow : Time) (e : Err),
      (ProcessMonitorPush ParseFloat s req payNow saveNow markNow).1 = some e →
      e ≠ Err.invalidSign →
      SettingHandler.MonitorPush ParseFloat (Except.ok req) s payNow saveNow markNow =
        ({ Status := 500,
           Body := { Code := 500, Msg := "Failed to process monitor push", Data := none } },
          (ProcessMonitorPush ParseFloat s req payNow saveNow markNow).2)) ∧
    (∀ (queryT querySign queryAppid : String)
        (ShouldBind : MonitorHeartRequest → Except String MonitorHeartRequest) (now : Time),
      queryT ≠ "" → querySign ≠ "" → queryAppid ≠ "" →
      (∀ m ∈ s.merchants, m.AppId = queryAppid → m.Status ≠ 1) →
      SettingHandler.MonitorHeart queryT querySign queryAppid ShouldBind s now =
        ({ Status := 500,
           Body := { Code := 500, Msg := "Failed to process monitor heart", Data := none } },
          s)) ∧
    (∀ (req : MonitorPushRequest) (payNow saveNow markNow : Time),
      req.AppID ≠ "" → (∀ m ∈ s.merchants, m.AppId = req.AppID → m.Status ≠ 1) →
      SettingHandler.MonitorPush ParseFloat (Except.ok req) s payNow saveNow markNow =
        ({ Status := 500,
           Body := { Code := 500, Msg := "Failed to process monitor push", Data := none } },
          s)) := by
  have hresolve : ∀ appid : String, appid ≠ "" →
      (∀ m ∈ s.merchants, m.AppId = appid → m.Status ≠ 1) →
      resolveUserID s appid = Except.error (Err.invalidAppid appid) := by
    intro appid hne hnone
    simp only [resolveUserID, ne_eq, hne, not_false_eq_true, if_true,
      settingService.GetUserIDByAppID, GetUserIDByAppID_of_none s appid hnone]
  have h500 : ∀ msg : String, msg ≠ "" → response.InternalError [msg] =
      { Status := 500, Body := { Code := 500, Msg := msg, Data := none } } := by
    intro msg hmsg
    simp only [response.InternalError, response.Error, List.length_singleton, List.head?_cons,
      ne_eq, Option.some.injEq, hmsg, not_false_eq_true, and_true, List.headD_cons]
    rfl
  refine ⟨?_, ?_, ?_, ?_⟩
  · intro queryT querySign queryAppid ShouldBind now req e hreq herr hne
    simp only [SettingHandler.MonitorHeart, hreq, herr, hne, if_false]
    rw [h500 _ (by decide)]
  · intro req payNow saveNow markNow e herr hne
    simp only [SettingHandler.MonitorPush, herr, hne, if_false]
    rw [h500 _ (by decide)]
  · intro queryT querySign queryAppid ShouldBind now hT hS hA hnone
    have hreq : SettingHandler.heartRequest queryT querySign queryAppid ShouldBind =
        Except.ok ⟨queryT, querySign, queryAppid⟩ := by
      simp [SettingHandler.heartRequest, hT, hS]
    have hrun : ProcessMonitorHeart s ⟨queryT, querySign, queryAppid⟩ now =
        (some (Err.invalidAppid queryAppid), s) := by
      simp only [ProcessMonitorHeart, hresolve queryAppid hA hnone]
    simp only [SettingHandler.MonitorHeart, hreq, hrun, reduceCtorEq, if_false]
    rw [h500 _ (by decide)]
  · intro req payNow saveNow markNow hA hnone
    have hrun : ProcessMonitorPush ParseFloat s req payNow saveNow markNow =
        (some (Err.invalidAppid req.AppID), s) := by
      simp only [ProcessMonitorPush, hresolve req.AppID hA hnone]
    simp only [SettingHandler.MonitorPush, hrun, reduceCtorEq, if_false]
    rw [h500 _ (by decide)]

/-- C20 witness: on the scenario store, the heartbeat with the unmapped appid
`nosuch` and the push of Scenario A readdressed to the disabled appid `shopB` are
answered with code 500 and the fixed message, the store unchanged. -/
theorem non_signature_failure_sent_as_500_witness :
    (("1700000000" : String) ≠ "" ∧ ("bad" : String) ≠ "" ∧ ("nosuch" : String) ≠ "" ∧
      ∀ m ∈ scenarioStore.merchants, m.AppId = "nosuch" → m.Status ≠ 1) ∧
    SettingHandler.MonitorHeart "1700000000" "bad" "nosuch" (fun req => Except.ok req)
        scenarioStore timeA =
      ({ Status := 500,
         Body := { Code := 500, Msg := "Failed to process monitor heart", Data := none } },
        scenarioStore) ∧
    SettingHandler.MonitorPush parseDecimal (Except.ok { pushA with AppID := "shopB" })
        scenarioStore timeA timeA timeA =
      ({ Status := 500,
         Body := { Code := 500, Msg := "Failed to process monitor push", Data := none } },
        scenarioStore) :=
  ⟨⟨by decide, by decide, by decide, by decide⟩,
   (non_signature_failure_sent_as_500 parseDecimal scenarioStore).2.2.1
     "1700000000" "bad" "nosuch" (fun req => Except.ok req) timeA
     (by decide) (by decide) (by decide) (by decide),
   (non_signature_failure_sent_as_500 parseDecimal scenarioStore).2.2.2
     { pushA with AppID := "shopB" } timeA timeA timeA (by decide) (by decide)⟩

/-! ### C21: a failed write does not stop the sweep -/

/-- Over the real repository the sweep is `CheckAndUpdateMonitorStatus`. -/
theorem CheckAndUpdateMonitorStatusOn_real (s : Store) (now : Time) :
    CheckAndUpdateMonitorStatusOn NewSettingRepository s now =
      CheckAndUpdateMonitorStatus s now := rfl

/-- The loop body over a failing repository: the write happens when the row is
marked and the statement does not fail. -/
theorem checkMonitorRowOn_failing (listErr : Option Err)
    (fails : Store → Nat → String → String → Bool) (writeErr : Err)
    (t : Int) (c : Store) (l : Setting) :
    checkMonitorRowOn (failingSettingRepository listErr fails writeErr) t c l =
      if marksOffline t l.Vvalue = true ∧ fails c l.User_id "jkstate" "0" = false
      then (UpdateSetting c l.User_id "jkstate" "0").2 else c := by
  unfold checkMonitorRowOn marksOffline failingSettingRepository
  simp only []
  by_cases hf : fails c l.User_id "jkstate" "0" = true
  · simp only [hf, if_true, Bool.true_eq_false, and_false, if_false]
    split
    · rfl
    · split
      · rfl
      · split
        · rfl
        · split <;> rfl
  · have hf' : fails c l.User_id "jkstate" "0" = false := by simpa using hf
    simp only [hf', Bool.false_eq_true, if_false, and_true]
    by_cases he : l.Vvalue = ""
    · simp [he]
    · simp only [he, if_false, decide_False, Bool.false_or]
      cases hp : ParseInt l.Vvalue with
      | none => simp
      | some h =>
        simp only []
        by_cases h0 : h ≤ 0
        · simp [h0]
        · by_cases h1 : wrapInt64 (t - h) ≥ heartbeatTimeout
          · simp [h0, h1]
          · simp [h0, h1]

/-- The head of the visited rows can be left out of the search for a marked row of
an account when it is not a marked row of that account. -/
theorem exists_marked_cons (t : Int) (l : Setting) (L : List Setting) (u : Nat)
    (h : ¬ (l.User_id = u ∧ marksOffline t l.Vvalue = true)) :
    (∃ l' ∈ l :: L, l'.User_id = u ∧ marksOffline t l'.Vvalue = true) ↔
      ∃ l' ∈ L, l'.User_id = u ∧ marksOffline t l'.Vvalue = true := by
  constructor
  · rintro ⟨l', hl', h1, h2⟩
    rcases List.mem_cons.1 hl' with rfl | hm
    · exact absurd ⟨h1, h2⟩ h
    · exact ⟨l', hm, h1, h2⟩
  · rintro ⟨l', hl', h1, h2⟩
    exact ⟨l', List.mem_cons_of_mem _ hl', h1, h2⟩

/-- The store after the sweep over a failing repository has visited the rows `L`:
each row is mapped on its own; it is unchanged, or it is a `jkstate` row of an
account with a marked row in `L` and now holds `"0"`; and the rows of an account
whose writes do not fail are as the rule says. -/
theorem foldl_checkMonitorRowOn_failing (listErr : Option Err)
    (fails : Store → Nat → String → String → Bool) (writeErr : Err)
    (t : Int) (L : List Setting) : ∀ c : Store,
    ∃ G : Setting → Setting,
      L.foldl (checkMonitorRowOn (failingSettingRepository listErr fails writeErr) t) c =
        { c with settings := c.settings.map G } ∧
      (∀ x, G x = x ∨ (x.Vkey = "jkstate" ∧ G x = { x with Vvalue := "0" } ∧
        ∃ l ∈ L, l.User_id = x.User_id ∧ marksOffline t l.Vvalue = true)) ∧
      (∀ u : Nat, (∀ st, fails st u "jkstate" "0" = false) → ∀ x, x.User_id = u →
        G x = if x.Vkey = "jkstate" ∧
            ∃ l ∈ L, l.User_id = x.User_id ∧ marksOffline t l.Vvalue = true
          then { x with Vvalue := "0" } else x) := by
  induction L with
  | nil =>
    intro c
    refine ⟨id, by cases c; simp, fun x => Or.inl rfl, ?_⟩
    intro u _ x _
    simp
  | cons l L ih =>
    intro c
    rw [List.foldl_cons, checkMonitorRowOn_failing]
    by_cases hw : marksOffline t l.Vvalue = true ∧ fails c l.User_id "jkstate" "0" = false
    · rw [if_pos hw]
      obtain ⟨G, hG, hfr, hgood⟩ := ih (UpdateSetting c l.User_id "jkstate" "0").2
      let f : Setting → Setting := fun r =>
        if r.Vkey = "jkstate" ∧ r.User_id = l.User_id then { r with Vvalue := "0" } else r
      refine ⟨G ∘ f, ?_, ?_, ?_⟩
      · rw [hG]
        simp only [UpdateSetting, List.map_map]
      · intro x
        by_cases hx : x.Vkey = "jkstate" ∧ x.User_id = l.User_id
        · have hfx : f x = { x with Vvalue := "0" } := if_pos hx
          have hmem : ∃ l' ∈ l :: L, l'.User_id = x.User_id ∧ marksOffline t l'.Vvalue = true :=
            ⟨l, List.mem_cons_self _ _, hx.2.symm, hw.1⟩
          refine Or.inr ⟨hx.1, ?_, hmem⟩
          simp only [Function.comp, hfx]
          rcases hfr { x with Vvalue := "0" } with h | ⟨_, h, _⟩
          · exact h
          · exact h
        · have hfx : f x = x := if_neg hx
          simp only [Function.comp, hfx]
          rcases hfr x with h | ⟨hk, h, l', hl', hu', hm'⟩
          · exact Or.inl h
          · exact Or.inr ⟨hk, h, l', List.mem_cons_of_mem _ hl', hu', hm'⟩
      · intro u hu x hxu
        by_cases hx : x.Vkey = "jkstate" ∧ x.User_id = l.User_id
        · have hfx : f x = { x with Vvalue := "0" } := if_pos hx
          have hmem : ∃ l' ∈ l :: L, l'.User_id = x.User_id ∧ marksOffline t l'.Vvalue = true :=
            ⟨l, List.mem_cons_self _ _, hx.2.symm, hw.1⟩
          rw [if_pos ⟨hx.1, hmem⟩]
          simp only [Function.comp, hfx]
          rcases hfr { x with Vvalue := "0" } with h | ⟨_, h, _⟩
          · exact h
          · exact h
        · have hfx : f x = x := if_neg hx
          simp only [Function.comp, hfx]
          rw [hgood u hu x hxu]
          by_cases hk : x.Vkey = "jkstate"
          · have hne : ¬ (l.User_id = x.User_id ∧ marksOffline t l.Vvalue = true) :=
              fun h => hx ⟨hk, h.1.symm⟩
            simp only [exists_marked_cons t l L x.User_id hne]
          · simp only [hk, false_and, if_false]
    · rw [if_neg hw]
      obtain ⟨G, hG, hfr, hgood⟩ := ih c
      refine ⟨G, hG, ?_, ?_⟩
      · intro x
        rcases hfr x with h | ⟨hk, h, l', hl', hu', hm'⟩
        · exact Or.inl h
        · exact Or.inr ⟨hk, h, l', List.mem_cons_of_mem _ hl', hu', hm'⟩
      · intro u hu x hxu
        rw [hgood u hu x hxu]
        have hne : ¬ (l.User_id = x.User_id ∧ marksOffline t l.Vvalue = true) := by
          rintro ⟨hlu, hm⟩
          exact hw ⟨hm, by rw [hlu, hxu]; exact hu c⟩
        simp only [exists_marked_cons t l L x.User_id hne]

/-- C21. Sweep failure isolation.  Over a repository whose statements can fail
(a failed `UPDATE` returns an error and changes no row): the sweep returns an error
exactly when the listing of the `lastheart` rows fails, and then it has changed
nothing; a failed write for one row does not stop the loop, so for every account
whose `jkstate` writes do not fail the rows end as after the sweep without failures,
whichever writes fail for other accounts; every row is unchanged or is a `jkstate`
row of an account with a marked `lastheart` row and now holds `"0"`; the other
tables are untouched. -/
theorem sweep_failure_isolation (fails : Store → Nat → String → String → Bool)
    (writeErr : Err) (s : Store) (now : Time) :
    (∀ listErr : Option Err,
      (CheckAndUpdateMonitorStatusOn (failingSettingRepository listErr fails writeErr)
        s now).1 = listErr) ∧
    (∀ err : Err,
      CheckAndUpdateMonitorStatusOn (failingSettingRepository (some err) fails writeErr) s now
        = (some err, s)) ∧
    (∀ u : Nat, (∀ st, fails st u "jkstate" "0" = false) →
      List.Forall₂ (fun y0 y => y0.User_id = u → y = y0)
        (CheckAndUpdateMonitorStatus s now).2.settings
        (CheckAndUpdateMonitorStatusOn (failingSettingRepository none fails writeErr)
          s now).2.settings) ∧
    List.Forall₂ (fun x y => y = x ∨ (x.Vkey = "jkstate" ∧ y = { x with Vvalue := "0" } ∧
        ∃ l ∈ s.settings, l.Vkey = "lastheart" ∧ l.User_id = x.User_id ∧
          marksOffline now.Unix l.Vvalue = true))
      s.settings
      (CheckAndUpdateMonitorStatusOn (failingSettingRepository none fails writeErr)
        s now).2.settings ∧
    ((CheckAndUpdateMonitorStatusOn (failingSettingRepository none fails writeErr)
        s now).2.merchants = s.merchants ∧
      (CheckAndUpdateMonitorStatusOn (failingSettingRepository none fails writeErr)
        s now).2.orders = s.orders ∧
      (CheckAndUpdateMonitorStatusOn (failingSettingRepository none fails writeErr)
        s now).2.tmpPrices = s.tmpPrices) := by
  obtain ⟨G, hG, hfr, hgood⟩ := foldl_checkMonitorRowOn_failing none fails writeErr now.Unix
    (s.settings.filter (fun r => decide (r.Vkey = "lastheart"))) s
  have hrun : CheckAndUpdateMonitorStatusOn (failingSettingRepository none fails writeErr) s now
      = (none, { s with settings := s.settings.map G }) := by
    rw [← hG]
    rfl
  have hmem : ∀ u : Nat,
      (∃ l ∈ s.settings.filter (fun r => decide (r.Vkey = "lastheart")),
        l.User_id = u ∧ marksOffline now.Unix l.Vvalue = true) ↔
      ∃ l ∈ s.settings, l.Vkey = "lastheart" ∧ l.User_id = u ∧
        marksOffline now.Unix l.Vvalue = true := by
    intro u
    simp only [List.mem_filter, decide_eq_true_eq]
    constructor
    · rintro ⟨l, ⟨hl, hk⟩, hu, hm⟩
      exact ⟨l, hl, hk, hu, hm⟩
    · rintro ⟨l, hl, hk, hu, hm⟩
      exact ⟨l, ⟨hl, hk⟩, hu, hm⟩
  refine ⟨?_, fun err => rfl, ?_, ?_, ?_⟩
  · intro listErr
    cases listErr with
    | none => rw [hrun]
    | some err => rfl
  · intro u hu
    rw [hrun, CheckAndUpdateMonitorStatus_eq]
    simp only [List.forall₂_map_left_iff, List.forall₂_map_right_iff]
    apply List.forall₂_same.2
    intro x _ hxu
    have hxu' : x.User_id = u := by
      split at hxu <;> exact hxu
    rw [hgood u hu x hxu']
    simp only [hmem]
  · rw [hrun]
    simp only [List.forall₂_map_right_iff]
    apply List.forall₂_same.2
    intro x _
    rcases hfr x with h | ⟨hk, h, hex⟩
    · exact Or.inl h
    · exact Or.inr ⟨hk, h, (hmem x.User_id).1 hex⟩
  · rw [hrun]
    exact ⟨rfl, rfl, rfl⟩

/-- C21 witness: both accounts of the stale store are marked at `T0 + 3m20s`; the
write for account 2, visited first, fails; the sweep returns nil, has left the
rows of account 2 as they were and has set `jkstate` of account 1 to `"0"`. -/
theorem sweep_failure_isolation_witness :
    (∀ st, failsForAccount2 st 1 "jkstate" "0" = false) ∧
    CheckAndUpdateMonitorStatusOn
        (failingSettingRepository none failsForAccount2 Err.recordNotFound) staleStore timeS =
      (none, { staleStore with settings :=
        [⟨2, "lastheart", "1700000000"⟩, ⟨2, "jkstate", "1"⟩,
         ⟨1, "lastheart", "1700000010"⟩, ⟨1, "jkstate", "0"⟩] }) ∧
    (CheckAndUpdateMonitorStatus staleStore timeS).2.settings =
      [⟨2, "lastheart", "1700000000"⟩, ⟨2, "jkstate", "0"⟩,
       ⟨1, "lastheart", "1700000010"⟩, ⟨1, "jkstate", "0"⟩] ∧
    List.Forall₂ (fun y0 y => y0.User_id = 1 → y = y0)
      (CheckAndUpdateMonitorStatus staleStore timeS).2.settings
      (CheckAndUpdateMonitorStatusOn
        (failingSettingRepository none failsForAccount2 Err.recordNotFound)
        staleStore timeS).2.settings :=
  ⟨fun _ => rfl, by decide, by decide,
   (sweep_failure_isolation failsForAccount2 Err.recordNotFound staleStore timeS).2.2.1 1
     (fun _ => rfl)⟩

/-! ### C22: the read of the expired orders -/

/-- The 30-minute cut-off is the clock reading in seconds minus 1800. -/
theorem expireTime_thirty (now : Time) : expireTime now 30 = now.Unix - 1800 := by
  rw [expireTime_of_range now 30 (by decide) (by decide)]
  ring

/-- C22. `GetExpiredOrders` is a read with a 30-minute default.  It is
`GetExpiredOrdersWithMinutes` with 30 minutes and returns no error; every row of
its result is a row of the table that is pending, has
`create_date < now - 1800` and belongs to the given user when one is given; the
result is sorted by ascending `create_date`; without a positive limit it holds all
such rows; with `limit > 0` it has at most `limit` rows, and they are the oldest:
no such row that is left out is older than a row of the result; the store is
unchanged. -/
theorem expired_orders_read (s : Store) (userID : Option Nat) (limit : Int) (now : Time) :
    GetExpiredOrders s userID limit now = GetExpiredOrdersWithMinutes s userID limit 30 now ∧
    (GetExpiredOrders s userID limit now).2.1 = none ∧
    (∀ o ∈ (GetExpiredOrders s userID limit now).1,
      o ∈ s.orders ∧ o.State = OrderStatusPending ∧ o.Create_date < now.Unix - 1800 ∧
      ∀ uid, userID = some uid → o.User_id = uid) ∧
    List.Sorted (fun a b => a.Create_date ≤ b.Create_date)
      (GetExpiredOrders s userID limit now).1 ∧
    (limit ≤ 0 → List.Perm (GetExpiredOrders s userID limit now).1
      (s.orders.filter (fun o => decide (o.State = OrderStatusPending ∧
        o.Create_date < now.Unix - 1800 ∧ ∀ uid, userID = some uid → o.User_id = uid)))) ∧
    (limit > 0 → ((GetExpiredOrders s userID limit now).1.length : Int) ≤ limit) ∧
    (limit > 0 → ((GetExpiredOrders s userID limit now).1.length : Int) =
      min limit ((s.orders.filter (fun o => decide (o.State = OrderStatusPending ∧
        o.Create_date < now.Unix - 1800 ∧
        ∀ uid, userID = some uid → o.User_id = uid))).length : Int)) ∧
    (∀ o ∈ (GetExpiredOrders s userID limit now).1, ∀ o' ∈ s.orders,
      o'.State = OrderStatusPending → o'.Create_date < now.Unix - 1800 →
      (∀ uid, userID = some uid → o'.User_id = uid) →
      o' ∉ (GetExpiredOrders s userID limit now).1 → o.Create_date ≤ o'.Create_date) ∧
    (GetExpiredOrders s userID limit now).2.2 = s := by
  have hcond : ∀ o : Order, expiredCond (expireTime now 30) userID o = true ↔
      (o.State = OrderStatusPending ∧ o.Create_date < now.Unix - 1800 ∧
        ∀ uid, userID = some uid → o.User_id = uid) := by
    intro o
    rw [expireTime_thirty]
    unfold expiredCond
    cases userID with
    | none => simp
    | some u => simp [and_assoc]
  have hfilter : s.orders.filter (expiredCond (expireTime now 30) userID) =
      s.orders.filter (fun o => decide (o.State = OrderStatusPending ∧
        o.Create_date < now.Unix - 1800 ∧ ∀ uid, userID = some uid → o.User_id = uid)) := by
    apply List.filter_congr
    intro o _
    rw [Bool.eq_iff_iff, hcond o, decide_eq_true_eq]
  have hsorted : List.Sorted Order.createdNoLater
      ((s.orders.filter (expiredCond (expireTime now 30) userID)).insertionSort
        Order.createdNoLater) := List.sorted_insertionSort _ _
  have hperm := List.perm_insertionSort Order.createdNoLater
    (s.orders.filter (expiredCond (expireTime now 30) userID))
  have hsub : ∀ o ∈ (GetExpiredOrders s userID limit now).1,
      o ∈ (s.orders.filter (expiredCond (expireTime now 30) userID)).insertionSort
        Order.createdNoLater := by
    intro o ho
    simp only [GetExpiredOrders, GetExpiredOrdersWithMinutes] at ho
    split at ho
    · exact List.mem_of_mem_take ho
    · exact ho
  refine ⟨rfl, rfl, ?_, ?_, ?_, ?_, ?_, ?_, rfl⟩
  · intro o ho
    have h1 := (List.mem_insertionSort Order.createdNoLater).1 (hsub o ho)
    rw [List.mem_filter] at h1
    exact ⟨h1.1, (hcond o).1 h1.2⟩
  · simp only [GetExpiredOrders, GetExpiredOrdersWithMinutes]
    split
    · exact List.Pairwise.sublist (List.take_sublist _ _) hsorted
    · exact hsorted
  · intro hl
    simp only [GetExpiredOrders, GetExpiredOrdersWithMinutes, not_lt.2 hl, if_false]
    rw [← hfilter]
    exact hperm
  · intro hl
    simp only [GetExpiredOrders, GetExpiredOrdersWithMinutes, hl, if_true, List.length_take]
    omega
  · intro hl
    simp only [GetExpiredOrders, GetExpiredOrdersWithMinutes, hl, if_true, List.length_take,
      List.length_insertionSort, ← hfilter]
    omega
  · intro o ho o' ho' hp hc hu hnot
    have hmem' : o' ∈ (s.orders.filter (expiredCond (expireTime now 30) userID)).insertionSort
        Order.createdNoLater :=
      (List.mem_insertionSort Order.createdNoLater).2
        (List.mem_filter.2 ⟨ho', (hcond o').2 ⟨hp, hc, hu⟩⟩)
    simp only [GetExpiredOrders, GetExpiredOrdersWithMinutes] at ho hnot
    split at ho
    · rename_i hl
      rw [if_pos hl] at hnot
      rw [← List.take_append_drop limit.toNat
        ((s.orders.filter (expiredCond (expireTime now 30) userID)).insertionSort
          Order.createdNoLater)] at hmem' hsorted
      have hdrop := (List.mem_append.1 hmem').resolve_left hnot
      exact (List.pairwise_append.1 hsorted).2.2 o ho o' hdrop
    · rename_i hl
      rw [if_neg hl] at hnot
      exact absurd hmem' hnot

/-- C22 on the report table at `T0 + 40m`: the three rows created before `T0 + 10m`
are returned oldest first, the two oldest with `limit = 2`; the table is as before. -/
theorem expired_orders_read_scenario :
    ((GetExpiredOrders reportStore none 0 timeR).1.map Order.Order_id = ["R2", "R3", "R1"]) ∧
    ((GetExpiredOrders reportStore none 2 timeR).1.map Order.Order_id = ["R2", "R3"]) ∧
    (GetExpiredOrders reportStore none 2 timeR).2.2 = reportStore := by
  refine ⟨by decide, by decide, rfl⟩

/-! ### C23 and C24: the scheduler -/

/-- A completed `Stop` of a running scheduler: the flag is cleared and the goroutine
that received the value has returned; every other goroutine is as before. -/
theorem Scheduler.Stop_running (s s' : Scheduler) (r : Nat) (hrun : s.running = true)
    (h : s.Stop r = some s') :
    ∃ l, s.loops[r]? = some l ∧ l.pc = LoopPc.select ∧
      s' = { running := false, loops := s.loops.set r { l with pc := LoopPc.returned },
             log := s.log } := by
  simp only [Scheduler.Stop, hrun, Bool.not_true, Bool.false_eq_true, if_false,
    Scheduler.loopStep] at h
  cases hl : s.loops[r]? with
  | none => simp [hl] at h
  | some l =>
    simp only [hl] at h
    obtain ⟨task, pc⟩ := l
    cases pc <;> simp [Loop.step] at h
    exact ⟨_, rfl, rfl, h.symm⟩

/-- C23. The scheduler state machine.  `Start` on a running scheduler changes
nothing; `Start` on a stopped one sets `running` and starts exactly two goroutines,
the expiry loop and the liveness loop, and such a goroutine can receive neither a
tick nor the stop value before it has run its task once: its first move is that run,
after which it waits in its `select`.  `Stop` on a stopped scheduler returns at once,
changes nothing, and no goroutine receives a value; `Stop` on a running scheduler
completes once a goroutine in its `select` takes the value, and then `running` is
false.  Hence `Start; Start` is `Start` and `Stop; Stop` is `Stop`. -/
theorem scheduler_state_machine :
    (∀ s : Scheduler, s.running = true → s.Start = s) ∧
    (∀ s : Scheduler, s.running = false →
      s.Start = { running := true,
                  loops := s.loops ++
                    [{ task := LoopTask.closeExpiredOrders, pc := LoopPc.immediate },
                     { task := LoopTask.checkMonitorStatus, pc := LoopPc.immediate }],
                  log := s.log }) ∧
    (∀ task : LoopTask,
      Loop.step { task := task, pc := LoopPc.immediate } LoopInput.tick = none ∧
      Loop.step { task := task, pc := LoopPc.immediate } LoopInput.stop = none ∧
      Loop.step { task := task, pc := LoopPc.immediate } LoopInput.run =
        some ({ task := task, pc := LoopPc.select }, [task])) ∧
    (∀ (s : Scheduler) (r : Nat), s.running = false → s.Stop r = some s) ∧
    (∀ (s : Scheduler) (r : Nat) (l : Loop), s.running = true → s.loops[r]? = some l →
      l.pc = LoopPc.select → ∃ s', s.Stop r = some s' ∧ s'.running = false) ∧
    (∀ (s s' : Scheduler) (r : Nat), s.running = true → s.Stop r = some s' →
      s'.running = false) ∧
    (∀ s : Scheduler, s.Start.Start = s.Start) ∧
    (∀ (s s' : Scheduler) (r r' : Nat), s.Stop r = some s' → s'.Stop r' = some s') := by
  have hstart : ∀ s : Scheduler, s.running = true → s.Start = s := by
    intro s h
    simp [Scheduler.Start, h]
  have hstop : ∀ (s : Scheduler) (r : Nat), s.running = false → s.Stop r = some s := by
    intro s r h
    simp [Scheduler.Stop, h]
  have hoff : ∀ (s s' : Scheduler) (r : Nat), s.running = true → s.Stop r = some s' →
      s'.running = false := by
    intro s s' r hrun h
    obtain ⟨l, _, _, rfl⟩ := Scheduler.Stop_running s s' r hrun h
    rfl
  refine ⟨hstart, ?_, ?_, hstop, ?_, hoff, ?_, ?_⟩
  · intro s h
    simp [Scheduler.Start, h]
  · intro task
    exact ⟨rfl, rfl, rfl⟩
  · intro s r l hrun hl hpc
    obtain ⟨task, pc⟩ := l
    simp only at hpc
    subst hpc
    refine ⟨{ running := false,
              loops := s.loops.set r { task := task, pc := LoopPc.returned },
              log := s.log }, ?_, rfl⟩
    simp [Scheduler.Stop, hrun, Scheduler.loopStep, hl, Loop.step]
  · intro s
    cases h : s.running with
    | true => rw [hstart s h, hstart s h]
    | false =>
      apply hstart
      simp [Scheduler.Start, h]
  · intro s s' r r' h
    cases hrun : s.running with
    | true => exact hstop s' r' (hoff s s' r hrun h)
    | false =>
      rw [hstop s r hrun] at h
      cases h
      exact hstop s r' hrun

/-- C24 (evaluation). After `Start`, when both loops wait in their `select`, one
`Stop` hands its single value to one of the two goroutines: whichever receives it
returns, and the other one is still in its `select`, so exactly one loop is left; it
runs its task on the next tick; a second `Stop` finds `running` false and sends
nothing; and a following `Start` leaves three loops that have not returned.  In
general a completed `Stop` of a running scheduler makes exactly one goroutine
return. -/
theorem stop_reaches_one_loop :
    ((NewScheduler.Start.loopStep 0 LoopInput.run).bind
      (fun s => s.loopStep 1 LoopInput.run) = some startedScheduler) ∧
    startedScheduler.Stop 0 =
      some { running := false,
             loops := [{ task := LoopTask.closeExpiredOrders, pc := LoopPc.returned },
                       { task := LoopTask.checkMonitorStatus, pc := LoopPc.select }],
             log := [LoopTask.closeExpiredOrders, LoopTask.checkMonitorStatus] } ∧
    startedScheduler.Stop 1 =
      some { running := false,
             loops := [{ task := LoopTask.closeExpiredOrders, pc := LoopPc.select },
                       { task := LoopTask.checkMonitorStatus, pc := LoopPc.returned }],
             log := [LoopTask.closeExpiredOrders, LoopTask.checkMonitorStatus] } ∧
    (∀ (r : Nat) (s' : Scheduler), startedScheduler.Stop r = some s' →
      s'.liveLoops.length = 1) ∧
    ((startedScheduler.Stop 0).bind (fun s => s.loopStep 1 LoopInput.tick) =
      some { running := false,
             loops := [{ task := LoopTask.closeExpiredOrders, pc := LoopPc.returned },
                       { task := LoopTask.checkMonitorStatus, pc := LoopPc.select }],
             log := [LoopTask.closeExpiredOrders, LoopTask.checkMonitorStatus,
                     LoopTask.checkMonitorStatus] }) ∧
    ((startedScheduler.Stop 0).bind (fun s => s.Stop 1) = startedScheduler.Stop 0) ∧
    ((startedScheduler.Stop 0).map (fun s => s.Start.liveLoops.length) = some 3) ∧
    ((startedScheduler.Stop 1).map (fun s => s.Start.liveLoops.length) = some 3) ∧
    (∀ (s s' : Scheduler) (r : Nat), s.running = true → s.Stop r = some s' →
      s'.liveLoops.length + 1 = s.liveLoops.length) := by
  have hgen : ∀ (s s' : Scheduler) (r : Nat), s.running = true → s.Stop r = some s' →
      s'.liveLoops.length + 1 = s.liveLoops.length := by
    intro s s' r hrun h
    obtain ⟨l, hl, hpc, rfl⟩ := Scheduler.Stop_running s s' r hrun h
    simp only [Scheduler.liveLoops]
    have key : ∀ (ls : List Loop) (r : Nat) (l : Loop), ls[r]? = some l →
        l.pc = LoopPc.select →
        ((ls.set r { l with pc := LoopPc.returned }).filter
          (fun l => decide (l.pc ≠ LoopPc.returned))).length + 1 =
        (ls.filter (fun l => decide (l.pc ≠ LoopPc.returned))).length := by
      intro ls
      induction ls with
      | nil => intro r l h; simp at h
      | cons a ls ih =>
        intro r l h hpc
        cases r with
        | zero =>
          simp only [List.getElem?_cons_zero, Option.some.injEq] at h
          subst h
          simp [List.set, List.filter_cons, hpc]
        | succ r =>
          simp only [List.getElem?_cons_succ] at h
          have := ih r l h hpc
          simp only [List.set, List.filter_cons]
          split
          · simp only [List.length_cons]
            omega
          · exact this
    exact key s.loops r l hl hpc
  refine ⟨by decide, by decide, by decide, ?_, by decide, by decide, by decide, by decide, hgen⟩
  intro r s' h
  have := hgen startedScheduler s' r rfl h
  have h2 : startedScheduler.liveLoops.length = 2 := by decide
  omega

/-! ### C25: a heartbeat and the rows of the liveness record -/

/-- C25 (counterexample). The bootstrap account has a secret and neither a
`lastheart` nor a `jkstate` row; the signed heartbeat of Scenario C passes
verification and returns nil, and the store is as before: the account still has no
`lastheart` and no `jkstate` row, and the listing that the sweep starts from is
empty. -/
theorem heartbeat_creates_no_record :
    GetUserSettingValue keyOnlyStore 1 "key" = Except.ok "abc" ∧
    heartC.Sign = md5hex (heartC.T ++ "abc") ∧
    ProcessMonitorHeart keyOnlyStore heartC timeA = (none, keyOnlyStore) ∧
    GetUserSettingValue (ProcessMonitorHeart keyOnlyStore heartC timeA).2 1 "lastheart"
      = Except.error Err.recordNotFound ∧
    GetUserSettingValue (ProcessMonitorHeart keyOnlyStore heartC timeA).2 1 "jkstate"
      = Except.error Err.recordNotFound ∧
    GetAllSettingsByKey (ProcessMonitorHeart keyOnlyStore heartC timeA).2 "lastheart"
      = Except.ok [] := by
  have hrun : ProcessMonitorHeart keyOnlyStore heartC timeA = (none, keyOnlyStore) := by
    rw [ProcessMonitorHeart_verified keyOnlyStore heartC timeA 1 ⟨1, "key", "abc"⟩ rfl rfl
      md5hex_scenarioC.symm]
    decide
  refine ⟨rfl, md5hex_scenarioC.symm, hrun, ?_, ?_, ?_⟩
  · rw [hrun]; rfl
  · rw [hrun]; rfl
  · rw [hrun]; rfl

/-- C25 (amended). A verified heartbeat creates no setting row: it returns nil, the
table has the same rows (account and key) as before, in place, and the only values
that change are those of the account's `lastheart` rows, now the clock reading,
and `jkstate` rows, now `"1"`.  So for an account without a `lastheart` and without
a `jkstate` row the store is unchanged and the account still reads neither; an
account that has the rows reads `lastheart = now` and `jkstate = "1"`. -/
theorem heartbeat_updates_existing_rows (s : Store) (req : MonitorHeartRequest) (now : Time)
    (u : Nat) (k : Setting)
    (hu : resolveUserID s req.AppID = Except.ok u)
    (hk : GetSetting s u "key" = Except.ok k)
    (hsig : req.Sign = md5hex (req.T ++ k.Vvalue)) :
    (ProcessMonitorHeart s req now).1 = none ∧
    List.Forall₂ (fun x y =>
        y = if x.Vkey = "lastheart" ∧ x.User_id = u then { x with Vvalue := FormatInt now.Unix }
            else if x.Vkey = "jkstate" ∧ x.User_id = u then { x with Vvalue := "1" } else x)
      s.settings (ProcessMonitorHeart s req now).2.settings ∧
    (ProcessMonitorHeart s req now).2.settings.map (fun r => (r.User_id, r.Vkey)) =
      s.settings.map (fun r => (r.User_id, r.Vkey)) ∧
    ((∀ x ∈ s.settings, x.User_id = u → x.Vkey ≠ "lastheart" ∧ x.Vkey ≠ "jkstate") →
      ProcessMonitorHeart s req now = (none, s) ∧
      GetUserSettingValue (ProcessMonitorHeart s req now).2 u "lastheart"
        = Except.error Err.recordNotFound ∧
      GetUserSettingValue (ProcessMonitorHeart s req now).2 u "jkstate"
        = Except.error Err.recordNotFound) ∧
    ((∃ x ∈ s.settings, x.Vkey = "lastheart" ∧ x.User_id = u) →
      GetUserSettingValue (ProcessMonitorHeart s req now).2 u "lastheart"
        = Except.ok (FormatInt now.Unix)) ∧
    ((∃ x ∈ s.settings, x.Vkey = "jkstate" ∧ x.User_id = u) →
      GetUserSettingValue (ProcessMonitorHeart s req now).2 u "jkstate" = Except.ok "1") := by
  have hrun := ProcessMonitorHeart_verified s req now u k hu hk hsig
  have hne : ("lastheart" : String) ≠ "jkstate" := by decide
  have hsettings : (ProcessMonitorHeart s req now).2.settings = s.settings.map (fun x =>
      if x.Vkey = "lastheart" ∧ x.User_id = u then { x with Vvalue := FormatInt now.Unix }
      else if x.Vkey = "jkstate" ∧ x.User_id = u then { x with Vvalue := "1" } else x) := by
    rw [hrun]
    simp only [UpdateSetting, List.map_map]
    apply List.map_congr_left
    intro x _
    simp only [Function.comp]
    by_cases h1 : x.Vkey = "lastheart" ∧ x.User_id = u
    · have h2 : ¬ (x.Vkey = "jkstate" ∧ x.User_id = u) := fun h => hne (h1.1.symm.trans h.1)
      simp only [h1, and_self, if_true, h2]
      rw [if_neg (fun h => hne h.1)]
    · simp only [h1, if_false]
  refine ⟨by rw [hrun]; rfl, ?_, ?_, ?_, ?_, ?_⟩
  · rw [hsettings, List.forall₂_map_right_iff]
    exact List.forall₂_same.2 (fun x _ => rfl)
  · rw [hsettings, List.map_map]
    apply List.map_congr_left
    intro x _
    simp only [Function.comp]
    split
    · rfl
    · split <;> rfl
  · intro hnone
    have hsame : (ProcessMonitorHeart s req now).2.settings = s.settings := by
      rw [hsettings]
      conv_rhs => rw [← List.map_id s.settings]
      apply List.map_congr_left
      intro x hx
      have h1 : ¬ (x.Vkey = "lastheart" ∧ x.User_id = u) := fun h => (hnone x hx h.2).1 h.1
      have h2 : ¬ (x.Vkey = "jkstate" ∧ x.User_id = u) := fun h => (hnone x hx h.2).2 h.1
      simp only [h1, h2, if_false, id]
    have hstore : ProcessMonitorHeart s req now = (none, s) := by
      have h1 : (ProcessMonitorHeart s req now).1 = none := by rw [hrun]; rfl
      have h2 : (ProcessMonitorHeart s req now).2 = s := by
        have hm : (ProcessMonitorHeart s req now).2.merchants = s.merchants := by rw [hrun]; rfl
        have ho : (ProcessMonitorHeart s req now).2.orders = s.orders := by rw [hrun]; rfl
        have ht : (ProcessMonitorHeart s req now).2.tmpPrices = s.tmpPrices := by rw [hrun]; rfl
        cases hs : (ProcessMonitorHeart s req now).2
        cases s
        simp only [hs] at hsame hm ho ht
        simp only [Store.mk.injEq]
        exact ⟨hsame, hm, ho, ht⟩
      exact Prod.ext h1 h2
    have hread : ∀ key : String, (key = "lastheart" ∨ key = "jkstate") →
        GetUserSettingValue s u key = Except.error Err.recordNotFound := by
      intro key hkey
      unfold GetUserSettingValue GetSetting
      have : s.settings.find? (fun r => decide (r.Vkey = key ∧ r.User_id = u)) = none := by
        apply List.find?_eq_none.2
        intro x hx
        simp only [decide_eq_true_eq]
        rintro ⟨hxk, hxu⟩
        rcases hkey with rfl | rfl
        · exact (hnone x hx hxu).1 hxk
        · exact (hnone x hx hxu).2 hxk
      rw [this]
    rw [hstore]
    exact ⟨rfl, hread _ (Or.inl rfl), hread _ (Or.inr rfl)⟩
  · intro hheart
    rw [hrun]
    unfold GetUserSettingValue
    rw [GetSetting_UpdateSetting_other _ u u "lastheart" "jkstate" "1" (by decide)]
    exact GetUserSettingValue_UpdateSetting s u "lastheart" _ hheart
  · intro hjk
    rw [hrun]
    exact GetUserSettingValue_UpdateSetting _ u "jkstate" "1"
      (UpdateSetting_row s u u "jkstate" "lastheart" _ hjk)

/-- C25 witness: the signed heartbeat of Scenario C on the store with the key row
only, and on the scenario store, where the rows exist. -/
theorem heartbeat_updates_existing_rows_witness :
    (resolveUserID keyOnlyStore heartC.AppID = Except.ok 1 ∧
      GetSetting keyOnlyStore 1 "key" = Except.ok ⟨1, "key", "abc"⟩ ∧
      heartC.Sign = md5hex (heartC.T ++ "abc")) ∧
    (ProcessMonitorHeart keyOnlyStore heartC timeA).1 = none ∧
    (ProcessMonitorHeart keyOnlyStore heartC timeA).2.settings.map (fun r => (r.User_id, r.Vkey))
      = [(1, "key")] ∧
    GetUserSettingValue (ProcessMonitorHeart scenarioStore heartC timeA).2 1 "lastheart"
      = Except.ok "1700000120" :=
  ⟨⟨rfl, rfl, md5hex_scenarioC.symm⟩,
   (heartbeat_updates_existing_rows keyOnlyStore heartC timeA 1 ⟨1, "key", "abc"⟩ rfl rfl
     md5hex_scenarioC.symm).1,
   (heartbeat_updates_existing_rows keyOnlyStore heartC timeA 1 ⟨1, "key", "abc"⟩ rfl rfl
     md5hex_scenarioC.symm).2.2.1,
   (heartbeat_updates_existing_rows scenarioStore heartC timeA 1 ⟨1, "key", "abc"⟩ rfl rfl
     md5hex_scenarioC.symm).2.2.2.2.1 ⟨⟨1, "lastheart", ""⟩, by decide, rfl, rfl⟩⟩

/-! ### C26: the user name of a registration -/

/-- What `validateUsername` checks, it checks on the trimmed user name. -/
theorem validateUsername_none (U : GoUnicode) (r : RegisterRequest)
    (h : r.validateUsername U = none) :
    3 ≤ len (TrimSpace r.Username) ∧ len (TrimSpace r.Username) ≤ 50 ∧
    matchUsername (TrimSpace r.Username) = true ∧
    U.IsDigit (Char.ofNat ((utf8Bytes (TrimSpace r.Username)).headD 0)) = false ∧
    ∀ forbidden ∈ forbiddenNames, U.ToLower (TrimSpace r.Username) ≠ forbidden := by
  unfold RegisterRequest.validateUsername at h
  simp only [] at h
  split at h
  · cases h
  · rename_i hlen
    split at h
    · cases h
    · rename_i hmatch
      split at h
      · cases h
      · rename_i hdigit
        split at h
        · cases h
        · rename_i hforb
          refine ⟨by omega, by omega, by simpa using hmatch, by simpa using hdigit, ?_⟩
          intro forbidden hmem heq
          apply hforb
          rw [List.any_eq_true]
          exact ⟨forbidden, hmem, by simpa using heq⟩

/-- A request that `Validate` accepts has passed `validateUsername`. -/
theorem Validate_none (U : GoUnicode) (r : RegisterRequest) (h : r.Validate U = none) :
    r.validateUsername U = none := by
  unfold RegisterRequest.Validate at h
  split at h
  · cases h
  · split at h
    · cases h
    · assumption

/-- A registration that succeeds has passed `Validate`, and the row it returns is
what `Create` made of a row with the user name of the request. -/
theorem Register_ok (U : GoUnicode) (userRepo : UserRepository) (s : Store)
    (m : RateLimitMap) (req : RegisterRequest) (clientIP : String) (now : Time) (user : User)
    (h : (authService.Register U userRepo s m req clientIP now).1 = Except.ok user) :
    req.Validate U = none ∧
    ∃ role : String, userRepo.Create
      { Id := 0, Username := req.Username, Email := req.Email, Password := req.Password,
        Role := role, Status := StatusEnabled } = Except.ok user := by
  unfold authService.Register at h
  split at h
  · cases h
  · split at h
    · cases h
    · simp only [] at h
      split at h
      · cases h
      · split at h
        · cases h
        · rename_i hval
          split at h
          · cases h
          · cases h
          · split at h
            · cases h
            · cases h
            · split at h
              · cases h
              · rename_i config _ _ _ _ _ _ _ stored hcreate
                simp only [Except.ok.injEq] at h
                subst h
                exact ⟨hval, _, hcreate⟩

set_option maxRecDepth 100000 in
/-- C26 (evaluation). The request with the user name `alice` followed by a blank
passes `Validate`, and `Register` stores the user name with the blank, which is not
a letter, a digit or an underscore.  `validateUsername` checks the rule on
`strings.TrimSpace(r.Username)`: for every request that `Validate` accepts, the
trimmed user name has 3 to 50 bytes, consists of letters, digits and underscores,
does not start with a digit and is in lower case none of the forbidden names; and
every successful `Register` has handed the user name of the request, as given, to
`Create`. -/
theorem register_stores_untrimmed_username :
    registerAlice.Validate asciiUnicode = none ∧
    (authService.Register asciiUnicode emptyUserRepository registerStore noRateLimitEntries
        registerAlice "203.0.113.7" timeA).1 =
      Except.ok { Id := 2, Username := "alice ", Email := "alice@example.com",
                  Password := "passw0rd1", Role := "admin", Status := 1 } ∧
    TrimSpace "alice " = "alice" ∧
    matchUsername "alice " = false ∧
    (∀ (U : GoUnicode) (r : RegisterRequest), r.Validate U = none →
      3 ≤ len (TrimSpace r.Username) ∧ len (TrimSpace r.Username) ≤ 50 ∧
      matchUsername (TrimSpace r.Username) = true ∧
      U.IsDigit (Char.ofNat ((utf8Bytes (TrimSpace r.Username)).headD 0)) = false ∧
      ∀ forbidden ∈ forbiddenNames, U.ToLower (TrimSpace r.Username) ≠ forbidden) ∧
    (∀ (U : GoUnicode) (userRepo : UserRepository) (s : Store) (m : RateLimitMap)
        (req : RegisterRequest) (clientIP : String) (now : Time) (user : User),
      (authService.Register U userRepo s m req clientIP now).1 = Except.ok user →
      ∃ role : String, userRepo.Create
        { Id := 0, Username := req.Username, Email := req.Email, Password := req.Password,
          Role := role, Status := StatusEnabled } = Except.ok user) := by
  refine ⟨by decide, by rfl, by decide, by decide, ?_, ?_⟩
  · intro U r h
    exact validateUsername_none U r (Validate_none U r h)
  · intro U userRepo s m req clientIP now user h
    exact (Register_ok U userRepo s m req clientIP now user h).2

/-! ### C27: the rate limit of the registration -/

/-- A call of `checkRateLimit` leaves the entries of the other clients alone. -/
theorem checkRateLimit_other (m : RateLimitMap) (clientIP other : String) (limit : Int)
    (now : Time) (hne : other ≠ clientIP) :
    (authService.checkRateLimit m clientIP limit now).2 other = m other := by
  unfold authService.checkRateLimit
  split
  · simp [RateLimitMap.set, hne]
  · split
    · simp [RateLimitMap.set, hne]
    · split
      · rfl
      · simp [RateLimitMap.set, hne]

/-- A call of `checkRateLimit` inside the window of the client: it fails once the
count has reached the limit, and otherwise succeeds and counts. -/
theorem checkRateLimit_inside (m : RateLimitMap) (clientIP : String) (limit : Int)
    (now : Time) (c : Int) (r : Time) (hm : m clientIP = some ⟨c, r⟩)
    (hw : now.After r = false) :
    (c ≥ limit → authService.checkRateLimit m clientIP limit now =
      (some (AuthError.message rateLimitMessage), m)) ∧
    (c < limit → (authService.checkRateLimit m clientIP limit now).1 = none ∧
      (authService.checkRateLimit m clientIP limit now).2 clientIP = some ⟨c + 1, r⟩) := by
  unfold authService.checkRateLimit
  simp only [hm, hw, Bool.false_eq_true, if_false]
  constructor
  · intro h
    rw [if_pos h]
  · intro h
    rw [if_neg (not_le.2 h)]
    exact ⟨rfl, by simp [RateLimitMap.set]⟩

/-- The outcomes of the calls of a client inside its window, from an entry with
count `c`: the first `limit - c` succeed, the later ones fail. -/
theorem successesOf_inside (clientIP : String) (limit : Int) :
    ∀ (calls : List (String × Time)) (m : RateLimitMap) (c : Int) (r : Time),
    m clientIP = some ⟨c, r⟩ →
    (∀ call ∈ calls, call.1 = clientIP → call.2.After r = false) →
    authService.successesOf clientIP calls (authService.checkRateLimitCalls limit m calls).1 =
      List.replicate (min (calls.filter (fun call => decide (call.1 = clientIP))).length
          (limit - c).toNat) true ++
      List.replicate ((calls.filter (fun call => decide (call.1 = clientIP))).length -
          min (calls.filter (fun call => decide (call.1 = clientIP))).length
            (limit - c).toNat) false := by
  intro calls
  induction calls with
  | nil =>
    intro m c r _ _
    simp [authService.successesOf, authService.checkRateLimitCalls]
  | cons call calls ih =>
    intro m c r hm hw
    have hw' : ∀ call' ∈ calls, call'.1 = clientIP → call'.2.After r = false :=
      fun call' h => hw call' (List.mem_cons_of_mem _ h)
    by_cases hip : call.1 = clientIP
    · have hin := checkRateLimit_inside m clientIP limit call.2 c r hm
        (hw call (List.mem_cons_self _ _) hip)
      have hstep : authService.successesOf clientIP (call :: calls)
          (authService.checkRateLimitCalls limit m (call :: calls)).1 =
          (authService.checkRateLimit m clientIP limit call.2).1.isNone ::
            authService.successesOf clientIP calls
              (authService.checkRateLimitCalls limit
                (authService.checkRateLimit m clientIP limit call.2).2 calls).1 := by
        simp [authService.successesOf, authService.checkRateLimitCalls, hip]
      have hlen : ((call :: calls).filter (fun call => decide (call.1 = clientIP))).length =
          (calls.filter (fun call => decide (call.1 = clientIP))).length + 1 := by
        simp [List.filter_cons, hip]
      rw [hstep, hlen]
      by_cases hc : c ≥ limit
      · rw [hin.1 hc]
        rw [ih m c r hm hw']
        have h0 : (limit - c).toNat = 0 := by omega
        simp [h0, List.replicate_succ]
      · have hc' : c < limit := not_le.1 hc
        obtain ⟨h1, h2⟩ := hin.2 hc'
        rw [h1, ih _ (c + 1) r h2 hw']
        have hn : (limit - c).toNat = (limit - (c + 1)).toNat + 1 := by omega
        rw [hn, Nat.succ_min_succ, List.replicate_succ, Nat.add_sub_add_right]
        simp
    · have hother : (authService.checkRateLimit m call.1 limit call.2).2 clientIP =
          some ⟨c, r⟩ := by
        rw [checkRateLimit_other m call.1 clientIP limit call.2 (fun h => hip h.symm)]
        exact hm
      have hstep : authService.successesOf clientIP (call :: calls)
          (authService.checkRateLimitCalls limit m (call :: calls)).1 =
            authService.successesOf clientIP calls
              (authService.checkRateLimitCalls limit
                (authService.checkRateLimit m call.1 limit call.2).2 calls).1 := by
        simp [authService.successesOf, authService.checkRateLimitCalls, hip]
      have hlen : ((call :: calls).filter (fun call => decide (call.1 = clientIP))).length =
          (calls.filter (fun call => decide (call.1 = clientIP))).length := by
        simp [List.filter_cons, hip]
      rw [hstep, hlen]
      exact ih _ c r hother hw'

set_option maxRecDepth 100000 in
/-- C27 (counterexample). With the limit 0, and with the limit -3, the first call of
a client opens a window and returns nil; the two calls that follow within the hour
fail.  One call of the window has succeeded, which is more than the limit.  The
store of the scenario configures the limit 0, and its first registration goes
through. -/
theorem rate_limit_zero_admits_first_call :
    (authService.checkRateLimit noRateLimitEntries "203.0.113.7" 0 timeA).1 = none ∧
    (authService.checkRateLimitCalls 0 noRateLimitEntries
        [("203.0.113.7", timeA), ("203.0.113.7", timeB), ("203.0.113.7", timeB6)]).1 =
      [none, some (AuthError.message rateLimitMessage),
       some (AuthError.message rateLimitMessage)] ∧
    (authService.checkRateLimitCalls (-3) noRateLimitEntries
        [("203.0.113.7", timeA), ("203.0.113.7", timeB), ("203.0.113.7", timeB6)]).1 =
      [none, some (AuthError.message rateLimitMessage),
       some (AuthError.message rateLimitMessage)] ∧
    timeB6.After (timeA.Add Hour) = false ∧
    (authService.getRegisterConfig registerStore).toOption.map RegisterConfig.RateLimit
      = some 0 ∧
    (authService.Register asciiUnicode emptyUserRepository registerStore noRateLimitEntries
        { registerAlice with Username := "alice" } "203.0.113.7" timeA).1.toOption =
      some { Id := 2, Username := "alice", Email := "alice@example.com",
             Password := "passw0rd1", Role := "admin", Status := 1 } := by
  refine ⟨by decide, by decide, by decide, by decide, by decide, by decide⟩

/-- C27 (amended). The first call of a client in a window (the client has no entry,
or the call comes after the reset time of its entry) returns nil whatever the limit
`L` is, and sets the reset time one hour later.  Of the `k` calls of the client that
follow until that reset time, among calls of other clients, the first `L - 1`
return nil and the later ones fail.  So of the `k + 1` calls of the window exactly
`min (k + 1) (max L 1)` succeed: for `L ≥ 1` the first `L`, and for `L ≤ 0` the
first one.  A call leaves the entries of the other clients as they are. -/
theorem rate_limit_window (m : RateLimitMap) (clientIP : String) (L : Int) (t0 : Time)
    (calls : List (String × Time))
    (hopen : m clientIP = none ∨ ∃ e, m clientIP = some e ∧ t0.After e.resetTime = true)
    (hwin : ∀ call ∈ calls, call.1 = clientIP → call.2.After (t0.Add Hour) = false) :
    (authService.checkRateLimit m clientIP L t0).1 = none ∧
    (authService.checkRateLimit m clientIP L t0).2 clientIP = some ⟨1, t0.Add Hour⟩ ∧
    authService.successesOf clientIP calls
        (authService.checkRateLimitCalls L (authService.checkRateLimit m clientIP L t0).2
          calls).1 =
      List.replicate (min (calls.filter (fun call => decide (call.1 = clientIP))).length
          (L - 1).toNat) true ++
      List.replicate ((calls.filter (fun call => decide (call.1 = clientIP))).length -
          min (calls.filter (fun call => decide (call.1 = clientIP))).length
            (L - 1).toNat) false ∧
    (authService.successesOf clientIP calls
        (authService.checkRateLimitCalls L (authService.checkRateLimit m clientIP L t0).2
          calls).1).count true + 1 =
      min ((calls.filter (fun call => decide (call.1 = clientIP))).length + 1)
        (max L 1).toNat ∧
    (∀ (m' : RateLimitMap) (other : String) (L' : Int) (t : Time), other ≠ clientIP →
      (authService.checkRateLimit m' clientIP L' t).2 other = m' other) := by
  have hfirst : authService.checkRateLimit m clientIP L t0 =
      (none, m.set clientIP { count := 1, resetTime := t0.Add Hour }) := by
    unfold authService.checkRateLimit
    rcases hopen with h | ⟨e, h, ha⟩
    · simp only [h]
    · simp only [h, ha, if_true]
  have hentry : (authService.checkRateLimit m clientIP L t0).2 clientIP =
      some ⟨1, t0.Add Hour⟩ := by
    rw [hfirst]
    simp [RateLimitMap.set]
  have hrest := successesOf_inside clientIP L calls _ 1 (t0.Add Hour) hentry hwin
  refine ⟨by rw [hfirst], hentry, hrest, ?_, ?_⟩
  · rw [hrest, List.count_append, List.count_replicate_self]
    have h0 : List.count true (List.replicate
        ((calls.filter (fun call => decide (call.1 = clientIP))).length -
          min (calls.filter (fun call => decide (call.1 = clientIP))).length (L - 1).toNat)
        false) = 0 := by
      rw [List.count_eq_zero]
      intro h
      have := List.eq_of_mem_replicate h
      cases this
    rw [h0]
    omega
  · intro m' other L' t hne
    exact checkRateLimit_other m' clientIP other L' t hne

/-- C27 witness: with the limit 2, a client calls three times within six minutes,
another client once in between: its first two calls return nil, the third fails. -/
theorem rate_limit_window_witness :
    (noRateLimitEntries "203.0.113.7" = none ∧
      ∀ call ∈ burstCalls.tail, call.1 = "203.0.113.7" →
        call.2.After (timeA.Add Hour) = false) ∧
    (authService.checkRateLimitCalls 2 noRateLimitEntries burstCalls).1 =
      [none, none, none, some (AuthError.message rateLimitMessage)] ∧
    authService.successesOf "203.0.113.7" burstCalls.tail
        (authService.checkRateLimitCalls 2
          (authService.checkRateLimit noRateLimitEntries "203.0.113.7" 2 timeA).2
          burstCalls.tail).1 = [true, false] :=
  ⟨⟨rfl, by decide⟩, by decide,
   (rate_limit_window noRateLimitEntries "203.0.113.7" 2 timeA burstCalls.tail (Or.inl rfl)
     (by decide)).2.2.1⟩

/-! ### C28: the write of the reclaim is conditional -/

/-- C28. The write of the reclaim is a conditional update.  Let the select of
`CloseExpiredOrdersWithMinutes` read the table of `s` and its batch update run on
the table of `sWrite`, whatever has happened in between.  The call returns no
error.  Every row of the table at write time that is not pending is left as it is,
so a selected order that has been paid in between keeps `state = paid`, its
`pay_date` and its `close_date`; every row is unchanged or was pending at write
time and is now closed with `close_date` the clock reading; and the number
returned is the number of rows that were pending at write time and are closed now,
so a row paid in between is not counted.  On an unchanged table the call is
`CloseExpiredOrdersWithMinutes`. -/
theorem reclaim_write_conditional (s sWrite : Store) (userID : Option Nat)
    (limit expireMinutes : Int) (now closeNow : Time) :
    (CloseExpiredOrdersWithMinutesBetween s sWrite userID limit expireMinutes now closeNow).2.1
      = none ∧
    List.Forall₂ (fun o o' => (o.State ≠ OrderStatusPending → o' = o) ∧
        (o' = o ∨ (o.State = OrderStatusPending ∧
          o' = { o with State := OrderStatusClosed, Close_date := closeNow.Unix })))
      sWrite.orders
      (CloseExpiredOrdersWithMinutesBetween s sWrite userID limit expireMinutes
        now closeNow).2.2.orders ∧
    (CloseExpiredOrdersWithMinutesBetween s sWrite userID limit expireMinutes now closeNow).1 =
      (((sWrite.orders.zip
          (CloseExpiredOrdersWithMinutesBetween s sWrite userID limit expireMinutes
            now closeNow).2.2.orders).filter
        (fun p => decide (p.1.State = OrderStatusPending ∧ p.2.State = OrderStatusClosed))).length
        : Int) ∧
    CloseExpiredOrdersWithMinutesBetween s s userID limit expireMinutes now closeNow =
      CloseExpiredOrdersWithMinutes s userID limit expireMinutes now closeNow := by
  have hpc : OrderStatusPending ≠ OrderStatusClosed := by decide
  have hpend : ∀ (L : List Order) (o : Order),
      closeCond (expireTime now expireMinutes) userID limit L o = true →
      o.State = OrderStatusPending := by
    intro L o hc
    simp only [closeCond, expiredCond, Bool.and_eq_true, decide_eq_true_eq] at hc
    exact hc.1.1.1
  refine ⟨?_, ?_, ?_, rfl⟩
  · unfold CloseExpiredOrdersWithMinutesBetween
    simp only
    split <;> rfl
  · unfold CloseExpiredOrdersWithMinutesBetween
    simp only
    split
    · exact List.forall₂_same.2 (fun o _ => ⟨fun _ => rfl, Or.inl rfl⟩)
    · simp only [closeUpdate, List.forall₂_map_right_iff]
      apply List.forall₂_same.2
      intro o _
      split
      · rename_i hc
        have hp := hpend _ o hc
        exact ⟨fun hne => absurd hp hne, Or.inr ⟨hp, rfl⟩⟩
      · exact ⟨fun _ => rfl, Or.inl rfl⟩
  · unfold CloseExpiredOrdersWithMinutesBetween
    simp only
    split
    · have : (sWrite.orders.zip sWrite.orders).filter
          (fun p => decide (p.1.State = OrderStatusPending ∧ p.2.State = OrderStatusClosed))
          = [] := by
        apply List.filter_eq_nil_iff.2
        intro p hp
        have heq : p.1 = p.2 := by
          have := List.forall₂_zip (List.forall₂_same.2 (fun (o : Order) _ => rfl)) hp
          exact this
        simp only [decide_eq_true_eq, not_and]
        intro h1 h2
        rw [← heq, h1] at h2
        exact hpc h2
      rw [this]
      rfl
    · simp only [closeUpdate]
      congr 1
      symm
      apply length_filter_zip_map
      intro o
      split
      · rename_i hc
        have hp := hpend _ o hc
        simp [hp, hc]
      · rename_i hc
        have hc' : closeCond (expireTime now expireMinutes) userID limit
            (findOrdersToClose s (expireTime now expireMinutes) userID limit) o = false := by
          simpa using hc
        rw [hc']
        simp only [decide_eq_false_iff_not, not_and]
        intro h1 h2
        rw [h1] at h2
        exact hpc h2

set_option maxRecDepth 1000000 in
/-- C28 on the backlog: the select at `T0 + 5m30s` returns A, B and C; the push of
Scenario A pays B before the update; the update closes A and C and returns 2, and
B is paid with its `pay_date` and `close_date = 0`. -/
theorem reclaim_write_conditional_scenario :
    (findOrdersToClose backlogStore (expireTime timeB 5) none 100).map Order.Order_id
      = ["A", "B", "C"] ∧
    (ProcessMonitorPush parseDecimal backlogStore pushA timeA timeA timeA).2 =
      backlogPaidStore ∧
    (CloseExpiredOrdersWithMinutesBetween backlogStore backlogPaidStore none 100 5
        timeB timeB).1 = 2 ∧
    (CloseExpiredOrdersWithMinutesBetween backlogStore backlogPaidStore none 100 5
        timeB timeB).2.2.orders =
      [{ orderA with State := -1, Close_date := 1700000330 },
       { orderB with State := 1, Pay_date := 1700000120, Close_date := 0 },
       { orderC with State := -1, Close_date := 1700000330 },
       orderD] := by
  refine ⟨by decide, by decide, by decide, by decide⟩

/-! ### C29: the signed string of a push has no field boundaries -/

/-- A push that passes verification and whose price and type parse returns nil. -/
theorem ProcessMonitorPush_accepted (ParseFloat : String → Option Float64) (s : Store)
    (req : MonitorPushRequest) (payNow saveNow markNow : Time) (u : Nat) (k : Setting)
    (price : Float64) (orderType : Int)
    (hu : resolveUserID s req.AppID = Except.ok u)
    (hk : GetSetting s u "key" = Except.ok k)
    (hsig : req.Sign = md5hex (req.Type_ ++ req.Price ++ req.T ++ k.Vvalue))
    (hp : ParseFloat req.Price = some price)
    (ht : Atoi req.Type_ = some orderType) :
    (ProcessMonitorPush ParseFloat s req payNow saveNow markNow).1 = none := by
  simp only [ProcessMonitorPush, hu, pushAs, hk, hsig, ne_eq, not_true_eq_false, if_false,
    hp, ht]
  rfl

/-- Whether a push is rejected with `ErrInvalidSign` depends on its `appid`, its
`sign` and the concatenation `type ++ price ++ t` only. -/
theorem ProcessMonitorPush_invalidSign_congr (ParseFloat : String → Option Float64) (s : Store)
    (req req' : MonitorPushRequest) (payNow saveNow markNow payNow' saveNow' markNow' : Time)
    (happ : req'.AppID = req.AppID) (hsign : req'.Sign = req.Sign)
    (hcat : req'.Type_ ++ req'.Price ++ req'.T = req.Type_ ++ req.Price ++ req.T) :
    (ProcessMonitorPush ParseFloat s req' payNow' saveNow' markNow').1 = some Err.invalidSign →
    (ProcessMonitorPush ParseFloat s req payNow saveNow markNow).1 = some Err.invalidSign := by
  unfold ProcessMonitorPush
  rw [happ]
  cases hres : resolveUserID s req.AppID with
  | error e => exact id
  | ok u =>
    simp only [pushAs]
    cases hkey : GetSetting s u "key" with
    | error e => exact id
    | ok k =>
      simp only [hsign, hcat]
      by_cases hs : req.Sign = md5hex (req.Type_ ++ req.Price ++ req.T ++ k.Vvalue)
      · simp only [hs, ne_eq, not_true_eq_false, if_false]
        intro h
        exfalso
        revert h
        cases ParseFloat req'.Price with
        | none => simp
        | some p =>
          cases Atoi req'.Type_ with
          | none => simp
          | some ty =>
            simp only []
            intro h
            cases h
      · simp only [ne_eq, hs, not_false_eq_true, if_true]
        intro _
        trivial

/-- C29. The signed string of a push has no field boundaries.  Two pushes with the
same `appid` and `sign` and the same concatenation `type ++ price ++ t` are rejected
with `ErrInvalidSign` together or not at all, and against every secret the
signature of the one verifies the other.  For every account, whatever its secret,
and every `t`: the pushes `type = 1, price = 1.01` and `type = 11, price = .01` differ,
have the same signed string, and with the signature of the first both are accepted
(`ProcessMonitorPush` returns nil), both having a numeric type and price. -/
theorem push_field_boundary :
    (∀ (ParseFloat : String → Option Float64) (s : Store) (req req' : MonitorPushRequest)
        (payNow saveNow markNow payNow' saveNow' markNow' : Time),
      req'.AppID = req.AppID → req'.Sign = req.Sign →
      req'.Type_ ++ req'.Price ++ req'.T = req.Type_ ++ req.Price ++ req.T →
      (((ProcessMonitorPush ParseFloat s req payNow saveNow markNow).1 = some Err.invalidSign ↔
        (ProcessMonitorPush ParseFloat s req' payNow' saveNow' markNow').1
          = some Err.invalidSign) ∧
       ∀ key : String,
        (req.Sign = md5hex (req.Type_ ++ req.Price ++ req.T ++ key) ↔
          req'.Sign = md5hex (req'.Type_ ++ req'.Price ++ req'.T ++ key)))) ∧
    (∀ (s : Store) (appid t : String) (u : Nat) (k : Setting)
        (payNow saveNow markNow payNow' saveNow' markNow' : Time),
      resolveUserID s appid = Except.ok u → GetSetting s u "key" = Except.ok k →
      (({ T := t, Sign := md5hex ("1" ++ "1.01" ++ t ++ k.Vvalue), AppID := appid,
          Type_ := "1", Price := "1.01" } : MonitorPushRequest) ≠
        { T := t, Sign := md5hex ("1" ++ "1.01" ++ t ++ k.Vvalue), AppID := appid,
          Type_ := "11", Price := ".01" }) ∧
      ("1" ++ "1.01" ++ t ++ k.Vvalue = "11" ++ ".01" ++ t ++ k.Vvalue) ∧
      (ProcessMonitorPush parseDecimal s
        { T := t, Sign := md5hex ("1" ++ "1.01" ++ t ++ k.Vvalue), AppID := appid,
          Type_ := "1", Price := "1.01" } payNow saveNow markNow).1 = none ∧
      (ProcessMonitorPush parseDecimal s
        { T := t, Sign := md5hex ("1" ++ "1.01" ++ t ++ k.Vvalue), AppID := appid,
          Type_ := "11", Price := ".01" } payNow' saveNow' markNow').1 = none) ∧
    (parseDecimal "1.01" = some (Float64.finite (mkRat 101 100)) ∧ Atoi "1" = some 1 ∧
      parseDecimal ".01" = some (Float64.finite (mkRat 1 100)) ∧ Atoi "11" = some 11) := by
  have hcat0 : ("1" : String) ++ "1.01" = "11" ++ ".01" := by decide
  have hne : ("1" : String) ≠ "11" := by decide
  have hp1 : parseDecimal "1.01" = some (Float64.finite (mkRat 101 100)) := by decide
  have ht1 : Atoi "1" = some 1 := by decide
  have hp2 : parseDecimal ".01" = some (Float64.finite (mkRat 1 100)) := by decide
  have ht2 : Atoi "11" = some 11 := by decide
  refine ⟨?_, ?_, ⟨hp1, ht1, hp2, ht2⟩⟩
  · intro ParseFloat s req req' payNow saveNow markNow payNow' saveNow' markNow' happ hsign hcat
    refine ⟨⟨?_, ?_⟩, ?_⟩
    · exact ProcessMonitorPush_invalidSign_congr ParseFloat s req' req payNow' saveNow' markNow'
        payNow saveNow markNow happ.symm hsign.symm hcat.symm
    · exact ProcessMonitorPush_invalidSign_congr ParseFloat s req req' payNow saveNow markNow
        payNow' saveNow' markNow' happ hsign hcat
    · intro key
      rw [hsign, hcat]
  · intro s appid t u k payNow saveNow markNow payNow' saveNow' markNow' hu hk
    refine ⟨?_, ?_, ?_, ?_⟩
    · intro h
      exact hne (congrArg MonitorPushRequest.Type_ h)
    · rw [hcat0]
    · exact ProcessMonitorPush_accepted parseDecimal s _ payNow saveNow markNow u k
        (Float64.finite (mkRat 101 100)) 1 hu hk rfl hp1 ht1
    · exact ProcessMonitorPush_accepted parseDecimal s _ payNow' saveNow' markNow' u k
        (Float64.finite (mkRat 1 100)) 11 hu hk (by simp only [hcat0]) hp2 ht2

set_option maxRecDepth 1000000 in
/-- C29 witness (Scenario A): the push `type = 1, price = 1.01` signed for the
bootstrap account, and the same fields with `type = 11, price = .01`, are both
accepted on the scenario store; the first pays O1, the second leaves it pending. -/
theorem push_field_boundary_witness :
    (resolveUserID scenarioStore "" = Except.ok 1 ∧
      GetSetting scenarioStore 1 "key" = Except.ok ⟨1, "key", "abc"⟩) ∧
    pushA.Sign = md5hex ("1" ++ "1.01" ++ "1700000120" ++ "abc") ∧
    ((ProcessMonitorPush parseDecimal scenarioStore
        { T := "1700000120", Sign := md5hex ("1" ++ "1.01" ++ "1700000120" ++ "abc"),
          AppID := "", Type_ := "1", Price := "1.01" } timeA timeA timeA).1 = none ∧
     (ProcessMonitorPush parseDecimal scenarioStore
        { T := "1700000120", Sign := md5hex ("1" ++ "1.01" ++ "1700000120" ++ "abc"),
          AppID := "", Type_ := "11", Price := ".01" } timeA timeA timeA).1 = none) ∧
    ((ProcessMonitorPush parseDecimal scenarioStore pushA timeA timeA timeA).2.orders.map
        Order.State = [1]) ∧
    ((ProcessMonitorPush parseDecimal scenarioStore pushShifted timeA timeA timeA).1 = none ∧
      (ProcessMonitorPush parseDecimal scenarioStore pushShifted timeA timeA timeA).2.orders.map
        Order.State = [0]) :=
  ⟨⟨rfl, rfl⟩, by decide,
   (push_field_boundary.2.1 scenarioStore "" "1700000120" 1 ⟨1, "key", "abc"⟩
     timeA timeA timeA timeA timeA timeA rfl rfl).2.2,
   by decide, by decide⟩

/-! ### C30: the status computed at read time and the sweep -/

/-- The status is 1 exactly for the values that the sweep does not mark. -/
theorem calculateMonitorStatus_one (v : String) (now : Time) :
    calculateMonitorStatus v now = 1 ↔ marksOffline now.Unix v = false := by
  unfold calculateMonitorStatus marksOffline
  by_cases he : v = ""
  · simp [he]
  · simp only [he, if_false, decide_False, Bool.false_or]
    cases ParseInt v with
    | none => simp
    | some h =>
      simp only []
      by_cases hpos : h ≤ 0
      · simp [hpos]
      · by_cases hw : wrapInt64 (now.Unix - h) < heartbeatTimeout
        · simp [hpos, hw]
        · have hw' : heartbeatTimeout ≤ wrapInt64 (now.Unix - h) := not_lt.1 hw
          simp [hpos, hw, hw']

/-- C30. The status computed at read time agrees with the sweep, for a clock
reading `now` that is a non-negative `int64`.  `calculateMonitorStatus` returns 0,
1 or 2.  It returns 1 exactly when the loop body of `CheckAndUpdateMonitorStatus`
for a `lastheart` row with that value writes nothing, whatever the store and the
account; otherwise the loop body is the write of `jkstate = "0"`.  It returns 2
exactly when the value parses to an `h > 0` with `now - h ≥ 180`, and 0 exactly when
the value is empty, does not parse, or parses to an `h ≤ 0`; in both cases the sweep
marks the account.  For the sweep as a whole: the rows of an account all of whose
`lastheart` values have status 1 are unchanged, and the `jkstate` rows of an account
with a `lastheart` value of another status hold `"0"` afterwards. -/
theorem read_time_liveness (now : Time)
    (h0 : 0 ≤ now.Unix) (h1 : now.Unix < 9223372036854775808) :
    (∀ v : String, calculateMonitorStatus v now = 0 ∨ calculateMonitorStatus v now = 1 ∨
      calculateMonitorStatus v now = 2) ∧
    (∀ v : String, calculateMonitorStatus v now = 1 ↔
      ∀ (s : Store) (u : Nat), checkMonitorRow now.Unix s ⟨u, "lastheart", v⟩ = s) ∧
    (∀ (v : String) (s : Store) (u : Nat), calculateMonitorStatus v now ≠ 1 →
      checkMonitorRow now.Unix s ⟨u, "lastheart", v⟩ = (UpdateSetting s u "jkstate" "0").2) ∧
    (∀ v : String, calculateMonitorStatus v now = 2 ↔
      ∃ h, ParseInt v = some h ∧ 0 < h ∧ now.Unix - h ≥ 180) ∧
    (∀ v : String, calculateMonitorStatus v now = 0 ↔
      (v = "" ∨ ParseInt v = none ∨ ∃ h, ParseInt v = some h ∧ h ≤ 0)) ∧
    (∀ (s : Store) (u : Nat),
      (∀ l ∈ s.settings, l.Vkey = "lastheart" → l.User_id = u →
        calculateMonitorStatus l.Vvalue now = 1) →
      List.Forall₂ (fun x y => x.User_id = u → y = x)
        s.settings (CheckAndUpdateMonitorStatus s now).2.settings) ∧
    (∀ (s : Store) (l : Setting), l ∈ s.settings → l.Vkey = "lastheart" →
      calculateMonitorStatus l.Vvalue now ≠ 1 →
      List.Forall₂ (fun x y => x.Vkey = "jkstate" → x.User_id = l.User_id →
          y = { x with Vvalue := "0" })
        s.settings (CheckAndUpdateMonitorStatus s now).2.settings) := by
  have h01 : ("1" : String) ≠ "0" := by decide
  have hmark : ∀ v : String, calculateMonitorStatus v now ≠ 1 →
      marksOffline now.Unix v = true := by
    intro v hne
    by_contra hm
    exact hne ((calculateMonitorStatus_one v now).2 (by simpa using hm))
  refine ⟨?_, ?_, ?_, ?_, ?_, ?_, ?_⟩
  · intro v
    unfold calculateMonitorStatus
    split
    · exact Or.inl rfl
    · split
      · exact Or.inl rfl
      · split
        · exact Or.inl rfl
        · simp only []
          split
          · exact Or.inr (Or.inl rfl)
          · exact Or.inr (Or.inr rfl)
  · intro v
    rw [calculateMonitorStatus_one]
    constructor
    · intro hm s u
      rw [checkMonitorRow_eq]
      simp [hm]
    · intro hall
      by_contra hm
      have hm' : marksOffline now.Unix v = true := by simpa using hm
      have := hall { settings := [⟨0, "jkstate", "1"⟩], merchants := [], orders := [],
                     tmpPrices := [] } 0
      rw [checkMonitorRow_eq] at this
      simp only [hm', if_true, UpdateSetting, List.map_cons, List.map_nil, and_self,
        Store.mk.injEq, List.cons.injEq, Setting.mk.injEq, and_true, true_and] at this
      exact h01 this.symm
  · intro v s u hne
    rw [checkMonitorRow_eq]
    simp [hmark v hne]
  · intro v
    unfold calculateMonitorStatus
    by_cases he : v = ""
    · subst he
      have : ParseInt "" = none := by decide
      simp [this]
    · simp only [he, if_false]
      cases hp : ParseInt v with
      | none => simp
      | some h =>
        obtain ⟨hlo, hhi⟩ := ParseInt_range v h hp
        simp only [Option.some.injEq, exists_eq_left']
        by_cases hpos : h ≤ 0
        · simp only [hpos, if_true]
          constructor
          · intro h; cases h
          · rintro ⟨hgt, -⟩; omega
        · have hw : wrapInt64 (now.Unix - h) = now.Unix - h :=
            wrapInt64_of_range _ (by omega) (by omega)
          simp only [hpos, if_false, hw, heartbeatTimeout]
          constructor
          · intro h2
            split at h2
            · cases h2
            · exact ⟨by omega, by omega⟩
          · rintro ⟨_, hge⟩
            rw [if_neg (by omega)]
  · intro v
    unfold calculateMonitorStatus
    by_cases he : v = ""
    · simp [he]
    · simp only [he, if_false, false_or]
      cases hp : ParseInt v with
      | none => simp
      | some h =>
        simp only [reduceCtorEq, Option.some.injEq, exists_eq_left', false_or]
        by_cases hpos : h ≤ 0
        · simp [hpos]
        · simp only [hpos, if_false, iff_false]
          split <;> decide
  · intro s u hall
    rw [CheckAndUpdateMonitorStatus_eq]
    simp only [List.forall₂_map_right_iff]
    apply List.forall₂_same.2
    intro x _ hxu
    rw [if_neg]
    rintro ⟨_, l, hl, hk, hlu, hm⟩
    have := (calculateMonitorStatus_one l.Vvalue now).1 (hall l hl hk (hlu.trans hxu))
    rw [this] at hm
    cases hm
  · intro s l hl hk hne
    rw [CheckAndUpdateMonitorStatus_eq]
    simp only [List.forall₂_map_right_iff]
    apply List.forall₂_same.2
    intro x _ hxk hxu
    rw [if_pos ⟨hxk, l, hl, hk, hxu.symm, hmark _ hne⟩]

/-- C30 witness: at `T0 + 3m20s` a heartbeat of `T0 + 2m` has status 1, one of
`T0` status 2, and the empty, the unparsable and the zero value status 0; the sweep
at that instant leaves the rows of account 1 of the online store, whose heartbeat
is 80 seconds old. -/
theorem read_time_liveness_witness :
    (0 ≤ timeS.Unix ∧ timeS.Unix < 9223372036854775808) ∧
    (calculateMonitorStatus "1700000120" timeS = 1 ∧
      calculateMonitorStatus "1700000000" timeS = 2 ∧
      calculateMonitorStatus "" timeS = 0 ∧ calculateMonitorStatus "soon" timeS = 0 ∧
      calculateMonitorStatus "0" timeS = 0) ∧
    List.Forall₂ (fun x y => x.User_id = 1 → y = x)
      onlineStore.settings (CheckAndUpdateMonitorStatus onlineStore timeS).2.settings :=
  ⟨⟨by decide, by decide⟩, by decide,
   (read_time_liveness timeS (by decide) (by decide)).2.2.2.2.2.1 onlineStore 1 (by decide)⟩

end Vmqfox
